import Mathlib

/-!
# Ventoy file browser (grub-core/ventoy/ventoy_browser.c)

A shallow embedding of the menu generation engine of the Ventoy file browser
and the properties established about it.

Conventions of the embedding

* A C string is the list of its characters before the terminating NUL; each
  character is the `int` value of the `char` object, so both signed and
  unsigned `char` platforms are covered.  Reading `*s` on an exhausted list
  reads the terminator, that is `0`.
* The registry `g_browser_list` is the list of its nodes in `next` order, the
  head of the list being `g_browser_list` itself.  A node pointer is a position
  in that list.
* External collaborators (allocator, file system, name validator, size
  formatter) are explicit parameters.
* A loop `while (1)` takes a fuel argument, one unit per iteration, and returns
  `none` when the fuel runs out; the theorems give the fuel that suffices.
-/

namespace Ventoy

/-- A C string: the characters before the terminating NUL. -/
abbrev CStr := List Int

/-- The characters of a string literal. -/
def cstr (s : String) : CStr := s.toList.map (fun c => (c.toNat : Int))

/-- The character a `char *` points at: the head, or the terminating NUL. -/
def deref (s : CStr) : Int := s.headD 0

/-- Conversion `(grub_uint8_t) c`. -/
def u8 (c : Int) : Int := c % 256

/-- Library routine `grub_islower` of include/grub/misc.h. -/
def grub_islower (c : Int) : Bool := decide (97 ≤ c ∧ c ≤ 122)

/-- Library routine `grub_tolower` of include/grub/misc.h. -/
def grub_tolower (c : Int) : Int := if 65 ≤ c ∧ c ≤ 90 then c - 65 + 97 else c

/-- Library routine `grub_strlen`. -/
def grub_strlen (s : CStr) : Int := (s.length : Int)

/-! ## The comparator -/

/-- The character normalisation inside the loop of `ventoy_browser_strcmp`:
with `g_sort_case_sensitive == 0` a lower case letter becomes `c - 'a' + 'A'`. -/
def browser_norm (g_sort_case_sensitive : Int) (c : Int) : Int :=
  if g_sort_case_sensitive = 0 then (if grub_islower c then c - 97 + 65 else c) else c

/-- The `for` loop of `ventoy_browser_strcmp`; the state is the pair of
pointers and the two locals `c1`, `c2`, the result their final values. -/
def ventoy_browser_strcmp_loop (g_sort_case_sensitive : Int) :
    CStr → CStr → Int → Int → Int × Int
  | a :: s1, b :: s2, _, _ =>
    let c1 := browser_norm g_sort_case_sensitive a
    let c2 := browser_norm g_sort_case_sensitive b
    if c1 ≠ c2 then (c1, c2)
    else ventoy_browser_strcmp_loop g_sort_case_sensitive s1 s2 c1 c2
  | _, _, c1, c2 => (c1, c2)

/-- The function `ventoy_browser_strcmp` (lines 49-80). -/
def ventoy_browser_strcmp (g_sort_case_sensitive : Int) (str1 str2 : CStr) : Int :=
  let r := ventoy_browser_strcmp_loop g_sort_case_sensitive str1 str2 0 0
  r.1 - r.2

/-! ## The registry -/

/-- The record `browser_node`; `prev` and `next` are the position in the list. -/
structure browser_node where
  dir : Int
  menuentry : CStr
  filename : CStr
deriving DecidableEq, Repr

/-- The `for` loop of `ventoy_browser_find_top_node`: `rest` is the part of the
list still to visit, `idx` the position of its head, `sel` the selection. -/
def find_top_loop (g_sort_case_sensitive : Int) (dir : Int) :
    List browser_node → Nat → Option (Nat × browser_node) → Option (Nat × browser_node)
  | [], _, sel => sel
  | node :: rest, idx, sel =>
    if node.dir = dir then
      match sel with
      | some (j, s) =>
        if ventoy_browser_strcmp g_sort_case_sensitive s.filename node.filename > 0 then
          find_top_loop g_sort_case_sensitive dir rest (idx + 1) (some (idx, node))
        else
          find_top_loop g_sort_case_sensitive dir rest (idx + 1) (some (j, s))
      | none => find_top_loop g_sort_case_sensitive dir rest (idx + 1) (some (idx, node))
    else
      find_top_loop g_sort_case_sensitive dir rest (idx + 1) sel

/-- The function `ventoy_browser_find_top_node` (lines 113-137): the selected
node with its position in the registry, or `none` for `NULL`. -/
def ventoy_browser_find_top_node (g_sort_case_sensitive : Int)
    (g_browser_list : List browser_node) (dir : Int) : Option (Nat × browser_node) :=
  find_top_loop g_sort_case_sensitive dir g_browser_list 0 none

/-! ## The menu buffer -/

/-- The constant `BROWSER_MENU_BUF`. -/
def BROWSER_MENU_BUF : Int := 65536

/-- Modelled from the spec: the constant `VTOY_SIZE_1KB` of ventoy_def.h, the
low-water mark of 1 KiB. -/
def VTOY_SIZE_1KB : Int := 1024

/-- The record `browser_mbuf`.  `buf` is `none` for a NULL pointer, otherwise
the bytes stored in the region from its start. -/
structure browser_mbuf where
  max : Int
  pos : Int
  buf : Option (List Int)
deriving DecidableEq, Repr

/-- Conversion of an `int` expression to the 32 bit `int` range. -/
def wrap_int (x : Int) : Int := (x + 2147483648) % 4294967296 - 2147483648

/-- The function `ventoy_browser_mbuf_alloc` (lines 82-94); `malloc_ok` tells
whether `grub_malloc` succeeds.  Result: return value and the buffer. -/
def ventoy_browser_mbuf_alloc (malloc_ok : Bool) : Int × browser_mbuf :=
  let mbuf : browser_mbuf := { max := 0, pos := 0, buf := none }
  if ¬ malloc_ok then (0, mbuf)
  else (1, { max := BROWSER_MENU_BUF, pos := 0, buf := some [] })

/-- Library routine `grub_realloc`: on success the region keeps its bytes, on
failure the result is NULL. -/
def grub_realloc (realloc_ok : Bool) (buf : Option (List Int)) : Option (List Int) :=
  if realloc_ok then some (buf.getD []) else none

/-- The function `ventoy_browser_mbuf_extend` (lines 102-111); `realloc_ok`
tells whether `grub_realloc` succeeds.  Result: return value and the buffer. -/
def ventoy_browser_mbuf_extend (realloc_ok : Bool) (mbuf : browser_mbuf) : Int × browser_mbuf :=
  if mbuf.max - mbuf.pos ≤ VTOY_SIZE_1KB then
    let max1 := wrap_int (mbuf.max + BROWSER_MENU_BUF)
    (0, { max := max1, pos := mbuf.pos, buf := grub_realloc realloc_ok mbuf.buf })
  else (0, mbuf)

/-- Library routine `grub_snprintf (str, n, ...)` on the formatted text: the
characters stored at `str` (a NUL follows them) and the return value.  Nothing
is stored when `n` is 0; otherwise at most `n - 1` characters are. -/
def grub_snprintf (n : Nat) (text : CStr) : CStr × Int :=
  if n = 0 then ([], 0)
  else (text.take (n - 1), ((text.take (n - 1)).length : Int))

/-- Modelled from the spec: the macro `browser_ssprintf` of ventoy_def.h, which
appends formatted text at the current write position and advances `pos`, the
length staying within the capacity:
`(mbuf)->pos += grub_snprintf((mbuf)->buf + (mbuf)->pos, (mbuf)->max - (mbuf)->pos, ...)`.
Growing the buffer is the separate function `ventoy_browser_mbuf_extend`.  The
size argument is exact whenever `pos <= max`; with a NULL `buf` only `pos`
moves. -/
def browser_ssprintf (mbuf : browser_mbuf) (text : CStr) : browser_mbuf :=
  let r := grub_snprintf (mbuf.max - mbuf.pos).toNat text
  { max := mbuf.max
    pos := mbuf.pos + r.2
    buf := mbuf.buf.map (fun bytes => bytes.take mbuf.pos.toNat ++ r.1) }

/-! ## The render part of `ventoy_cmd_browser_dir` -/

/-- The state of the render part: the buffer, the registry, and two records of
what was done: the nodes selected so far, in order (each is printed by
`grub_printf ("Find Node <%s>")`), and the texts passed to `browser_ssprintf`,
in order. -/
structure render_state where
  mbuf : browser_mbuf
  g_browser_list : List browser_node
  found : List browser_node
  appended : List CStr
deriving DecidableEq, Repr

/-- The loop `while (1)` of lines 438-464 for the kind `i`; every iteration
uses one unit of `fuel`, and `none` means that the fuel ran out. -/
def drain_while (g_sort_case_sensitive : Int) (i : Int) : Nat → render_state → Option render_state
  | 0, _ => none
  | fuel + 1, st =>
    match ventoy_browser_find_top_node g_sort_case_sensitive st.g_browser_list i with
    | some (k, node) =>
      drain_while g_sort_case_sensitive i fuel
        { mbuf := browser_ssprintf st.mbuf node.menuentry
          g_browser_list := st.g_browser_list.eraseIdx k
          found := st.found ++ [node]
          appended := st.appended ++ [node.menuentry] }
    | none => some st

/-- The text of the go-back entry of line 433,
`menuentry "%-10s [../]" --class="vtoyret" VTOY_RET ...` with `<--`. -/
def go_back_entry : CStr :=
  cstr "menuentry \"<--        [../]\" --class=\"vtoyret\" VTOY_RET \x7b\n    echo \x27return ...\x27 \n\x7d\n"

/-- What `grub_script_execute_sourcecode` receives through the `configfile
mem:` command of line 468: the buffer pointer and the length `mbuf.pos`. -/
structure submitted where
  buf : Option (List Int)
  size : Int
deriving DecidableEq, Repr

/-- The bytes of the submitted region. -/
def submitted.region (s : submitted) : Option (List Int) :=
  s.buf.map (fun bytes => bytes.take s.size.toNat)

/-- Lines 433-469 of `ventoy_cmd_browser_dir`: the go-back entry, the two drain
loops (`i = 1`, then `i = 0`), `g_browser_list = NULL`, and the submission.
Result: the final state and what is submitted. -/
def browser_dir_render (g_sort_case_sensitive : Int) (fuel : Nat) (mbuf : browser_mbuf)
    (g_browser_list : List browser_node) : Option (render_state × submitted) :=
  let st0 : render_state :=
    { mbuf := browser_ssprintf mbuf go_back_entry
      g_browser_list := g_browser_list
      found := []
      appended := [go_back_entry] }
  match drain_while g_sort_case_sensitive 1 fuel st0 with
  | none => none
  | some st1 =>
    match drain_while g_sort_case_sensitive 0 fuel st1 with
    | none => none
    | some st2 =>
      some ({ st2 with g_browser_list := [] }, { buf := st2.mbuf.buf, size := st2.mbuf.pos })


/-! ## The entry classifier -/

/-- Pointer arithmetic `s + k` on a string, for `0 <= k <= strlen (s)`. -/
def ptr_add (s : CStr) (k : Int) : CStr := s.drop k.toNat

/-- The character `s[k]`; the terminating NUL at the end of the string. -/
def char_at (s : CStr) (k : Nat) : Int := s.getD k 0

/-- Library routine `grub_strcasecmp` of include/grub/misc.h. -/
def grub_strcasecmp : CStr → CStr → Int
  | a :: s1, b :: s2 =>
    if grub_tolower (u8 a) ≠ grub_tolower (u8 b) then
      grub_tolower (u8 a) - grub_tolower (u8 b)
    else grub_strcasecmp s1 s2
  | s1, s2 => grub_tolower (u8 (deref s1)) - grub_tolower (u8 (deref s2))

/-- The loop of the library routine `grub_strncmp`, entered with `n > 0`:
`while (*s1 && *s2 && --n)`. -/
def grub_strncmp_loop : CStr → CStr → Nat → Int
  | a :: s1, b :: s2, n + 2 =>
    if a ≠ b then u8 a - u8 b else grub_strncmp_loop s1 s2 (n + 1)
  | s1, s2, _ => u8 (deref s1) - u8 (deref s2)

/-- Library routine `grub_strncmp` of grub-core/kern/misc.c. -/
def grub_strncmp (s1 s2 : CStr) (n : Nat) : Int :=
  if n = 0 then 0 else grub_strncmp_loop s1 s2 n

/-- The loop of the library routine `grub_strncasecmp`, entered with `n > 0`. -/
def grub_strncasecmp_loop : CStr → CStr → Nat → Int
  | a :: s1, b :: s2, n + 2 =>
    if grub_tolower a ≠ grub_tolower b then grub_tolower (u8 a) - grub_tolower (u8 b)
    else grub_strncasecmp_loop s1 s2 (n + 1)
  | s1, s2, _ => grub_tolower (u8 (deref s1)) - grub_tolower (u8 (deref s2))

/-- Library routine `grub_strncasecmp` of include/grub/misc.h. -/
def grub_strncasecmp (s1 s2 : CStr) (n : Nat) : Int :=
  if n = 0 then 0 else grub_strncasecmp_loop s1 s2 n

/-- Modelled from the spec: the enumeration `img_type` of the image-type tags
(ISO, WIM, VHD, EFI, raw IMG, generic VTOY), declared outside this file. -/
inductive img_type where
  | img_type_iso
  | img_type_wim
  | img_type_efi
  | img_type_img
  | img_type_vhd
  | img_type_vtoy
deriving DecidableEq, Repr

open img_type

/-- The configuration read by the classifier.  `FILE_FLT_X` is the value of the
macro `FILE_FLT (X)`; `GRUB_MACHINE_EFI` tells whether the build defines that
symbol; the last three are declared outside this file: the size threshold and
the sizes of the two character arrays of `browser_node`. -/
structure browser_config where
  g_sort_case_sensitive : Int
  FILE_FLT_ISO : Bool
  FILE_FLT_WIM : Bool
  FILE_FLT_VHD : Bool
  FILE_FLT_EFI : Bool
  FILE_FLT_IMG : Bool
  FILE_FLT_VTOY : Bool
  g_wimboot_enable : Int
  g_vhdboot_enable : Int
  GRUB_MACHINE_EFI : Bool
  g_filt_dot_underscore_file : Int
  VTOY_FILT_MIN_FILE_SIZE : Nat
  sizeof_menuentry : Nat
  sizeof_filename : Nat
deriving DecidableEq, Repr

/-- Lines 186-191 of `ventoy_browser_check_filename`, reached with `*type`
written: the dot-underscore test and the return value. -/
def check_filename_tail (cfg : browser_config) (filename : CStr) (t : img_type) :
    Int × Option img_type :=
  if cfg.g_filt_dot_underscore_file ≠ 0 ∧ char_at filename 0 = 46 ∧ char_at filename 1 = 95 then
    (0, some t)
  else (1, some t)

/-- The function `ventoy_browser_check_filename` (lines 139-192).  `type` is
the content of `*type` before the call (`none`: not written); the result is the
return value and the content of `*type` after the call. -/
def ventoy_browser_check_filename (cfg : browser_config) (filename : CStr) (len : Int)
    (type : Option img_type) : Int × Option img_type :=
  if len < 4 then (0, type)
  else if cfg.FILE_FLT_ISO ∧ grub_strcasecmp (ptr_add filename (len - 4)) (cstr ".iso") = 0 then
    check_filename_tail cfg filename img_type_iso
  else if cfg.FILE_FLT_WIM ∧ cfg.g_wimboot_enable ≠ 0 ∧
      grub_strcasecmp (ptr_add filename (len - 4)) (cstr ".wim") = 0 then
    check_filename_tail cfg filename img_type_wim
  else if cfg.FILE_FLT_VHD ∧ cfg.g_vhdboot_enable ≠ 0 ∧
      (grub_strcasecmp (ptr_add filename (len - 4)) (cstr ".vhd") = 0 ∨
        (len ≥ 5 ∧ grub_strcasecmp (ptr_add filename (len - 5)) (cstr ".vhdx") = 0)) then
    check_filename_tail cfg filename img_type_vhd
  else if cfg.GRUB_MACHINE_EFI ∧ cfg.FILE_FLT_EFI ∧
      grub_strcasecmp (ptr_add filename (len - 4)) (cstr ".efi") = 0 then
    check_filename_tail cfg filename img_type_efi
  else if cfg.FILE_FLT_IMG ∧ grub_strcasecmp (ptr_add filename (len - 4)) (cstr ".img") = 0 then
    if len = 18 ∧ grub_strncmp filename (cstr "ventoy_") 7 = 0 ∧
        (grub_strncmp (ptr_add filename 7) (cstr "wimboot") 7 = 0 ∨
          grub_strncmp (ptr_add filename 7) (cstr "vhdboot") 7 = 0) then
      (0, type)
    else check_filename_tail cfg filename img_type_img
  else if cfg.FILE_FLT_VTOY ∧ len ≥ 5 ∧
      grub_strcasecmp (ptr_add filename (len - 5)) (cstr ".vtoy") = 0 then
    check_filename_tail cfg filename img_type_vtoy
  else (0, type)

/-! ## The directory scan -/

/-- The fields of `struct grub_dirhook_info` that the hook reads: the one-bit
field `dir` and the 64 bit field `size`. -/
structure grub_dirhook_info where
  dir : Bool
  size : Nat
deriving DecidableEq, Repr

/-- The globals of the scan: `g_menu_fs` (as a machine word), `g_menu_device`
and `g_menu_path_buf`. -/
structure scan_globals where
  g_menu_fs : Nat
  g_menu_device : CStr
  g_menu_path_buf : CStr
deriving DecidableEq, Repr

/-- The collaborators of the scan: the name validator, the size formatter, the
two tables indexed by the image type, and the file system, which answers
`ventoy_grub_file_open` on a path with the size of the file or with NULL. -/
structure browser_env where
  ventoy_img_name_valid : CStr → Int → Int
  grub_get_human_size : Nat → CStr
  g_menu_class : img_type → CStr
  g_menu_prefix_tbl : img_type → CStr
  file_open_size : CStr → Option Nat

/-- The conversion `%-10s`: the text, left-justified in a field of width 10. -/
def fmt_s10 (s : CStr) : CStr := s ++ List.replicate (10 - s.length) 32

/-- The conversion `%lx` of an unsigned machine word. -/
def fmt_lx (n : Nat) : CStr := (Nat.toDigits 16 n).map (fun c => (c.toNat : Int))

/-- The conversion `%llu`. -/
def fmt_llu (n : Nat) : CStr := (Nat.toDigits 10 n).map (fun c => (c.toNat : Int))

/-- Library routine `grub_strncpy (dest, src, n)`: the characters stored. -/
def grub_strncpy (src : CStr) (n : Nat) : CStr := src.take n

/-- The formatted text of lines 320-324, a Directory entry. -/
def dir_menuentry_text (g : scan_globals) (filename : CStr) : CStr :=
  cstr "menuentry \"" ++ fmt_s10 (cstr "DIR") ++ cstr " [" ++ filename
    ++ cstr "]\" --class=vtoydir \x7b\n  vt_browser_dir " ++ g.g_menu_device
    ++ cstr " 0x" ++ fmt_lx g.g_menu_fs ++ cstr " \"" ++ g.g_menu_path_buf ++ cstr "/"
    ++ filename ++ cstr "\"\n\x7d\n"

/-- The table lookup `tbl[type]`; `type` is written whenever it is read. -/
def tbl_at (tbl : img_type → CStr) (type : Option img_type) : CStr :=
  match type with
  | some t => tbl t
  | none => []

/-- The formatted text of lines 362-370, a File entry. -/
def file_menuentry_text (env : browser_env) (g : scan_globals) (filename : CStr)
    (type : Option img_type) (fsize : Nat) : CStr :=
  cstr "menuentry \"" ++ fmt_s10 (env.grub_get_human_size fsize) ++ cstr " " ++ filename
    ++ cstr "\" --class=" ++ tbl_at env.g_menu_class type
    ++ cstr " \x7b\n  vt_set_fake_vlnk \"(" ++ g.g_menu_device ++ cstr ")"
    ++ g.g_menu_path_buf ++ cstr "/" ++ filename ++ cstr "\" "
    ++ tbl_at env.g_menu_prefix_tbl type ++ cstr " " ++ fmt_llu fsize ++ cstr "\n  "
    ++ tbl_at env.g_menu_prefix_tbl type
    ++ cstr "_common_menuentry\n  vt_reset_fake_vlnk\n\x7d\n"

/-- The path text `(%s)%s/%s` of line 339. -/
def file_open_path (g : scan_globals) (filename : CStr) : CStr :=
  cstr "(" ++ g.g_menu_device ++ cstr ")" ++ g.g_menu_path_buf ++ cstr "/" ++ filename

/-- Lines 374-382 of `ventoy_browser_iterate_dir`: the node becomes the head of
the registry. -/
def browser_list_insert (node : browser_node) (g_browser_list : List browser_node) :
    List browser_node :=
  node :: g_browser_list

/-- The function `ventoy_browser_iterate_dir` (lines 280-383) for one child.
`zalloc_ok` tells whether `grub_zalloc` succeeds; the result is the return
value and the registry after the call. -/
def ventoy_browser_iterate_dir (cfg : browser_config) (env : browser_env) (g : scan_globals)
    (zalloc_ok : Bool) (filename : CStr) (info : grub_dirhook_info)
    (g_browser_list : List browser_node) : Int × List browser_node :=
  let len := grub_strlen filename
  if info.dir then
    if (len = 1 ∧ char_at filename 0 = 46) ∨
        (len = 2 ∧ char_at filename 0 = 46 ∧ char_at filename 1 = 46) then
      (0, g_browser_list)
    else if env.ventoy_img_name_valid filename len = 0 then (0, g_browser_list)
    else if char_at filename 0 = 36 ∧
        (grub_strncmp filename (cstr "$RECYCLE.BIN") 12 = 0 ∨
          grub_strncasecmp filename (cstr "$Extend") 7 = 0) then
      (0, g_browser_list)
    else if ¬ zalloc_ok then (0, g_browser_list)
    else
      let node : browser_node :=
        { dir := 1
          filename := grub_strncpy filename cfg.sizeof_filename
          menuentry := (grub_snprintf cfg.sizeof_menuentry (dir_menuentry_text g filename)).1 }
      (0, browser_list_insert node g_browser_list)
  else
    let chk := ventoy_browser_check_filename cfg filename len none
    if chk.1 = 0 then (0, g_browser_list)
    else
      let opened : Option Nat :=
        if info.size = 0 then env.file_open_size (file_open_path g filename) else some info.size
      match opened with
      | none => (0, g_browser_list)
      | some fsize =>
        if fsize < cfg.VTOY_FILT_MIN_FILE_SIZE then (0, g_browser_list)
        else if ¬ zalloc_ok then (0, g_browser_list)
        else
          let node : browser_node :=
            { dir := 0
              filename := grub_strncpy filename cfg.sizeof_filename
              menuentry := (grub_snprintf cfg.sizeof_menuentry
                (file_menuentry_text env g filename chk.2 fsize)).1 }
          (0, browser_list_insert node g_browser_list)

/-- One child as the directory iterator reports it, with the answer of the
allocator during the call of the hook. -/
structure dir_child where
  filename : CStr
  info : grub_dirhook_info
  zalloc_ok : Bool
deriving DecidableEq, Repr

/-- The directory iterator `fs->fs_dir (dev, path, hook, NULL)` with the hook
`ventoy_browser_iterate_dir`: the hook runs on each child in turn, and the
iteration stops as soon as the hook returns non-zero. -/
def fs_dir_iterate (cfg : browser_config) (env : browser_env) (g : scan_globals) :
    List dir_child → List browser_node → List browser_node
  | [], l => l
  | c :: rest, l =>
    let r := ventoy_browser_iterate_dir cfg env g c.zalloc_ok c.filename c.info l
    if r.1 ≠ 0 then r.2 else fs_dir_iterate cfg env g rest r.2


/-! ## The command `ventoy_cmd_browser_dir` -/

/-- Library routine `grub_isspace` of include/grub/misc.h. -/
def grub_isspace (c : Int) : Bool := decide (c = 10 ∨ c = 13 ∨ c = 32 ∨ c = 9)

/-- The loop `while (grub_isspace (*str)) str++` of `grub_strtoull`. -/
def skip_spaces : CStr → CStr
  | c :: rest => if grub_isspace c then skip_spaces rest else c :: rest
  | [] => []

/-- The digit loop of the library routine `grub_strtoull`; `long_bits` is the
width of `unsigned long`, the type of the local `digit`.  The state is the rest
of the string, `num` and `found`; the result is `num`, `found` and whether the
overflow test fired. -/
def grub_strtoull_loop (long_bits : Nat) (base : Nat) : CStr → Nat → Bool → Nat × Bool × Bool
  | [], num, found => (num, found, false)
  | c :: rest, num, found =>
    let d0 : Nat := ((grub_tolower c - 48) % (2 : Int) ^ long_bits).toNat
    let digit : Nat :=
      if d0 > 9 then (((d0 : Int) + (48 - 97 + 10)) % (2 : Int) ^ long_bits).toNat else d0
    if d0 > 9 ∧ digit ≥ base then (num, found, false)
    else if num > (2 ^ 64 - 1 - digit) / base then (num, true, true)
    else grub_strtoull_loop long_bits base rest (num * base + digit) true

/-- Library routine `grub_strtoull (str, NULL, base)` of grub-core/kern/misc.c,
for a base that is 0 or positive. -/
def grub_strtoull (long_bits : Nat) (str : CStr) (base : Nat) : Nat :=
  let s := skip_spaces str
  let hex : Bool := decide (char_at s 0 = 48 ∧ char_at s 1 = 120 ∧ (base = 0 ∨ base = 16))
  let oct : Bool := decide (char_at s 0 = 48 ∧ char_at s 1 ≠ 120 ∧ base = 0 ∧
    48 ≤ char_at s 1 ∧ char_at s 1 ≤ 55)
  let base1 : Nat := if hex then 16 else if oct then 8 else base
  let s1 : CStr := if hex then ptr_add s 2 else s
  let base2 : Nat := if base1 = 0 then 10 else base1
  let r := grub_strtoull_loop long_bits base2 s1 0 false
  if r.2.2 then 2 ^ 64 - 1
  else if ¬ r.2.1 then 0
  else r.1

/-- Library routine `grub_strtoul (str, NULL, base)`; `long_bits` is 64 when
`GRUB_CPU_SIZEOF_LONG` is 8 and 32 otherwise. -/
def grub_strtoul (long_bits : Nat) (str : CStr) (base : Nat) : Nat :=
  let num := grub_strtoull long_bits str base
  if long_bits ≠ 64 ∧ num > 2 ^ long_bits - 1 then 2 ^ long_bits - 1
  else num % 2 ^ long_bits

/-- Modelled from the spec: the status `GRUB_ERR_NONE` that the macro
`VENTOY_CMD_RETURN` returns, 0 for success. -/
def GRUB_ERR_NONE : Int := 0

/-- The function `ventoy_browser_mbuf_free` (lines 96-100): the buffer after
the call and whether `grub_free` was called on a region.  Modelled from the
spec: the macro `grub_check_free`, which releases the owned region when there
is one. -/
def ventoy_browser_mbuf_free (mbuf : browser_mbuf) : browser_mbuf × Bool :=
  match mbuf.buf with
  | some _ => ({ mbuf with buf := none }, true)
  | none => (mbuf, false)

/-- The collaborators of one run of `ventoy_cmd_browser_dir`: the allocator
for the buffer, the width of `unsigned long`, `grub_device_open (args[0])`,
and the file system objects in memory.  `fs_object a` is `some fs_dir` when the
address `a` holds a `struct grub_fs`, whose member `fs_dir` then reports the
given children for a path, in order; it is `none` when `a` is not the address
of a file system object. -/
structure browser_dir_world where
  malloc_ok : Bool
  long_bits : Nat
  device_open_ok : Bool
  fs_object : Nat → Option (CStr → List dir_child)

/-- What one run of `ventoy_cmd_browser_dir` does: the return value, what
`grub_script_execute_sourcecode` receives (`none`: it is not called), how many
times `ventoy_browser_mbuf_free` is called, whether the region of the buffer
was released, how many times `grub_device_close` is called, and the globals
and the state of the render part (`none`: not reached). -/
structure browser_dir_result where
  ret : Int
  script : Option submitted
  mbuf_free_calls : Nat
  region_released : Bool
  device_close_calls : Nat
  globals : Option scan_globals
  state : Option render_state

/-- The size of the array `g_menu_path_buf`. -/
def sizeof_g_menu_path_buf : Nat := 1024

/-- How one run of `ventoy_cmd_browser_dir` ends: it returns, or it makes the
call `fs->fs_dir (...)` of line 424 or 429 through a value that is not the
address of a file system object.  C leaves that call undefined, so such a run
has no return value and no submission. -/
inductive browser_dir_run where
  | returned (r : browser_dir_result)
  | undefined_call

/-- The function `ventoy_cmd_browser_dir` (lines 385-473) on the arguments
`args[0]`, `args[1]`, `args[2]`; `none` means that the fuel of the drain loops
ran out.  The handle `fs` is the value parsed from `args[1]`, cast to
`grub_fs_t` (line 402); the children come from the call of `fs_dir` through
it. -/
def ventoy_cmd_browser_dir (cfg : browser_config) (env : browser_env) (w : browser_dir_world)
    (fuel : Nat) (args0 args1 args2 : CStr) : Option browser_dir_run :=
  let a := ventoy_browser_mbuf_alloc w.malloc_ok
  if a.1 = 0 then
    some (browser_dir_run.returned
      { ret := 1, script := none, mbuf_free_calls := 0, region_released := false,
        device_close_calls := 0, globals := none, state := none })
  else
    let fs := grub_strtoul w.long_bits args1 16
    if fs = 0 then
      some (browser_dir_run.returned
        { ret := 1, script := none, mbuf_free_calls := 0, region_released := false,
          device_close_calls := 0, globals := none, state := none })
    else if ¬ w.device_open_ok then
      some (browser_dir_run.returned
        { ret := 1, script := none, mbuf_free_calls := 0, region_released := false,
          device_close_calls := 0, globals := none, state := none })
    else
      let root : Bool := decide (char_at args2 0 = 47 ∧ char_at args2 1 = 0)
      let g : scan_globals :=
        { g_menu_fs := fs
          g_menu_device := args0
          g_menu_path_buf :=
            if root then [] else (grub_snprintf sizeof_g_menu_path_buf args2).1 }
      let path : CStr := if root then cstr "/" else g.g_menu_path_buf
      match w.fs_object fs with
      | none => some browser_dir_run.undefined_call
      | some fs_dir =>
        let l := fs_dir_iterate cfg env g (fs_dir path) []
        match browser_dir_render cfg.g_sort_case_sensitive fuel a.2 l with
        | none => none
        | some r =>
          let f := ventoy_browser_mbuf_free r.1.mbuf
          some (browser_dir_run.returned
            { ret := GRUB_ERR_NONE, script := some r.2, mbuf_free_calls := 1,
              region_released := f.2, device_close_calls := 1, globals := some g,
              state := some { r.1 with mbuf := f.1 } })


/-! ## The disk session -/

/-- The conversion `%d`. -/
def fmt_d (n : Int) : CStr :=
  if n < 0 then 45 :: fmt_llu (-n).toNat else fmt_llu n.toNat

/-- What `grub_fs_probe` returns: the file system object, that is its address
(the handle), `fs->name`, and the label that `fs->fs_label` stores (`none` for
NULL). -/
structure grub_fs_info where
  handle : Nat
  name : CStr
  label : Option CStr
deriving DecidableEq, Repr

/-- A partition as `grub_partition_iterate` reports it: `number`, `msdostype`
and `len`, with the answer of the allocator to the `grub_realloc` of the hook. -/
structure grub_partition where
  number : Int
  msdostype : Nat
  len : Nat
  realloc_ok : Bool
deriving DecidableEq, Repr

/-- An opened disk: `name`, `log_sector_size`, the value of `sig` after
`grub_disk_read (disk, 0, 0x1b8, 4, &sig)`, and its partitions in order. -/
structure grub_disk where
  name : CStr
  log_sector_size : Nat
  sig : Nat
  partitions : List grub_partition
deriving DecidableEq, Repr

/-- The collaborators of the disk session: the 4 bytes at offset 0x1b8 of
`g_ventoy_part_info->MBR.BootCode`, `grub_disk_open`, `grub_device_open`
followed by `grub_fs_probe` on a partition name (`none`: the open fails,
`some none`: the probe fails), `ventoy_get_fs_type` with the bound
`ventoy_fs_max`, the size formatter, the names that `grub_disk_dev_iterate`
passes, and the allocator for the buffer. -/
structure disk_world where
  selfsig : Nat
  grub_disk_open : CStr → Option grub_disk
  device_open_probe : CStr → Option (Option grub_fs_info)
  ventoy_get_fs_type : CStr → Nat
  ventoy_fs_max : Nat
  grub_get_human_size : Nat → CStr
  disk_names : List CStr
  malloc_ok : Bool

/-- The text `%s,%d` of line 206, stored in `partname` with the size
`sizeof (partname) - 1`. -/
def partname_text (disk : grub_disk) (partition : grub_partition) : CStr :=
  (grub_snprintf 63 (disk.name ++ cstr "," ++ fmt_d (partition.number + 1))).1

/-- The title of lines 223-226, stored in the array `title` of 256
characters. -/
def partition_title (w : disk_world) (disk : grub_disk) (partition : grub_partition)
    (fs : grub_fs_info) : CStr :=
  (grub_snprintf 256
    (fmt_s10 (cstr "DISK") ++ cstr " (" ++ disk.name ++ cstr ","
      ++ (if partition.msdostype = 238 then cstr "gpt" else cstr "msdos")
      ++ fmt_d (partition.number + 1) ++ cstr ") [" ++ fs.label.getD [] ++ cstr "] "
      ++ fs.name ++ cstr " "
      ++ w.grub_get_human_size ((partition.len * 2 ^ disk.log_sector_size) % 2 ^ 64))).1

/-- The text of lines 230-234, for a file system that is not supported. -/
def partition_unsupported_text (title : CStr) : CStr :=
  cstr "menuentry \"" ++ title
    ++ cstr "\" --class=vtoydisk \x7b\n   echo \"unsupported file system type!\" \n   ventoy_pause\n\x7d\n"

/-- The text of lines 238-241, which re-enters the directory session at the
root of the partition. -/
def partition_browse_text (title : CStr) (disk : grub_disk) (partition : grub_partition)
    (fs : grub_fs_info) : CStr :=
  cstr "menuentry \"" ++ title ++ cstr "\" --class=vtoydisk \x7b\n  vt_browser_dir "
    ++ disk.name ++ cstr "," ++ fmt_d (partition.number + 1) ++ cstr " 0x" ++ fmt_lx fs.handle
    ++ cstr " /\n\x7d\n"

/-- The function `ventoy_browser_iterate_partition` (lines 195-247): the return
value and the buffer after the call. -/
def ventoy_browser_iterate_partition (w : disk_world) (disk : grub_disk)
    (partition : grub_partition) (mbuf : browser_mbuf) : Int × browser_mbuf :=
  match w.device_open_probe (partname_text disk partition) with
  | none => (0, mbuf)
  | some none => (0, mbuf)
  | some (some fs) =>
    let title := partition_title w disk partition fs
    let mbuf1 :=
      if w.ventoy_get_fs_type fs.name ≥ w.ventoy_fs_max then
        browser_ssprintf mbuf (partition_unsupported_text title)
      else
        browser_ssprintf mbuf (partition_browse_text title disk partition fs)
    (0, (ventoy_browser_mbuf_extend partition.realloc_ok mbuf1).2)

/-- The iterator `grub_partition_iterate (disk, hook, data)` with the hook
`ventoy_browser_iterate_partition`: the hook runs on each partition in turn
until it returns non-zero.  The result is the buffer and the number of calls
of the hook. -/
def partition_iterate (w : disk_world) (disk : grub_disk) :
    List grub_partition → browser_mbuf → browser_mbuf × Nat
  | [], mbuf => (mbuf, 0)
  | p :: rest, mbuf =>
    let r := ventoy_browser_iterate_partition w disk p mbuf
    if r.1 ≠ 0 then (r.2, 1)
    else
      let t := partition_iterate w disk rest r.2
      (t.1, t.2 + 1)

/-- The function `ventoy_browser_iterate_disk` (lines 250-278): the return
value, the buffer after the call, and the number of partitions on which the
partition hook was called. -/
def ventoy_browser_iterate_disk (w : disk_world) (name : CStr) (mbuf : browser_mbuf) :
    Int × browser_mbuf × Nat :=
  if char_at name 0 ≠ 104 then (0, mbuf, 0)
  else
    match w.grub_disk_open name with
    | some disk =>
      if disk.sig ≠ w.selfsig then
        let t := partition_iterate w disk disk.partitions mbuf
        (0, t.1, t.2)
      else (0, mbuf, 0)
    | none => (0, mbuf, 0)

/-- The iterator `grub_disk_dev_iterate (hook, data)` with the hook
`ventoy_browser_iterate_disk`: the hook runs on each disk name in turn until it
returns non-zero.  The result is the buffer and the number of calls of the
partition hook. -/
def disk_dev_iterate (w : disk_world) : List CStr → browser_mbuf → browser_mbuf × Nat
  | [], mbuf => (mbuf, 0)
  | name :: rest, mbuf =>
    let r := ventoy_browser_iterate_disk w name mbuf
    if r.1 ≠ 0 then (r.2.1, r.2.2)
    else
      let t := disk_dev_iterate w rest r.2.1
      (t.1, r.2.2 + t.2)

/-- The text of the go-back entry of line 489. -/
def disk_back_entry : CStr :=
  cstr "menuentry \"<--        [Return]\" --class=\"vtoyret\" VTOY_RET \x7b\n    echo \x27return ...\x27 \n\x7d\n"

/-- What one run of `ventoy_cmd_browser_disk` does: the return value, what
`grub_script_execute_sourcecode` receives, how many times
`ventoy_browser_mbuf_free` is called, whether the region was released, and the
buffer as it is submitted (`none`: not reached). -/
structure browser_disk_result where
  ret : Int
  script : Option submitted
  mbuf_free_calls : Nat
  region_released : Bool
  mbuf : Option browser_mbuf

/-- The function `ventoy_cmd_browser_disk` (lines 475-499). -/
def ventoy_cmd_browser_disk (w : disk_world) : browser_disk_result :=
  let a := ventoy_browser_mbuf_alloc w.malloc_ok
  if a.1 = 0 then
    { ret := 1, script := none, mbuf_free_calls := 0, region_released := false, mbuf := none }
  else
    let m1 := browser_ssprintf a.2 disk_back_entry
    let m2 := (disk_dev_iterate w w.disk_names m1).1
    let f := ventoy_browser_mbuf_free m2
    { ret := GRUB_ERR_NONE, script := some { buf := m2.buf, size := m2.pos },
      mbuf_free_calls := 1, region_released := f.2, mbuf := some m2 }


/-! ## The registry in memory

The nodes with their `prev` and `next` fields, for the two places that write
those fields: the insertion of lines 374-380 and the unlinking of lines
445-458. -/

/-- A node in memory: the content and the fields `prev` and `next` (`none` for
NULL, otherwise the address of a node). -/
structure node_cell where
  node : browser_node
  prev : Option Nat
  next : Option Nat
deriving DecidableEq, Repr

/-- The memory of the registry: the nodes by address (`none`: no node is
allocated there) and the global `g_browser_list`. -/
structure registry_mem where
  heap : Nat → Option node_cell
  g_browser_list : Option Nat

/-- The store `p->prev = v`, for a pointer `p` that is not NULL. -/
def store_prev (heap : Nat → Option node_cell) (p : Nat) (v : Option Nat) :
    Nat → Option node_cell :=
  match heap p with
  | some c => Function.update heap p (some { c with prev := v })
  | none => heap

/-- Lines 374-380 of `ventoy_browser_iterate_dir` on a node freshly allocated
at `addr` with the content `n`: `node->prev = NULL; node->next =
g_browser_list; if (g_browser_list) g_browser_list->prev = node;
g_browser_list = node`. -/
def registry_insert (m : registry_mem) (addr : Nat) (n : browser_node) : registry_mem :=
  let h1 := Function.update m.heap addr (some { node := n, prev := none, next := m.g_browser_list })
  let h2 :=
    match m.g_browser_list with
    | some hd => store_prev h1 hd (some addr)
    | none => h1
  { heap := h2, g_browser_list := some addr }

/-- The chain of nodes that starts at the pointer `cur`, the node before it
being `prev`: `cells` lists the addresses and contents in `next` order, every
`prev` field points at the node before, and the last `next` field is NULL. -/
def dll_seg (heap : Nat → Option node_cell) :
    Option Nat → Option Nat → List (Nat × browser_node) → Prop
  | _, cur, [] => cur = none
  | prev, cur, (a, n) :: rest =>
    cur = some a ∧
      ∃ c, heap a = some c ∧ c.node = n ∧ c.prev = prev ∧ dll_seg heap (some a) c.next rest

/-- The memory holds the registry `cells`: the chain from `g_browser_list`
visits these nodes at these addresses, which are distinct. -/
def registry_holds (m : registry_mem) (cells : List (Nat × browser_node)) : Prop :=
  dll_seg m.heap none m.g_browser_list cells ∧ (cells.map Prod.fst).Nodup


/-! ## Auxiliary predicates -/

/-- The selection invariant of `find_top_loop`: `seen` is the visited part of
the registry `full`. -/
def TopInv (cs : Int) (dir : Int) (seen full : List browser_node) :
    Option (Nat × browser_node) → Prop
  | none => ∀ n ∈ seen, n.dir ≠ dir
  | some (j, s) => full[j]? = some s ∧ s.dir = dir ∧
      ∀ n ∈ seen, n.dir = dir → ventoy_browser_strcmp cs s.filename n.filename ≤ 0


/-- A sample configuration: every type filter lets its type through, WIM and
VHD support are on, an EFI build, the dot-underscore toggle is on, files below
32 KiB are dropped, and the node arrays hold 1024 and 512 characters. -/
def sample_config : browser_config :=
  { g_sort_case_sensitive := 0
    FILE_FLT_ISO := true
    FILE_FLT_WIM := true
    FILE_FLT_VHD := true
    FILE_FLT_EFI := true
    FILE_FLT_IMG := true
    FILE_FLT_VTOY := true
    g_wimboot_enable := 1
    g_vhdboot_enable := 1
    GRUB_MACHINE_EFI := true
    g_filt_dot_underscore_file := 1
    VTOY_FILT_MIN_FILE_SIZE := 32768
    sizeof_menuentry := 1024
    sizeof_filename := 512 }

/-- Sample collaborators: a validator that accepts every name, a formatter that
prints the byte count, the tables of class and handler names, and a file system
on which no file can be opened. -/
def sample_env : browser_env :=
  { ventoy_img_name_valid := fun _ _ => 1
    grub_get_human_size := fun n => fmt_llu n ++ cstr "B"
    g_menu_class := fun t =>
      match t with
      | img_type_iso => cstr "vtoyiso"
      | img_type_wim => cstr "vtoywim"
      | img_type_efi => cstr "vtoyefi"
      | img_type_img => cstr "vtoyimg"
      | img_type_vhd => cstr "vtoyvhd"
      | img_type_vtoy => cstr "vtoyvtoy"
    g_menu_prefix_tbl := fun t =>
      match t with
      | img_type_iso => cstr "iso"
      | img_type_wim => cstr "wim"
      | img_type_efi => cstr "efi"
      | img_type_img => cstr "img"
      | img_type_vhd => cstr "vhd"
      | img_type_vtoy => cstr "vtoy"
    file_open_size := fun _ => none }

/-- Sample globals of a scan of `/isos` on the device `hd1,1`. -/
def sample_globals : scan_globals :=
  { g_menu_fs := 8380832
    g_menu_device := cstr "hd1,1"
    g_menu_path_buf := cstr "/isos" }

/-- Well-formed C string: every character is a value of `char` (signed or
unsigned) and none is the terminator. -/
def wf_cstr (s : CStr) : Prop := ∀ c ∈ s, -128 ≤ c ∧ c ≤ 255 ∧ c ≠ 0

/-- A pattern of plain ASCII characters. -/
def ascii_cstr (p : CStr) : Prop := ∀ c ∈ p, 0 < c ∧ c < 128

/-- The name begins with the pattern, letter case ignored. -/
def begins_with_ci (p s : CStr) : Prop :=
  (s.take p.length).map grub_tolower = p.map grub_tolower

/-- The directory rules as they refuse a name: the name is `.` or `..`, the
validator refuses it, it begins with `$RECYCLE.BIN`, or it begins with
`$Extend` when letter case is ignored. -/
def dir_rules_refuse (env : browser_env) (filename : CStr) : Prop :=
  filename = cstr "." ∨ filename = cstr ".." ∨
  env.ventoy_img_name_valid filename (grub_strlen filename) = 0 ∨
  cstr "$RECYCLE.BIN" <+: filename ∨
  begins_with_ci (cstr "$Extend") filename

instance (s : CStr) : Decidable (wf_cstr s) := by
  unfold wf_cstr; infer_instance

instance (p : CStr) : Decidable (ascii_cstr p) := by
  unfold ascii_cstr; infer_instance

instance (p s : CStr) : Decidable (begins_with_ci p s) := by
  unfold begins_with_ci; infer_instance

instance (env : browser_env) (filename : CStr) : Decidable (dir_rules_refuse env filename) := by
  unfold dir_rules_refuse; infer_instance

/-- A directory listing of 700 image files `f0.iso` ... `f699.iso` of 1 MiB. -/
def many_iso_files : List dir_child :=
  (List.range 700).map (fun k => ⟨cstr "f" ++ fmt_llu k ++ cstr ".iso", ⟨false, 1048576⟩, true⟩)

/-- A child that the scan accepts as an ISO file: a file whose name ends with
`.iso` and does not begin with a dot, of known size not below the threshold,
met while the allocator succeeds. -/
def plain_iso_child (cfg : browser_config) (c : dir_child) : Prop :=
  (∃ stem, c.filename = stem ++ cstr ".iso") ∧ char_at c.filename 0 ≠ 46 ∧
  c.info.dir = false ∧ c.info.size ≠ 0 ∧ cfg.VTOY_FILT_MIN_FILE_SIZE ≤ c.info.size ∧
  c.zalloc_ok = true

/-! ## The reference classifier

The classification rule in the words of the specification, to be compared with
`ventoy_browser_check_filename`. -/

/-- The suffix matches the end of the name, letter case ignored. -/
def ends_with_ci (name suffix : CStr) : Prop :=
  suffix.length ≤ name.length ∧
  (name.drop (name.length - suffix.length)).map grub_tolower = suffix.map grub_tolower

instance (name suffix : CStr) : Decidable (ends_with_ci name suffix) := by
  unfold ends_with_ci; infer_instance

/-- One classification rule: the tag, whether the rule is in force (the type
filter lets the type through and the support it needs is present), and the
suffixes of the type. -/
structure suffix_rule where
  tag : img_type
  enabled : Bool
  suffixes : List CStr

/-- The rules in their order: ISO, WIM, VHD, EFI, IMG, VTOY. -/
def suffix_rules (cfg : browser_config) : List suffix_rule :=
  [ { tag := img_type_iso, enabled := cfg.FILE_FLT_ISO, suffixes := [cstr ".iso"] },
    { tag := img_type_wim
      enabled := cfg.FILE_FLT_WIM && decide (cfg.g_wimboot_enable ≠ 0)
      suffixes := [cstr ".wim"] },
    { tag := img_type_vhd
      enabled := cfg.FILE_FLT_VHD && decide (cfg.g_vhdboot_enable ≠ 0)
      suffixes := [cstr ".vhd", cstr ".vhdx"] },
    { tag := img_type_efi
      enabled := cfg.GRUB_MACHINE_EFI && cfg.FILE_FLT_EFI
      suffixes := [cstr ".efi"] },
    { tag := img_type_img, enabled := cfg.FILE_FLT_IMG, suffixes := [cstr ".img"] },
    { tag := img_type_vtoy, enabled := cfg.FILE_FLT_VTOY, suffixes := [cstr ".vtoy"] } ]

/-- The rule applies to the name: it is in force and one of its suffixes
matches the end of the name. -/
def rule_applies (name : CStr) (r : suffix_rule) : Bool :=
  r.enabled && r.suffixes.any (fun s => decide (ends_with_ci name s))

/-- The reference classifier: `none` for a rejected name (return value 0),
`some tag` for an accepted one (return value 1, type `tag`). -/
def check_filename_reference (cfg : browser_config) (name : CStr) : Option img_type :=
  if name.length < 4 then none
  else
    match (suffix_rules cfg).find? (rule_applies name) with
    | none => none
    | some r =>
      if r.tag = img_type_img ∧ name.length = 18 ∧
          (cstr "ventoy_wimboot" <+: name ∨ cstr "ventoy_vhdboot" <+: name) then none
      else if cfg.g_filt_dot_underscore_file ≠ 0 ∧ cstr "._" <+: name then none
      else some r.tag


/-! ## Auxiliary definitions for the size rule, the comparator and the buffer -/

/-- The resolved size of a file child: the reported size when that is
non-zero, otherwise the size of the file obtained by opening it (`none` when
the open fails). -/
def resolved_size (env : browser_env) (g : scan_globals) (filename : CStr)
    (info : grub_dirhook_info) : Option Nat :=
  if info.size = 0 then env.file_open_size (file_open_path g filename) else some info.size

/-- Replacement of an ASCII letter `a`-`z` by the letter `A`-`Z`. -/
def ascii_upper (c : Int) : Int := if 97 ≤ c ∧ c ≤ 122 then c - 32 else c

/-- The largest value of `int`. -/
def INT_MAX : Int := 2147483647

/-- A sample run of the directory command: the allocator succeeds, `unsigned
long` has 64 bits, the device opens, and the one file system object lies at the
address 0x7fe1a0; each of its directories holds the file `b.iso` and the
sub-directory `A`. -/
def sample_dir_world : browser_dir_world :=
  { malloc_ok := true
    long_bits := 64
    device_open_ok := true
    fs_object := fun a =>
      if a = 8380832 then
        some (fun _ => [⟨cstr "b.iso", ⟨false, 204800⟩, true⟩, ⟨cstr "A", ⟨true, 0⟩, true⟩])
      else none }

/-- A sample machine for the disk session: the boot medium `hd0`, whose
signature is the own signature, a disk `hd1` with an exFAT partition and a
partition of a file system that is not supported, and a CD drive. -/
def sample_disk_world : disk_world :=
  { selfsig := 305419896
    grub_disk_open := fun n =>
      if n = cstr "hd0" then some ⟨cstr "hd0", 9, 305419896, [⟨0, 12, 1000, true⟩]⟩
      else if n = cstr "hd1" then
        some ⟨cstr "hd1", 9, 3735928559, [⟨0, 238, 4096, true⟩, ⟨1, 238, 8192, true⟩]⟩
      else none
    device_open_probe := fun p =>
      if p = cstr "hd1,1" then some (some ⟨8380832, cstr "exfat", some (cstr "DATA")⟩)
      else if p = cstr "hd1,2" then some (some ⟨8381024, cstr "zfs", none⟩)
      else if p = cstr "hd0,1" then some (some ⟨8380832, cstr "exfat", some (cstr "Ventoy")⟩)
      else none
    ventoy_get_fs_type := fun n => if n = cstr "exfat" then 0 else 9
    ventoy_fs_max := 9
    grub_get_human_size := fun n => fmt_llu n ++ cstr "B"
    disk_names := [cstr "hd0", cstr "hd1", cstr "cd0"]
    malloc_ok := true }

/-- The buffer states that a session can reach: the state after a successful
`ventoy_browser_mbuf_alloc`, and the states after an append by
`browser_ssprintf` or a call of `ventoy_browser_mbuf_extend` (whose addition
stays in the range of `int`) in a reachable state. -/
inductive mbuf_reachable : browser_mbuf → Prop
  | alloc : mbuf_reachable (ventoy_browser_mbuf_alloc true).2
  | append (m : browser_mbuf) (text : CStr) :
      mbuf_reachable m → mbuf_reachable (browser_ssprintf m text)
  | extend (m : browser_mbuf) (ok : Bool) :
      mbuf_reachable m → m.max + BROWSER_MENU_BUF ≤ INT_MAX →
      mbuf_reachable (ventoy_browser_mbuf_extend ok m).2

/-- A directory listing of the image file `a.iso` of 1 MiB and 1000
sub-directories `d0` ... `d999`. -/
def many_dirs_one_file : List dir_child :=
  ⟨cstr "a.iso", ⟨false, 1048576⟩, true⟩ ::
    (List.range 1000).map (fun k => ⟨cstr "d" ++ fmt_llu k, ⟨true, 0⟩, true⟩)

/-- A child that the scan accepts as a directory: a directory whose name
begins neither with a dot nor with a dollar sign and passes the validator, met
while the allocator succeeds. -/
def plain_dir_child (env : browser_env) (c : dir_child) : Prop :=
  c.info.dir = true ∧ char_at c.filename 0 ≠ 46 ∧ char_at c.filename 0 ≠ 36 ∧
  env.ventoy_img_name_valid c.filename (grub_strlen c.filename) ≠ 0 ∧ c.zalloc_ok = true

/-- An image file name of 600 characters: 596 letters `a` and `.iso`. -/
def long_iso_name : CStr := List.replicate 596 97 ++ cstr ".iso"


/-! ## Properties of the comparator -/

theorem strcmp_loop_diff (cs : Int) : ∀ (s1 s2 : CStr) (c : Int),
    (ventoy_browser_strcmp_loop cs s1 s2 c c).1 - (ventoy_browser_strcmp_loop cs s1 s2 c c).2
      = ventoy_browser_strcmp cs s1 s2
  | [], s2, c => by simp [ventoy_browser_strcmp, ventoy_browser_strcmp_loop]
  | a :: s1, [], c => by simp [ventoy_browser_strcmp, ventoy_browser_strcmp_loop]
  | a :: s1, b :: s2, c => by
    simp only [ventoy_browser_strcmp, ventoy_browser_strcmp_loop]

theorem strcmp_nil_left (cs : Int) (s : CStr) : ventoy_browser_strcmp cs [] s = 0 := by
  simp [ventoy_browser_strcmp, ventoy_browser_strcmp_loop]

theorem strcmp_nil_right (cs : Int) (s : CStr) : ventoy_browser_strcmp cs s [] = 0 := by
  cases s <;> simp [ventoy_browser_strcmp, ventoy_browser_strcmp_loop]

theorem strcmp_cons (cs : Int) (a b : Int) (s1 s2 : CStr) :
    ventoy_browser_strcmp cs (a :: s1) (b :: s2)
      = if browser_norm cs a ≠ browser_norm cs b then browser_norm cs a - browser_norm cs b
        else ventoy_browser_strcmp cs s1 s2 := by
  by_cases h : browser_norm cs a = browser_norm cs b
  · simp only [h, ne_eq, not_true_eq_false, if_false]
    rw [← strcmp_loop_diff cs s1 s2 (browser_norm cs b)]
    simp [ventoy_browser_strcmp, ventoy_browser_strcmp_loop, h]
  · simp [ventoy_browser_strcmp, ventoy_browser_strcmp_loop, h]

theorem strcmp_lt_le_trans (cs : Int) : ∀ (w y z : CStr),
    ventoy_browser_strcmp cs w y < 0 → ventoy_browser_strcmp cs y z ≤ 0 →
    ventoy_browser_strcmp cs w z ≤ 0
  | [], y, z, h, _ => by simp [strcmp_nil_left] at h
  | a :: w, [], z, h, _ => by simp [strcmp_nil_right] at h
  | a :: w, b :: y, [], _, _ => by simp [strcmp_nil_right]
  | a :: w, b :: y, c :: z, h1, h2 => by
    rw [strcmp_cons] at h1 h2 ⊢
    by_cases hab : browser_norm cs a = browser_norm cs b
    · by_cases hbc : browser_norm cs b = browser_norm cs c
      · have hac : browser_norm cs a = browser_norm cs c := hab.trans hbc
        simp only [hab, hbc, hac, ne_eq, not_true_eq_false, if_false] at h1 h2 ⊢
        exact strcmp_lt_le_trans cs w y z h1 h2
      · simp only [hbc, ne_eq, not_false_eq_true, if_true] at h2
        have hac : browser_norm cs a ≠ browser_norm cs c := by rw [hab]; exact hbc
        simp only [hac, ne_eq, not_false_eq_true, if_true]
        omega
    · simp only [hab, ne_eq, not_false_eq_true, if_true] at h1
      by_cases hbc : browser_norm cs b = browser_norm cs c
      · have hac : browser_norm cs a ≠ browser_norm cs c := by rw [← hbc]; exact hab
        simp only [hac, ne_eq, not_false_eq_true, if_true]
        omega
      · simp only [hbc, ne_eq, not_false_eq_true, if_true] at h2
        have hac : browser_norm cs a ≠ browser_norm cs c := by omega
        simp only [hac, ne_eq, not_false_eq_true, if_true]
        omega

theorem strcmp_antisymm (cs : Int) : ∀ (a b : CStr),
    ventoy_browser_strcmp cs b a = - ventoy_browser_strcmp cs a b
  | [], b => by simp [strcmp_nil_left, strcmp_nil_right]
  | a :: s, [] => by simp [strcmp_nil_left, strcmp_nil_right]
  | a :: s, b :: t => by
    rw [strcmp_cons, strcmp_cons]
    by_cases h : browser_norm cs a = browser_norm cs b
    · simp only [h, ne_eq, not_true_eq_false, if_false]
      exact strcmp_antisymm cs s t
    · have h2 : browser_norm cs b ≠ browser_norm cs a := fun e => h e.symm
      simp only [h, h2, ne_eq, not_false_eq_true, if_true]
      omega

theorem strcmp_self (cs : Int) (a : CStr) : ventoy_browser_strcmp cs a a = 0 := by
  have := strcmp_antisymm cs a a
  omega

/-! ## Properties of the selection -/

theorem find_top_loop_inv (cs : Int) (dir : Int) :
    ∀ (rest seen : List browser_node) (sel : Option (Nat × browser_node)),
      TopInv cs dir seen (seen ++ rest) sel →
      TopInv cs dir (seen ++ rest) (seen ++ rest) (find_top_loop cs dir rest seen.length sel)
  | [], seen, sel, h => by simpa [find_top_loop] using h
  | node :: rest, seen, sel, h => by
    have hlen : (seen ++ [node]).length = seen.length + 1 := by simp
    have happ : seen ++ node :: rest = (seen ++ [node]) ++ rest := by simp
    have hget : (seen ++ node :: rest)[seen.length]? = some node := by
      rw [List.getElem?_append_right (le_refl _)]; simp
    by_cases hd : node.dir = dir
    · cases sel with
      | none =>
        simp only [find_top_loop, hd, if_true]
        rw [← hlen, happ]
        apply find_top_loop_inv cs dir rest (seen ++ [node])
        rw [← happ]
        refine ⟨hget, hd, ?_⟩
        intro n hn hnd
        rcases List.mem_append.mp hn with hn | hn
        · exact absurd hnd (h n hn)
        · simp only [List.mem_singleton] at hn
          subst hn
          simp [strcmp_self]
      | some p =>
        obtain ⟨j, s⟩ := p
        obtain ⟨hj, hs, hmin⟩ := h
        by_cases hc : ventoy_browser_strcmp cs s.filename node.filename > 0
        · simp only [find_top_loop, hd, hc, if_true]
          rw [← hlen, happ]
          apply find_top_loop_inv cs dir rest (seen ++ [node])
          rw [← happ]
          refine ⟨hget, hd, ?_⟩
          intro n hn hnd
          rcases List.mem_append.mp hn with hn | hn
          · have h1 : ventoy_browser_strcmp cs node.filename s.filename < 0 := by
              have := strcmp_antisymm cs s.filename node.filename
              omega
            exact strcmp_lt_le_trans cs _ _ _ h1 (hmin n hn hnd)
          · simp only [List.mem_singleton] at hn
            subst hn
            simp [strcmp_self]
        · simp only [find_top_loop, hd, hc, if_true, if_false]
          rw [← hlen, happ]
          apply find_top_loop_inv cs dir rest (seen ++ [node])
          rw [← happ]
          refine ⟨hj, hs, ?_⟩
          intro n hn hnd
          rcases List.mem_append.mp hn with hn | hn
          · exact hmin n hn hnd
          · simp only [List.mem_singleton] at hn
            subst hn
            omega
    · simp only [find_top_loop, hd, if_false]
      rw [← hlen, happ]
      apply find_top_loop_inv cs dir rest (seen ++ [node])
      rw [← happ]
      cases sel with
      | none =>
        intro n hn
        rcases List.mem_append.mp hn with hn | hn
        · exact h n hn
        · simp only [List.mem_singleton] at hn
          subst hn
          exact hd
      | some p =>
        obtain ⟨j, s⟩ := p
        obtain ⟨hj, hs, hmin⟩ := h
        refine ⟨hj, hs, ?_⟩
        intro n hn hnd
        rcases List.mem_append.mp hn with hn | hn
        · exact hmin n hn hnd
        · simp only [List.mem_singleton] at hn
          subst hn
          exact absurd hnd hd

theorem find_top_node_inv (cs : Int) (l : List browser_node) (dir : Int) :
    TopInv cs dir l l (ventoy_browser_find_top_node cs l dir) := by
  have h := find_top_loop_inv cs dir l [] none (by intro n hn; simp at hn)
  simpa [ventoy_browser_find_top_node] using h

theorem find_top_node_none (cs : Int) (l : List browser_node) (dir : Int)
    (h : ventoy_browser_find_top_node cs l dir = none) : ∀ n ∈ l, n.dir ≠ dir := by
  have := find_top_node_inv cs l dir
  rw [h] at this
  exact this

theorem find_top_node_some (cs : Int) (l : List browser_node) (dir : Int) (k : Nat)
    (node : browser_node) (h : ventoy_browser_find_top_node cs l dir = some (k, node)) :
    l[k]? = some node ∧ node.dir = dir ∧
      ∀ n ∈ l, n.dir = dir → ventoy_browser_strcmp cs node.filename n.filename ≤ 0 := by
  have := find_top_node_inv cs l dir
  rw [h] at this
  exact this

/-! ## Properties of the drain loop -/

theorem getElem?_split {α : Type} : ∀ (l : List α) (k : Nat) (x : α), l[k]? = some x →
    ∃ l1 l2, l = l1 ++ x :: l2 ∧ l.eraseIdx k = l1 ++ l2 ∧ l1.length = k
  | [], k, x, h => by simp at h
  | a :: l, 0, x, h => by
    simp only [List.getElem?_cons_zero, Option.some.injEq] at h
    subst h
    exact ⟨[], l, by simp, by simp, by simp⟩
  | a :: l, k + 1, x, h => by
    simp only [List.getElem?_cons_succ] at h
    obtain ⟨l1, l2, h1, h2, h3⟩ := getElem?_split l k x h
    refine ⟨a :: l1, l2, by simp [h1], ?_, by simp [h3]⟩
    simp [List.eraseIdx_cons_succ, h2]

theorem drain_while_spec (cs i : Int) : ∀ (fuel : Nat) (st : render_state),
    st.g_browser_list.length < fuel →
    ∃ em : List browser_node,
      drain_while cs i fuel st = some
        { mbuf := em.foldl (fun m n => browser_ssprintf m n.menuentry) st.mbuf
          g_browser_list := st.g_browser_list.filter (fun n => decide (n.dir ≠ i))
          found := st.found ++ em
          appended := st.appended ++ em.map (fun n => n.menuentry) } ∧
      em.Perm (st.g_browser_list.filter (fun n => decide (n.dir = i))) ∧
      em.Pairwise (fun e1 e2 => ventoy_browser_strcmp cs e1.filename e2.filename ≤ 0)
  | 0, st, h => by omega
  | fuel + 1, st, h => by
    obtain ⟨mbuf, l, found, app⟩ := st
    simp only at h
    rw [drain_while]
    cases hf : ventoy_browser_find_top_node cs l i with
    | none =>
      have hn := find_top_node_none cs _ _ hf
      refine ⟨[], ?_, ?_, List.Pairwise.nil⟩
      · have h1 : l.filter (fun n => decide (n.dir ≠ i)) = l := by
          rw [List.filter_eq_self]
          intro n hn2
          simpa using hn n hn2
        simp only [h1, List.foldl_nil, List.append_nil, List.map_nil]
      · have h2 : l.filter (fun n => decide (n.dir = i)) = [] := by
          rw [List.filter_eq_nil_iff]
          intro n hn2
          simpa using hn n hn2
        simp only [h2]
        exact List.Perm.refl _
    | some p =>
      obtain ⟨k, node⟩ := p
      obtain ⟨hk, hd, hmin⟩ := find_top_node_some cs _ _ _ _ hf
      obtain ⟨l1, l2, hl, he, _⟩ := getElem?_split _ _ _ hk
      simp only
      have hlen : (l.eraseIdx k).length < fuel := by
        rw [he]
        rw [hl] at h
        simp only [List.length_append, List.length_cons] at h ⊢
        omega
      obtain ⟨em, h1, h2, h3⟩ := drain_while_spec cs i fuel
        { mbuf := browser_ssprintf mbuf node.menuentry
          g_browser_list := l.eraseIdx k
          found := found ++ [node]
          appended := app ++ [node.menuentry] } hlen
      simp only at h1 h2
      have hnd : decide (node.dir ≠ i) = false := by simp [hd]
      refine ⟨node :: em, ?_, ?_, ?_⟩
      · rw [h1, he, hl]
        simp only [List.filter_append, List.filter_cons, hnd, List.foldl_cons, List.append_assoc,
          List.singleton_append, List.map_cons]
        simp
      · rw [he] at h2
        simp only [List.filter_append] at h2
        simp only [hl, List.filter_append, List.filter_cons, hd, decide_True, if_true]
        exact (List.Perm.cons node h2).trans List.perm_middle.symm
      · refine List.Pairwise.cons ?_ h3
        intro e he2
        have hmem := h2.subset he2
        simp only [he, List.mem_filter, decide_eq_true_eq] at hmem
        apply hmin e _ hmem.2
        rw [hl]
        rcases List.mem_append.mp hmem.1 with hm | hm
        · exact List.mem_append_left _ hm
        · exact List.mem_append_right _ (List.mem_cons_of_mem _ hm)

/-! ## Properties of the render part -/

theorem browser_dir_render_spec (cs : Int) (fuel : Nat) (mbuf : browser_mbuf)
    (l : List browser_node) (hfuel : l.length < fuel) :
    ∃ ds fs : List browser_node,
      browser_dir_render cs fuel mbuf l = some
        ({ mbuf := (ds ++ fs).foldl (fun m n => browser_ssprintf m n.menuentry)
                    (browser_ssprintf mbuf go_back_entry)
           g_browser_list := []
           found := ds ++ fs
           appended := go_back_entry :: (ds ++ fs).map (fun n => n.menuentry) },
         { buf := ((ds ++ fs).foldl (fun m n => browser_ssprintf m n.menuentry)
                    (browser_ssprintf mbuf go_back_entry)).buf
           size := ((ds ++ fs).foldl (fun m n => browser_ssprintf m n.menuentry)
                    (browser_ssprintf mbuf go_back_entry)).pos }) ∧
      ds.Perm (l.filter (fun n => decide (n.dir = 1))) ∧
      fs.Perm (l.filter (fun n => decide (n.dir = 0))) ∧
      ds.Pairwise (fun e1 e2 => ventoy_browser_strcmp cs e1.filename e2.filename ≤ 0) ∧
      fs.Pairwise (fun e1 e2 => ventoy_browser_strcmp cs e1.filename e2.filename ≤ 0) := by
  obtain ⟨ds, h1, hp1, hs1⟩ := drain_while_spec cs 1 fuel
    { mbuf := browser_ssprintf mbuf go_back_entry
      g_browser_list := l
      found := []
      appended := [go_back_entry] } hfuel
  simp only at h1 hp1
  have hlen : (l.filter (fun n => decide (n.dir ≠ 1))).length < fuel :=
    lt_of_le_of_lt (List.length_filter_le _ _) hfuel
  obtain ⟨fs, h2, hp2, hs2⟩ := drain_while_spec cs 0 fuel
    { mbuf := ds.foldl (fun m n => browser_ssprintf m n.menuentry)
                (browser_ssprintf mbuf go_back_entry)
      g_browser_list := l.filter (fun n => decide (n.dir ≠ 1))
      found := [] ++ ds
      appended := [go_back_entry] ++ ds.map (fun n => n.menuentry) } hlen
  simp only at h2 hp2
  have hff : (l.filter (fun n => decide (n.dir ≠ 1))).filter (fun n => decide (n.dir = 0))
      = l.filter (fun n => decide (n.dir = 0)) := by
    rw [List.filter_filter]
    apply List.filter_congr
    intro n _
    by_cases h0 : n.dir = 0
    · simp [h0]
    · simp [h0]
  rw [hff] at hp2
  refine ⟨ds, fs, ?_, hp1, hp2, hs1, hs2⟩
  simp only [List.nil_append, List.singleton_append, List.cons_append] at h1 h2
  simp only [browser_dir_render, h1, h2, List.foldl_append, List.map_append]

/-! ## Properties of the classifier -/

theorem cstr_iso : cstr ".iso" = [46, 105, 115, 111] := by decide
theorem cstr_wim : cstr ".wim" = [46, 119, 105, 109] := by decide
theorem cstr_vhd : cstr ".vhd" = [46, 118, 104, 100] := by decide
theorem cstr_vhdx : cstr ".vhdx" = [46, 118, 104, 100, 120] := by decide
theorem cstr_efi : cstr ".efi" = [46, 101, 102, 105] := by decide
theorem cstr_img : cstr ".img" = [46, 105, 109, 103] := by decide
theorem cstr_vtoy : cstr ".vtoy" = [46, 118, 116, 111, 121] := by decide
theorem cstr_ventoy_ : cstr "ventoy_" = [118, 101, 110, 116, 111, 121, 95] := by decide
theorem cstr_wimboot : cstr "wimboot" = [119, 105, 109, 98, 111, 111, 116] := by decide
theorem cstr_vhdboot : cstr "vhdboot" = [118, 104, 100, 98, 111, 111, 116] := by decide
theorem cstr_ventoy_wimboot :
    cstr "ventoy_wimboot" = [118, 101, 110, 116, 111, 121, 95, 119, 105, 109, 98, 111, 111, 116] := by
  decide
theorem cstr_ventoy_vhdboot :
    cstr "ventoy_vhdboot" = [118, 101, 110, 116, 111, 121, 95, 118, 104, 100, 98, 111, 111, 116] := by
  decide

theorem check_filename_short (cfg : browser_config) (filename : CStr) (len : Int)
    (type : Option img_type) (h : len < 4) :
    ventoy_browser_check_filename cfg filename len type = (0, type) := by
  simp [ventoy_browser_check_filename, h]

theorem strcasecmp_img_chars (a b c d : Int)
    (h : grub_strcasecmp [a, b, c, d] (cstr ".img") = 0) :
    grub_tolower (u8 a) = 46 ∧ grub_tolower (u8 b) = 105 ∧ grub_tolower (u8 c) = 109 ∧
      grub_tolower (u8 d) = 103 := by
  rw [cstr_img] at h
  have t46 : grub_tolower (u8 46) = 46 := by decide
  have t105 : grub_tolower (u8 105) = 105 := by decide
  have t109 : grub_tolower (u8 109) = 109 := by decide
  have t103 : grub_tolower (u8 103) = 103 := by decide
  simp only [grub_strcasecmp, t46, t105, t109, t103, deref, List.headD_nil] at h
  split_ifs at h with h1 h2 h3 h4
  · omega
  · omega
  · omega
  · omega
  · simp only [ne_eq, not_not] at h1 h2 h3 h4
    exact ⟨h1, h2, h3, h4⟩

theorem tolower_u8_lower (x : Int) (h1 : 97 ≤ x) (h2 : x ≤ 122) : grub_tolower (u8 x) = x := by
  unfold grub_tolower u8
  have : x % 256 = x := Int.emod_eq_of_lt (by omega) (by omega)
  rw [this]
  simp only [ite_eq_right_iff]
  intro h
  omega

theorem tolower_u8_dot : grub_tolower (u8 46) = 46 := by decide

theorem check_filename_reserved_img (cfg : browser_config) (pre : CStr) (a b c d : Int)
    (type : Option img_type)
    (hpre : pre = cstr "ventoy_wimboot" ∨ pre = cstr "ventoy_vhdboot")
    (hsuf : grub_strcasecmp [a, b, c, d] (cstr ".img") = 0) :
    ventoy_browser_check_filename cfg (pre ++ [a, b, c, d]) 18 type = (0, type) := by
  obtain ⟨ha, hb, hc, hd⟩ := strcasecmp_img_chars a b c d hsuf
  have hlt : ¬ ((18 : Int) < 4) := by decide
  have h14 : ptr_add (pre ++ [a, b, c, d]) (18 - 4) = [a, b, c, d] := by
    rcases hpre with h | h <;> subst h <;> simp [ptr_add, cstr_ventoy_wimboot, cstr_ventoy_vhdboot]
  have h13 : ptr_add (pre ++ [a, b, c, d]) (18 - 5) = [116, a, b, c, d] := by
    rcases hpre with h | h <;> subst h <;> simp [ptr_add, cstr_ventoy_wimboot, cstr_ventoy_vhdboot]
  have hres : grub_strncmp (pre ++ [a, b, c, d]) (cstr "ventoy_") 7 = 0 ∧
      (grub_strncmp (ptr_add (pre ++ [a, b, c, d]) 7) (cstr "wimboot") 7 = 0 ∨
        grub_strncmp (ptr_add (pre ++ [a, b, c, d]) 7) (cstr "vhdboot") 7 = 0) := by
    rcases hpre with h | h <;> subst h
    · refine ⟨?_, Or.inl ?_⟩ <;>
        simp [ptr_add, cstr_ventoy_wimboot, cstr_ventoy_, cstr_wimboot, grub_strncmp,
          grub_strncmp_loop, deref, u8]
    · refine ⟨?_, Or.inr ?_⟩ <;>
        simp [ptr_add, cstr_ventoy_vhdboot, cstr_ventoy_, cstr_vhdboot, grub_strncmp,
          grub_strncmp_loop, deref, u8]
  have e1 : grub_strcasecmp [a, b, c, d] (cstr ".iso") ≠ 0 := by
    simp +decide [cstr_iso, grub_strcasecmp, ha, hb, hc, hd, tolower_u8_lower, tolower_u8_dot]
  have e2 : grub_strcasecmp [a, b, c, d] (cstr ".wim") ≠ 0 := by
    simp +decide [cstr_wim, grub_strcasecmp, ha, hb, hc, hd, tolower_u8_lower, tolower_u8_dot]
  have e3 : grub_strcasecmp [a, b, c, d] (cstr ".vhd") ≠ 0 := by
    simp +decide [cstr_vhd, grub_strcasecmp, ha, hb, hc, hd, tolower_u8_lower, tolower_u8_dot]
  have e4 : grub_strcasecmp [116, a, b, c, d] (cstr ".vhdx") ≠ 0 := by
    simp +decide [cstr_vhdx, grub_strcasecmp, ha, hb, hc, hd, tolower_u8_lower, tolower_u8_dot]
  have e5 : grub_strcasecmp [a, b, c, d] (cstr ".efi") ≠ 0 := by
    simp +decide [cstr_efi, grub_strcasecmp, ha, hb, hc, hd, tolower_u8_lower, tolower_u8_dot]
  have e6 : grub_strcasecmp [116, a, b, c, d] (cstr ".vtoy") ≠ 0 := by
    simp +decide [cstr_vtoy, grub_strcasecmp, ha, hb, hc, hd, tolower_u8_lower, tolower_u8_dot]
  unfold ventoy_browser_check_filename
  simp only [hlt, if_false, h14, h13, e1, e2, e3, e4, e5, e6, hsuf, hres, and_false, or_false,
    and_true, true_and, if_true, ite_self]

/-! ## Properties of the library comparisons -/

theorem u8_eq_ascii (a b : Int) (ha : -128 ≤ a ∧ a ≤ 255) (hb : 0 < b ∧ b < 128) :
    u8 a = u8 b ↔ a = b := by
  unfold u8
  constructor
  · intro h
    omega
  · intro h
    rw [h]

theorem u8_ascii (b : Int) (hb : 0 < b ∧ b < 128) : u8 b = b := by
  unfold u8
  omega

theorem strncmp_loop_prefix : ∀ (p s : CStr), p ≠ [] → wf_cstr s → ascii_cstr p →
    (grub_strncmp_loop s p p.length = 0 ↔ p <+: s)
  | [], _, h, _, _ => absurd rfl h
  | [b], [], _, _, hp => by
    have hb := hp b (by simp)
    simp [grub_strncmp_loop, deref, u8_ascii b hb]
    simp [u8]
    omega
  | [b], a :: t, _, hs, hp => by
    have hb := hp b (by simp)
    have ha := hs a (by simp)
    simp only [List.length_singleton, grub_strncmp_loop, deref, List.headD_cons]
    rw [sub_eq_zero, u8_eq_ascii a b ⟨ha.1, ha.2.1⟩ hb]
    simp [List.cons_prefix_cons, eq_comm]
  | b :: b2 :: p, [], _, _, hp => by
    have hb := hp b (by simp)
    simp [grub_strncmp_loop, deref, u8_ascii b hb]
    simp [u8]
    omega
  | b :: b2 :: p, a :: t, _, hs, hp => by
    have hb := hp b (by simp)
    have ha := hs a (by simp)
    have hs2 : wf_cstr t := fun c hc => hs c (List.mem_cons_of_mem _ hc)
    have hp2 : ascii_cstr (b2 :: p) := fun c hc => hp c (List.mem_cons_of_mem _ hc)
    have ih := strncmp_loop_prefix (b2 :: p) t (by simp) hs2 hp2
    simp only [List.length_cons] at ih ⊢
    simp only [grub_strncmp_loop]
    by_cases hab : a = b
    · subst hab
      simp only [ne_eq, not_true_eq_false, if_false, ih]
      simp [List.cons_prefix_cons]
    · simp only [ne_eq, hab, not_false_eq_true, if_true]
      rw [sub_eq_zero, u8_eq_ascii a b ⟨ha.1, ha.2.1⟩ hb]
      have hba : ¬ b = a := fun e => hab e.symm
      simp [List.cons_prefix_cons, hab, hba]

theorem tolower_u8_eq_iff (a b : Int) (ha : -128 ≤ a ∧ a ≤ 255) (hb : 0 < b ∧ b < 128) :
    grub_tolower (u8 a) = grub_tolower (u8 b) ↔ grub_tolower a = grub_tolower b := by
  rw [u8_ascii b hb]
  unfold grub_tolower u8
  split_ifs <;> omega

theorem tolower_u8_ascii_pos (b : Int) (hb : 0 < b ∧ b < 128) :
    grub_tolower (u8 0) - grub_tolower (u8 b) ≠ 0 := by
  rw [u8_ascii b hb]
  unfold grub_tolower u8
  split_ifs <;> omega

theorem strncasecmp_loop_ci : ∀ (p s : CStr), p ≠ [] → wf_cstr s → ascii_cstr p →
    (grub_strncasecmp_loop s p p.length = 0 ↔ begins_with_ci p s)
  | [], _, h, _, _ => absurd rfl h
  | [b], [], _, _, hp => by
    have hb := hp b (by simp)
    simp [grub_strncasecmp_loop, deref, begins_with_ci, tolower_u8_ascii_pos b hb]
  | [b], a :: t, _, hs, hp => by
    have hb := hp b (by simp)
    have ha := hs a (by simp)
    simp only [List.length_singleton, grub_strncasecmp_loop, deref, List.headD_cons,
      begins_with_ci]
    rw [sub_eq_zero, tolower_u8_eq_iff a b ⟨ha.1, ha.2.1⟩ hb]
    simp
  | b :: b2 :: p, [], _, _, hp => by
    have hb := hp b (by simp)
    simp [grub_strncasecmp_loop, deref, begins_with_ci, tolower_u8_ascii_pos b hb]
  | b :: b2 :: p, a :: t, _, hs, hp => by
    have hb := hp b (by simp)
    have ha := hs a (by simp)
    have hs2 : wf_cstr t := fun c hc => hs c (List.mem_cons_of_mem _ hc)
    have hp2 : ascii_cstr (b2 :: p) := fun c hc => hp c (List.mem_cons_of_mem _ hc)
    have ih := strncasecmp_loop_ci (b2 :: p) t (by simp) hs2 hp2
    simp only [List.length_cons, begins_with_ci] at ih ⊢
    simp only [grub_strncasecmp_loop]
    by_cases hab : grub_tolower a = grub_tolower b
    · simp only [hab, ne_eq, not_true_eq_false, if_false, ih]
      simp [hab]
    · simp only [ne_eq, hab, not_false_eq_true, if_true]
      rw [sub_eq_zero, tolower_u8_eq_iff a b ⟨ha.1, ha.2.1⟩ hb]
      simp [hab]

theorem cstr_dot : cstr "." = [46] := by decide
theorem cstr_dotdot : cstr ".." = [46, 46] := by decide
theorem cstr_recycle :
    cstr "$RECYCLE.BIN" = [36, 82, 69, 67, 89, 67, 76, 69, 46, 66, 73, 78] := by decide
theorem cstr_extend : cstr "$Extend" = [36, 69, 120, 116, 101, 110, 100] := by decide

theorem ascii_recycle : ascii_cstr (cstr "$RECYCLE.BIN") := by
  rw [cstr_recycle]; intro c hc; simp at hc; omega

theorem ascii_extend : ascii_cstr (cstr "$Extend") := by
  rw [cstr_extend]; intro c hc; simp at hc; omega

/-- The tests of lines 292-310 amount to the directory rules. -/
theorem dir_tests_iff_refuse (env : browser_env) (filename : CStr) (hwf : wf_cstr filename) :
    (((grub_strlen filename = 1 ∧ char_at filename 0 = 46) ∨
        (grub_strlen filename = 2 ∧ char_at filename 0 = 46 ∧ char_at filename 1 = 46)) ∨
      env.ventoy_img_name_valid filename (grub_strlen filename) = 0 ∨
      (char_at filename 0 = 36 ∧
        (grub_strncmp filename (cstr "$RECYCLE.BIN") 12 = 0 ∨
          grub_strncasecmp filename (cstr "$Extend") 7 = 0))) ↔
    dir_rules_refuse env filename := by
  have h1 : (grub_strlen filename = 1 ∧ char_at filename 0 = 46) ↔ filename = cstr "." := by
    rw [cstr_dot]
    match filename with
    | [] => simp [grub_strlen]
    | [a] => simp [grub_strlen, char_at]
    | a :: b :: t => simp [grub_strlen]; omega
  have h2 : (grub_strlen filename = 2 ∧ char_at filename 0 = 46 ∧ char_at filename 1 = 46) ↔
      filename = cstr ".." := by
    rw [cstr_dotdot]
    match filename with
    | [] => simp [grub_strlen]
    | [a] => simp [grub_strlen]
    | [a, b] => simp [grub_strlen, char_at]
    | a :: b :: c :: t => simp [grub_strlen]; omega
  have h3 : grub_strncmp filename (cstr "$RECYCLE.BIN") 12 = 0 ↔
      cstr "$RECYCLE.BIN" <+: filename := by
    have := strncmp_loop_prefix (cstr "$RECYCLE.BIN") filename (by rw [cstr_recycle]; simp) hwf
      ascii_recycle
    have hl : (cstr "$RECYCLE.BIN").length = 12 := by decide
    rw [hl] at this
    simpa [grub_strncmp] using this
  have h4 : grub_strncasecmp filename (cstr "$Extend") 7 = 0 ↔
      begins_with_ci (cstr "$Extend") filename := by
    have := strncasecmp_loop_ci (cstr "$Extend") filename (by rw [cstr_extend]; simp) hwf
      ascii_extend
    have hl : (cstr "$Extend").length = 7 := by decide
    rw [hl] at this
    simpa [grub_strncasecmp] using this
  have h5 : cstr "$RECYCLE.BIN" <+: filename → char_at filename 0 = 36 := by
    rw [cstr_recycle]
    rintro ⟨t, rfl⟩
    simp [char_at]
  have h6 : begins_with_ci (cstr "$Extend") filename → char_at filename 0 = 36 := by
    rw [begins_with_ci, cstr_extend]
    intro h
    match filename, h with
    | [], h => simp at h
    | a :: t, h =>
      simp only [List.length_cons, List.length_nil, List.take_succ_cons, List.map_cons,
        List.cons.injEq] at h
      have := h.1
      simp only [char_at, List.getD_cons_zero]
      unfold grub_tolower at this
      split_ifs at this <;> omega
  rw [h1, h2, h3, h4]
  unfold dir_rules_refuse
  constructor
  · rintro ((h | h) | h | ⟨_, h | h⟩)
    · exact Or.inl h
    · exact Or.inr (Or.inl h)
    · exact Or.inr (Or.inr (Or.inl h))
    · exact Or.inr (Or.inr (Or.inr (Or.inl h)))
    · exact Or.inr (Or.inr (Or.inr (Or.inr h)))
  · rintro (h | h | h | h | h)
    · exact Or.inl (Or.inl h)
    · exact Or.inl (Or.inr h)
    · exact Or.inr (Or.inl h)
    · exact Or.inr (Or.inr ⟨h5 h, Or.inl h⟩)
    · exact Or.inr (Or.inr ⟨h6 h, Or.inr h⟩)

/-! ## Properties of the menu buffer -/

theorem take_take_append (a b : CStr) (n : Nat) : (a.take n ++ b).take n = (a ++ b).take n := by
  by_cases h : a.length ≤ n
  · rw [List.take_of_length_le h]
  · have h2 : n ≤ a.length := by omega
    have h3 : n ≤ (a.take n).length := by rw [List.length_take]; omega
    rw [List.take_append_of_le_length h3, List.take_append_of_le_length h2, List.take_take]
    simp

theorem browser_ssprintf_capped (cap : Nat) (content t : CStr) (h : content.length ≤ cap) :
    browser_ssprintf { max := (cap : Int) + 1, pos := (content.length : Int), buf := some content } t
      = { max := (cap : Int) + 1
          pos := (((content ++ t).take cap).length : Int)
          buf := some ((content ++ t).take cap) } := by
  have hn : ((cap : Int) + 1 - (content.length : Int)).toNat = cap - content.length + 1 := by
    omega
  have htake : (content ++ t).take cap = content ++ t.take (cap - content.length) := by
    rw [List.take_append_eq_append_take, List.take_of_length_le h]
  simp only [browser_ssprintf, grub_snprintf, hn, Nat.add_one_ne_zero, if_false,
    Nat.add_sub_cancel, Int.toNat_ofNat, List.take_length, Option.map_some', htake,
    List.length_append, Nat.cast_add]

theorem browser_ssprintf_fold_capped (cap : Nat) : ∀ (texts : List CStr) (content : CStr),
    content.length ≤ cap →
    texts.foldl browser_ssprintf
        { max := (cap : Int) + 1, pos := (content.length : Int), buf := some content }
      = { max := (cap : Int) + 1
          pos := (((content ++ texts.flatten).take cap).length : Int)
          buf := some ((content ++ texts.flatten).take cap) }
  | [], content, h => by
    simp [List.take_of_length_le h]
  | t :: texts, content, h => by
    have hlen : ((content ++ t).take cap).length ≤ cap := by
      rw [List.length_take]; omega
    rw [List.foldl_cons, browser_ssprintf_capped cap content t h,
      browser_ssprintf_fold_capped cap texts _ hlen, take_take_append]
    simp [List.append_assoc]

/-- The capacity of a fresh buffer, less the terminator. -/
theorem mbuf_alloc_fresh :
    (ventoy_browser_mbuf_alloc true).2
      = { max := ((65535 : Nat) : Int) + 1, pos := ((([] : CStr).length : Nat) : Int), buf := some [] } := by
  simp [ventoy_browser_mbuf_alloc, BROWSER_MENU_BUF]

theorem browser_dir_render_region (cs : Int) (fuel : Nat) (l : List browser_node)
    (hfuel : l.length < fuel) :
    ∃ r : render_state × submitted,
      browser_dir_render cs fuel (ventoy_browser_mbuf_alloc true).2 l = some r ∧
      r.1.appended = go_back_entry :: r.1.found.map (fun n => n.menuentry) ∧
      r.2.region = some ((r.1.appended.flatten).take 65535) ∧
      r.2.size = (((r.1.appended.flatten).take 65535).length : Int) ∧
      r.1.found.Perm
        (l.filter (fun n => decide (n.dir = 1)) ++ l.filter (fun n => decide (n.dir = 0))) := by
  obtain ⟨ds, fs, hr, hp1, hp2, _, _⟩ :=
    browser_dir_render_spec cs fuel (ventoy_browser_mbuf_alloc true).2 l hfuel
  have hfold : (ds ++ fs).foldl (fun m n => browser_ssprintf m n.menuentry)
      (browser_ssprintf (ventoy_browser_mbuf_alloc true).2 go_back_entry)
      = { max := ((65535 : Nat) : Int) + 1
          pos := ((((go_back_entry :: (ds ++ fs).map (fun n => n.menuentry)).flatten).take
            65535).length : Int)
          buf := some (((go_back_entry :: (ds ++ fs).map (fun n => n.menuentry)).flatten).take
            65535) } := by
    have h1 : (ds ++ fs).foldl (fun m n => browser_ssprintf m n.menuentry)
        (browser_ssprintf (ventoy_browser_mbuf_alloc true).2 go_back_entry)
        = (go_back_entry :: (ds ++ fs).map (fun n => n.menuentry)).foldl browser_ssprintf
            (ventoy_browser_mbuf_alloc true).2 := by
      rw [List.foldl_cons, List.foldl_map]
    rw [h1, mbuf_alloc_fresh, browser_ssprintf_fold_capped 65535 _ [] (by simp)]
    simp only [List.nil_append]
  rw [hfold] at hr
  refine ⟨_, hr, rfl, ?_, rfl, ?_⟩
  · simp only [submitted.region, Option.map_some', Int.toNat_ofNat, List.take_length]
  · exact List.Perm.append hp1 hp2

/-! ## The scan of a directory of ISO files -/

theorem check_filename_iso (cfg : browser_config) (stem : CStr) (type : Option img_type)
    (hflt : cfg.FILE_FLT_ISO = true) (hdot : char_at (stem ++ cstr ".iso") 0 ≠ 46) :
    ventoy_browser_check_filename cfg (stem ++ cstr ".iso")
      (grub_strlen (stem ++ cstr ".iso")) type = (1, some img_type_iso) := by
  have hl : grub_strlen (stem ++ cstr ".iso") = (stem.length : Int) + 4 := by
    simp [grub_strlen, cstr_iso]
  have hlt : ¬ ((stem.length : Int) + 4 < 4) := by omega
  have hp : ptr_add (stem ++ cstr ".iso") ((stem.length : Int) + 4 - 4) = cstr ".iso" := by
    simp [ptr_add]
  have hc : grub_strcasecmp (cstr ".iso") (cstr ".iso") = 0 := by decide
  rw [hl]
  unfold ventoy_browser_check_filename
  simp only [hlt, if_false, hp, hc, hflt, and_self, if_true, check_filename_tail, hdot,
    false_and, and_false]

theorem file_menuentry_text_length (env : browser_env) (g : scan_globals) (filename : CStr)
    (type : Option img_type) (fsize : Nat) :
    100 ≤ (file_menuentry_text env g filename type fsize).length := by
  have h1 : (cstr "menuentry \"").length = 11 := by decide
  have h2 : (cstr "\" --class=").length = 10 := by decide
  have h3 : (cstr " \x7b\n  vt_set_fake_vlnk \"(").length = 24 := by decide
  have h4 : (cstr "_common_menuentry\n  vt_reset_fake_vlnk\n\x7d\n").length = 41 := by decide
  have h5 : (cstr " ").length = 1 := by decide
  have h6 : (cstr ")").length = 1 := by decide
  have h7 : (cstr "/").length = 1 := by decide
  have h8 : (cstr "\" ").length = 2 := by decide
  have h9 : (cstr "\n  ").length = 3 := by decide
  have h10 : 10 ≤ (fmt_s10 (env.grub_get_human_size fsize)).length := by
    simp only [fmt_s10, List.length_append, List.length_replicate]
    omega
  simp only [file_menuentry_text, List.length_append, h1, h2, h3, h4, h5, h6, h7, h8, h9]
  omega

theorem iterate_dir_iso (cfg : browser_config) (env : browser_env) (g : scan_globals)
    (c : dir_child) (l : List browser_node) (hflt : cfg.FILE_FLT_ISO = true)
    (hsz : 101 ≤ cfg.sizeof_menuentry) (hc : plain_iso_child cfg c) :
    ∃ node : browser_node,
      ventoy_browser_iterate_dir cfg env g c.zalloc_ok c.filename c.info l = (0, node :: l) ∧
      node.dir = 0 ∧ 100 ≤ node.menuentry.length := by
  obtain ⟨⟨stem, hname⟩, hdot, hdir, hs0, hmin, hz⟩ := hc
  have hchk := check_filename_iso cfg stem none hflt (by rw [← hname]; exact hdot)
  rw [← hname] at hchk
  have hnlt : ¬ c.info.size < cfg.VTOY_FILT_MIN_FILE_SIZE := by omega
  refine ⟨{ dir := 0
            filename := grub_strncpy c.filename cfg.sizeof_filename
            menuentry := (grub_snprintf cfg.sizeof_menuentry
              (file_menuentry_text env g c.filename (some img_type_iso) c.info.size)).1 },
    ?_, rfl, ?_⟩
  · simp only [ventoy_browser_iterate_dir, hdir, hchk, hs0, hnlt, hz, browser_list_insert,
      if_false, Bool.false_eq_true, one_ne_zero, not_true_eq_false]
  · have hlen := file_menuentry_text_length env g c.filename (some img_type_iso) c.info.size
    have hne : cfg.sizeof_menuentry ≠ 0 := by omega
    simp only [grub_snprintf, hne, if_false, List.length_take]
    omega

theorem fs_dir_iterate_iso (cfg : browser_config) (env : browser_env) (g : scan_globals)
    (hflt : cfg.FILE_FLT_ISO = true) (hsz : 101 ≤ cfg.sizeof_menuentry) :
    ∀ (children : List dir_child) (l : List browser_node),
      (∀ c ∈ children, plain_iso_child cfg c) →
      (∀ n ∈ l, n.dir = 0 ∧ 100 ≤ n.menuentry.length) →
      (fs_dir_iterate cfg env g children l).length = children.length + l.length ∧
      ∀ n ∈ fs_dir_iterate cfg env g children l, n.dir = 0 ∧ 100 ≤ n.menuentry.length
  | [], l, _, hl => by simpa [fs_dir_iterate] using hl
  | c :: rest, l, hc, hl => by
    obtain ⟨node, hit, hd, hlen⟩ :=
      iterate_dir_iso cfg env g c l hflt hsz (hc c (List.mem_cons_self _ _))
    have hl2 : ∀ n ∈ node :: l, n.dir = 0 ∧ 100 ≤ n.menuentry.length := by
      intro n hn
      rcases List.mem_cons.mp hn with h | h
      · rw [h]; exact ⟨hd, hlen⟩
      · exact hl n h
    have ih := fs_dir_iterate_iso cfg env g hflt hsz rest (node :: l)
      (fun c2 h2 => hc c2 (List.mem_cons_of_mem _ h2)) hl2
    simp only [fs_dir_iterate, hit, ne_eq, not_true_eq_false, if_false]
    refine ⟨?_, ih.2⟩
    rw [ih.1]
    simp only [List.length_cons]
    omega

theorem sum_length_ge (k : Nat) : ∀ (l : List browser_node),
    (∀ n ∈ l, k ≤ n.menuentry.length) → k * l.length ≤ (l.map (fun n => n.menuentry.length)).sum
  | [], _ => by simp
  | n :: l, h => by
    have h1 := h n (List.mem_cons_self _ _)
    have h2 := sum_length_ge k l (fun m hm => h m (List.mem_cons_of_mem _ hm))
    simp only [List.length_cons, List.map_cons, List.sum_cons]
    rw [Nat.mul_succ]
    omega

theorem many_iso_files_plain : ∀ c ∈ many_iso_files, plain_iso_child sample_config c := by
  intro c hc
  simp only [many_iso_files, List.mem_map, List.mem_range] at hc
  obtain ⟨k, _, rfl⟩ := hc
  refine ⟨⟨cstr "f" ++ fmt_llu k, by simp⟩, ?_, rfl, by simp, by simp [sample_config], rfl⟩
  have : cstr "f" = [102] := by decide
  simp [char_at, this]

theorem many_iso_files_scan :
    (fs_dir_iterate sample_config sample_env sample_globals many_iso_files []).length = 700 ∧
    (∀ n ∈ fs_dir_iterate sample_config sample_env sample_globals many_iso_files [],
      n.dir = 1 ∨ n.dir = 0) ∧
    65535 < go_back_entry.length +
      ((fs_dir_iterate sample_config sample_env sample_globals many_iso_files []).map
        (fun n => n.menuentry.length)).sum := by
  obtain ⟨h1, h2⟩ := fs_dir_iterate_iso sample_config sample_env sample_globals rfl (by decide)
    many_iso_files [] many_iso_files_plain (by simp)
  have hlen : many_iso_files.length = 700 := by simp [many_iso_files]
  rw [hlen] at h1
  refine ⟨by simpa using h1, fun n hn => Or.inr (h2 n hn).1, ?_⟩
  have h3 := sum_length_ge 100 _ (fun n hn => (h2 n hn).2)
  rw [h1] at h3
  simp only [List.length_nil, Nat.add_zero] at h3
  omega

/-! ## The classifier against its reference -/

theorem tolower_u8_wf_ne_zero (a : Int) (ha : -128 ≤ a ∧ a ≤ 255 ∧ a ≠ 0) :
    grub_tolower (u8 a) - grub_tolower (u8 0) ≠ 0 := by
  unfold grub_tolower u8
  split_ifs <;> omega

theorem strcasecmp_eq_zero_iff : ∀ (s p : CStr), wf_cstr s → ascii_cstr p →
    (grub_strcasecmp s p = 0 ↔ s.map grub_tolower = p.map grub_tolower)
  | [], [], _, _ => by simp [grub_strcasecmp]
  | [], b :: p, _, hp => by
    have hb := hp b (by simp)
    simp [grub_strcasecmp, deref, tolower_u8_ascii_pos b hb]
  | a :: s, [], hs, _ => by
    have ha := hs a (by simp)
    simp [grub_strcasecmp, deref, tolower_u8_wf_ne_zero a ha]
  | a :: s, b :: p, hs, hp => by
    have hb := hp b (by simp)
    have ha := hs a (by simp)
    have hs2 : wf_cstr s := fun c hc => hs c (List.mem_cons_of_mem _ hc)
    have hp2 : ascii_cstr p := fun c hc => hp c (List.mem_cons_of_mem _ hc)
    have ih := strcasecmp_eq_zero_iff s p hs2 hp2
    have hiff := tolower_u8_eq_iff a b ⟨ha.1, ha.2.1⟩ hb
    simp only [grub_strcasecmp, List.map_cons, List.cons.injEq]
    by_cases hab : grub_tolower (u8 a) = grub_tolower (u8 b)
    · simp only [hab, ne_eq, not_true_eq_false, if_false, ih]
      rw [hiff] at hab
      simp [hab]
    · simp only [ne_eq, hab, not_false_eq_true, if_true]
      rw [sub_eq_zero]
      rw [hiff] at hab
      simp [hab, hiff]

theorem wf_cstr_drop (s : CStr) (n : Nat) (h : wf_cstr s) : wf_cstr (s.drop n) :=
  fun c hc => h c (List.mem_of_mem_drop hc)

theorem strcasecmp_suffix_iff (filename p : CStr) (hwf : wf_cstr filename) (hp : ascii_cstr p) :
    ((p.length : Int) ≤ grub_strlen filename ∧
      grub_strcasecmp (ptr_add filename (grub_strlen filename - (p.length : Int))) p = 0) ↔
    ends_with_ci filename p := by
  have hn : (grub_strlen filename - (p.length : Int)).toNat = filename.length - p.length := by
    unfold grub_strlen
    omega
  unfold ptr_add ends_with_ci
  rw [hn, strcasecmp_eq_zero_iff _ _ (wf_cstr_drop _ _ hwf) hp]
  unfold grub_strlen
  constructor
  · rintro ⟨h1, h2⟩
    exact ⟨by omega, h2⟩
  · rintro ⟨h1, h2⟩
    exact ⟨by omega, h2⟩

theorem prefix_append_iff (p q s : CStr) :
    (p <+: s ∧ q <+: s.drop p.length) ↔ (p ++ q) <+: s := by
  constructor
  · rintro ⟨⟨t, rfl⟩, ⟨u, hu⟩⟩
    simp only [List.drop_left'] at hu
    subst hu
    exact ⟨u, by simp⟩
  · rintro ⟨u, rfl⟩
    refine ⟨⟨q ++ u, by simp⟩, ?_⟩
    simp only [List.append_assoc, List.drop_left']
    exact ⟨u, rfl⟩

theorem ascii_of_cstr (p : CStr) (h : decide (ascii_cstr p) = true) : ascii_cstr p :=
  of_decide_eq_true h

theorem reserved_tests_iff (filename : CStr) (hwf : wf_cstr filename) :
    (grub_strncmp filename (cstr "ventoy_") 7 = 0 ∧
      (grub_strncmp (ptr_add filename 7) (cstr "wimboot") 7 = 0 ∨
        grub_strncmp (ptr_add filename 7) (cstr "vhdboot") 7 = 0)) ↔
    (cstr "ventoy_wimboot" <+: filename ∨ cstr "ventoy_vhdboot" <+: filename) := by
  have h1 : grub_strncmp filename (cstr "ventoy_") 7 = 0 ↔ cstr "ventoy_" <+: filename := by
    have := strncmp_loop_prefix (cstr "ventoy_") filename (by decide) hwf (by decide)
    have hl : (cstr "ventoy_").length = 7 := by decide
    rw [hl] at this
    simpa [grub_strncmp] using this
  have hwf7 : wf_cstr (ptr_add filename 7) := wf_cstr_drop _ _ hwf
  have h2 : grub_strncmp (ptr_add filename 7) (cstr "wimboot") 7 = 0 ↔
      cstr "wimboot" <+: filename.drop 7 := by
    have := strncmp_loop_prefix (cstr "wimboot") _ (by decide) hwf7 (by decide)
    have hl : (cstr "wimboot").length = 7 := by decide
    rw [hl] at this
    simpa [grub_strncmp, ptr_add] using this
  have h3 : grub_strncmp (ptr_add filename 7) (cstr "vhdboot") 7 = 0 ↔
      cstr "vhdboot" <+: filename.drop 7 := by
    have := strncmp_loop_prefix (cstr "vhdboot") _ (by decide) hwf7 (by decide)
    have hl : (cstr "vhdboot").length = 7 := by decide
    rw [hl] at this
    simpa [grub_strncmp, ptr_add] using this
  have e1 : cstr "ventoy_wimboot" = cstr "ventoy_" ++ cstr "wimboot" := by decide
  have e2 : cstr "ventoy_vhdboot" = cstr "ventoy_" ++ cstr "vhdboot" := by decide
  have hl : (cstr "ventoy_").length = 7 := by decide
  rw [h1, h2, h3, e1, e2, ← prefix_append_iff, ← prefix_append_iff, hl]
  tauto

theorem dot_underscore_iff (filename : CStr) :
    (char_at filename 0 = 46 ∧ char_at filename 1 = 95) ↔ cstr "._" <+: filename := by
  have e : cstr "._" = [46, 95] := by decide
  rw [e]
  match filename with
  | [] => simp [char_at]
  | [a] => simp [char_at, List.cons_prefix_cons]
  | a :: b :: t => simp [char_at, List.cons_prefix_cons, eq_comm]

theorem suffix4_iff (filename p : CStr) (hwf : wf_cstr filename) (hp : ascii_cstr p)
    (hl : p.length = 4) (h4 : ¬ grub_strlen filename < 4) :
    grub_strcasecmp (ptr_add filename (grub_strlen filename - 4)) p = 0 ↔
      ends_with_ci filename p := by
  have h := strcasecmp_suffix_iff filename p hwf hp
  rw [hl] at h
  rw [← h]
  constructor
  · intro h2
    exact ⟨by push_cast; omega, h2⟩
  · intro h2
    exact h2.2

theorem suffix5_iff (filename p : CStr) (hwf : wf_cstr filename) (hp : ascii_cstr p)
    (hl : p.length = 5) :
    (grub_strlen filename ≥ 5 ∧
      grub_strcasecmp (ptr_add filename (grub_strlen filename - 5)) p = 0) ↔
      ends_with_ci filename p := by
  have h := strcasecmp_suffix_iff filename p hwf hp
  rw [hl] at h
  rw [← h]
  constructor
  · intro h2
    exact ⟨by push_cast; omega, h2.2⟩
  · intro h2
    exact ⟨by have := h2.1; push_cast at this; omega, h2.2⟩

theorem check_filename_unfold (cfg : browser_config) (filename : CStr) (type : Option img_type)
    (hwf : wf_cstr filename) (h4 : ¬ grub_strlen filename < 4) :
    ventoy_browser_check_filename cfg filename (grub_strlen filename) type =
      if cfg.FILE_FLT_ISO = true ∧ ends_with_ci filename (cstr ".iso") then
        check_filename_tail cfg filename img_type_iso
      else if cfg.FILE_FLT_WIM = true ∧ cfg.g_wimboot_enable ≠ 0 ∧
          ends_with_ci filename (cstr ".wim") then
        check_filename_tail cfg filename img_type_wim
      else if cfg.FILE_FLT_VHD = true ∧ cfg.g_vhdboot_enable ≠ 0 ∧
          (ends_with_ci filename (cstr ".vhd") ∨ ends_with_ci filename (cstr ".vhdx")) then
        check_filename_tail cfg filename img_type_vhd
      else if cfg.GRUB_MACHINE_EFI = true ∧ cfg.FILE_FLT_EFI = true ∧
          ends_with_ci filename (cstr ".efi") then
        check_filename_tail cfg filename img_type_efi
      else if cfg.FILE_FLT_IMG = true ∧ ends_with_ci filename (cstr ".img") then
        if filename.length = 18 ∧
            (cstr "ventoy_wimboot" <+: filename ∨ cstr "ventoy_vhdboot" <+: filename) then
          (0, type)
        else check_filename_tail cfg filename img_type_img
      else if cfg.FILE_FLT_VTOY = true ∧ ends_with_ci filename (cstr ".vtoy") then
        check_filename_tail cfg filename img_type_vtoy
      else (0, type) := by
  have hiso := suffix4_iff filename (cstr ".iso") hwf (by decide) (by decide) h4
  have hwim := suffix4_iff filename (cstr ".wim") hwf (by decide) (by decide) h4
  have hvhd := suffix4_iff filename (cstr ".vhd") hwf (by decide) (by decide) h4
  have hefi := suffix4_iff filename (cstr ".efi") hwf (by decide) (by decide) h4
  have himg := suffix4_iff filename (cstr ".img") hwf (by decide) (by decide) h4
  have hvhdx := suffix5_iff filename (cstr ".vhdx") hwf (by decide) (by decide)
  have hvtoy := suffix5_iff filename (cstr ".vtoy") hwf (by decide) (by decide)
  have hres := reserved_tests_iff filename hwf
  have h18 : grub_strlen filename = 18 ↔ filename.length = 18 := by
    unfold grub_strlen
    omega
  unfold ventoy_browser_check_filename
  simp only [h4, if_false, hiso, hwim, hvhd, hefi, himg, hvhdx, hvtoy, hres, h18]

theorem check_filename_reference_unfold (cfg : browser_config) (name : CStr)
    (h4 : ¬ name.length < 4) :
    check_filename_reference cfg name =
      if cfg.FILE_FLT_ISO = true ∧ ends_with_ci name (cstr ".iso") then
        (if cfg.g_filt_dot_underscore_file ≠ 0 ∧ cstr "._" <+: name then none
         else some img_type_iso)
      else if cfg.FILE_FLT_WIM = true ∧ cfg.g_wimboot_enable ≠ 0 ∧
          ends_with_ci name (cstr ".wim") then
        (if cfg.g_filt_dot_underscore_file ≠ 0 ∧ cstr "._" <+: name then none
         else some img_type_wim)
      else if cfg.FILE_FLT_VHD = true ∧ cfg.g_vhdboot_enable ≠ 0 ∧
          (ends_with_ci name (cstr ".vhd") ∨ ends_with_ci name (cstr ".vhdx")) then
        (if cfg.g_filt_dot_underscore_file ≠ 0 ∧ cstr "._" <+: name then none
         else some img_type_vhd)
      else if cfg.GRUB_MACHINE_EFI = true ∧ cfg.FILE_FLT_EFI = true ∧
          ends_with_ci name (cstr ".efi") then
        (if cfg.g_filt_dot_underscore_file ≠ 0 ∧ cstr "._" <+: name then none
         else some img_type_efi)
      else if cfg.FILE_FLT_IMG = true ∧ ends_with_ci name (cstr ".img") then
        if name.length = 18 ∧
            (cstr "ventoy_wimboot" <+: name ∨ cstr "ventoy_vhdboot" <+: name) then none
        else (if cfg.g_filt_dot_underscore_file ≠ 0 ∧ cstr "._" <+: name then none
         else some img_type_img)
      else if cfg.FILE_FLT_VTOY = true ∧ ends_with_ci name (cstr ".vtoy") then
        (if cfg.g_filt_dot_underscore_file ≠ 0 ∧ cstr "._" <+: name then none
         else some img_type_vtoy)
      else none := by
  have a1 : rule_applies name
      { tag := img_type_iso, enabled := cfg.FILE_FLT_ISO, suffixes := [cstr ".iso"] }
      = decide (cfg.FILE_FLT_ISO = true ∧ ends_with_ci name (cstr ".iso")) := by
    simp [rule_applies, Bool.decide_and]
  have a2 : rule_applies name
      { tag := img_type_wim
        enabled := cfg.FILE_FLT_WIM && decide (cfg.g_wimboot_enable ≠ 0)
        suffixes := [cstr ".wim"] }
      = decide (cfg.FILE_FLT_WIM = true ∧ cfg.g_wimboot_enable ≠ 0 ∧
          ends_with_ci name (cstr ".wim")) := by
    simp [rule_applies, Bool.decide_and, Bool.and_assoc]
  have a3 : rule_applies name
      { tag := img_type_vhd
        enabled := cfg.FILE_FLT_VHD && decide (cfg.g_vhdboot_enable ≠ 0)
        suffixes := [cstr ".vhd", cstr ".vhdx"] }
      = decide (cfg.FILE_FLT_VHD = true ∧ cfg.g_vhdboot_enable ≠ 0 ∧
          (ends_with_ci name (cstr ".vhd") ∨ ends_with_ci name (cstr ".vhdx"))) := by
    simp [rule_applies, Bool.decide_and, Bool.decide_or, Bool.and_assoc]
  have a4 : rule_applies name
      { tag := img_type_efi
        enabled := cfg.GRUB_MACHINE_EFI && cfg.FILE_FLT_EFI
        suffixes := [cstr ".efi"] }
      = decide (cfg.GRUB_MACHINE_EFI = true ∧ cfg.FILE_FLT_EFI = true ∧
          ends_with_ci name (cstr ".efi")) := by
    simp [rule_applies, Bool.decide_and, Bool.and_assoc]
  have a5 : rule_applies name
      { tag := img_type_img, enabled := cfg.FILE_FLT_IMG, suffixes := [cstr ".img"] }
      = decide (cfg.FILE_FLT_IMG = true ∧ ends_with_ci name (cstr ".img")) := by
    simp [rule_applies, Bool.decide_and]
  have a6 : rule_applies name
      { tag := img_type_vtoy, enabled := cfg.FILE_FLT_VTOY, suffixes := [cstr ".vtoy"] }
      = decide (cfg.FILE_FLT_VTOY = true ∧ ends_with_ci name (cstr ".vtoy")) := by
    simp [rule_applies, Bool.decide_and]
  unfold check_filename_reference
  simp only [h4, if_false, suffix_rules, List.find?_cons, List.find?_nil, a1, a2, a3, a4, a5, a6]
  by_cases c1 : cfg.FILE_FLT_ISO = true ∧ ends_with_ci name (cstr ".iso")
  · rw [decide_eq_true c1, if_pos c1]
    simp
  rw [decide_eq_false c1, if_neg c1]
  simp only []
  by_cases c2 : cfg.FILE_FLT_WIM = true ∧ cfg.g_wimboot_enable ≠ 0 ∧
      ends_with_ci name (cstr ".wim")
  · rw [decide_eq_true c2, if_pos c2]
    simp
  rw [decide_eq_false c2, if_neg c2]
  simp only []
  by_cases c3 : cfg.FILE_FLT_VHD = true ∧ cfg.g_vhdboot_enable ≠ 0 ∧
      (ends_with_ci name (cstr ".vhd") ∨ ends_with_ci name (cstr ".vhdx"))
  · rw [decide_eq_true c3, if_pos c3]
    simp
  rw [decide_eq_false c3, if_neg c3]
  simp only []
  by_cases c4 : cfg.GRUB_MACHINE_EFI = true ∧ cfg.FILE_FLT_EFI = true ∧
      ends_with_ci name (cstr ".efi")
  · rw [decide_eq_true c4, if_pos c4]
    simp
  rw [decide_eq_false c4, if_neg c4]
  simp only []
  by_cases c5 : cfg.FILE_FLT_IMG = true ∧ ends_with_ci name (cstr ".img")
  · rw [decide_eq_true c5, if_pos c5]
    simp
  rw [decide_eq_false c5, if_neg c5]
  simp only []
  by_cases c6 : cfg.FILE_FLT_VTOY = true ∧ ends_with_ci name (cstr ".vtoy")
  · rw [decide_eq_true c6, if_pos c6]
    simp
  rw [decide_eq_false c6, if_neg c6]

theorem check_filename_tail_agrees (cfg : browser_config) (filename : CStr) (t : img_type) :
    (check_filename_tail cfg filename t).1
      = (if (if cfg.g_filt_dot_underscore_file ≠ 0 ∧ cstr "._" <+: filename then none
              else some t).isSome then 1 else 0) ∧
    ∀ t2, (if cfg.g_filt_dot_underscore_file ≠ 0 ∧ cstr "._" <+: filename then none
              else some t) = some t2 →
      (check_filename_tail cfg filename t).2 = some t2 := by
  unfold check_filename_tail
  by_cases d : cfg.g_filt_dot_underscore_file ≠ 0 ∧ cstr "._" <+: filename
  · have d2 : cfg.g_filt_dot_underscore_file ≠ 0 ∧ char_at filename 0 = 46 ∧
        char_at filename 1 = 95 := ⟨d.1, (dot_underscore_iff filename).mpr d.2⟩
    rw [if_pos d, if_pos d2]
    simp
  · have d2 : ¬ (cfg.g_filt_dot_underscore_file ≠ 0 ∧ char_at filename 0 = 46 ∧
        char_at filename 1 = 95) := fun h => d ⟨h.1, (dot_underscore_iff filename).mp h.2⟩
    rw [if_neg d, if_neg d2]
    simp

theorem filter_dir_file_perm (l : List browser_node) (hkind : ∀ n ∈ l, n.dir = 1 ∨ n.dir = 0) :
    (l.filter (fun n => decide (n.dir = 1)) ++ l.filter (fun n => decide (n.dir = 0))).Perm l := by
  have h : l.filter (fun n => decide (n.dir = 0)) = l.filter (fun n => !decide (n.dir = 1)) := by
    apply List.filter_congr
    intro n hn
    rcases hkind n hn with h1 | h0
    · simp [h1]
    · simp [h0]
  rw [h]
  exact List.filter_append_perm _ l



/-! ## Further properties of the comparator -/

theorem browser_norm_insensitive (c : Int) : browser_norm 0 c = ascii_upper c := by
  unfold browser_norm ascii_upper grub_islower
  by_cases h : 97 ≤ c ∧ c ≤ 122
  · simp [h]; omega
  · simp [h]

theorem browser_norm_sensitive (cs : Int) (hcs : cs ≠ 0) (c : Int) : browser_norm cs c = c := by
  simp [browser_norm, hcs]

theorem strcmp_insensitive_eq (cs : Int) (hcs : cs ≠ 0) : ∀ (a b : CStr),
    ventoy_browser_strcmp 0 a b
      = ventoy_browser_strcmp cs (a.map ascii_upper) (b.map ascii_upper)
  | [], b => by simp [strcmp_nil_left]
  | x :: a, [] => by simp [strcmp_nil_right]
  | x :: a, y :: b => by
    simp only [List.map_cons, strcmp_cons, browser_norm_insensitive,
      browser_norm_sensitive cs hcs, strcmp_insensitive_eq cs hcs a b]

theorem strcmp_first_difference (cs : Int) : ∀ (p q : CStr) (x y : Int) (s t : CStr),
    p.map (browser_norm cs) = q.map (browser_norm cs) →
    browser_norm cs x ≠ browser_norm cs y →
    ventoy_browser_strcmp cs (p ++ x :: s) (q ++ y :: t)
      = browser_norm cs x - browser_norm cs y
  | [], [], x, y, s, t, _, hxy => by simp [strcmp_cons, hxy]
  | [], b :: q, _, _, _, _, h, _ => by simp at h
  | a :: p, [], _, _, _, _, h, _ => by simp at h
  | a :: p, b :: q, x, y, s, t, h, hxy => by
    simp only [List.map_cons, List.cons.injEq] at h
    simp only [List.cons_append, strcmp_cons, h.1, ne_eq, not_true_eq_false, if_false]
    exact strcmp_first_difference cs p q x y s t h.2 hxy

/-! ## The continuation token -/

theorem digitChar_code (d : Nat) (hd : d < 16) (long_bits : Nat)
    (hbits : long_bits = 32 ∨ long_bits = 64) :
    let c : Int := ((Nat.digitChar d).toNat : Int)
    let d0 : Nat := ((grub_tolower c - 48) % (2 : Int) ^ long_bits).toNat
    (if d0 > 9 then (((d0 : Int) + (48 - 97 + 10)) % (2 : Int) ^ long_bits).toNat else d0) = d ∧
    ¬ (d0 > 9 ∧
      (if d0 > 9 then (((d0 : Int) + (48 - 97 + 10)) % (2 : Int) ^ long_bits).toNat else d0)
        ≥ 16) := by
  rcases hbits with h | h <;> subst h <;> interval_cases d <;> decide

theorem toDigitsCore_spec : ∀ (fuel n : Nat) (ds : List Char), n < fuel →
    ∃ dl : List Nat, (∀ d ∈ dl, d < 16) ∧ dl ≠ [] ∧
      Nat.toDigitsCore 16 fuel n ds = dl.map Nat.digitChar ++ ds ∧
      dl.foldl (fun a d => a * 16 + d) 0 = n
  | 0, n, ds, h => by omega
  | fuel + 1, n, ds, h => by
    by_cases h0 : n / 16 = 0
    · refine ⟨[n % 16], ?_, by simp, ?_, ?_⟩
      · intro d hd
        simp only [List.mem_singleton] at hd
        omega
      · simp [Nat.toDigitsCore, h0]
      · simp only [List.foldl_cons, List.foldl_nil]
        omega
    · have hlt : n / 16 < fuel := by omega
      obtain ⟨dl, h1, _, h2, h3⟩ :=
        toDigitsCore_spec fuel (n / 16) (Nat.digitChar (n % 16) :: ds) hlt
      refine ⟨dl ++ [n % 16], ?_, by simp, ?_, ?_⟩
      · intro d hd
        rcases List.mem_append.mp hd with hd | hd
        · exact h1 d hd
        · simp only [List.mem_singleton] at hd
          omega
      · simp [Nat.toDigitsCore, h0, h2]
      · rw [List.foldl_append, h3]
        simp only [List.foldl_cons, List.foldl_nil]
        omega

theorem fmt_lx_spec (n : Nat) :
    ∃ dl : List Nat, (∀ d ∈ dl, d < 16) ∧ dl ≠ [] ∧
      fmt_lx n = dl.map (fun d => ((Nat.digitChar d).toNat : Int)) ∧
      dl.foldl (fun a d => a * 16 + d) 0 = n := by
  obtain ⟨dl, h1, hne, h2, h3⟩ := toDigitsCore_spec (n + 1) n [] (by omega)
  refine ⟨dl, h1, hne, ?_, h3⟩
  simp [fmt_lx, Nat.toDigits, h2, List.map_map, Function.comp_def]

theorem foldl_hex_ge : ∀ (dl : List Nat) (x : Nat), x ≤ dl.foldl (fun a d => a * 16 + d) x
  | [], x => by simp
  | d :: dl, x => by
    have := foldl_hex_ge dl (x * 16 + d)
    simp only [List.foldl_cons]
    omega

theorem strtoull_loop_digits (long_bits : Nat) (hbits : long_bits = 32 ∨ long_bits = 64) :
    ∀ (dl : List Nat) (num : Nat) (found : Bool) (rest : CStr), (∀ d ∈ dl, d < 16) →
      dl.foldl (fun a d => a * 16 + d) num < 2 ^ 64 →
      grub_strtoull_loop long_bits 16
          (dl.map (fun d => ((Nat.digitChar d).toNat : Int)) ++ rest) num found
        = grub_strtoull_loop long_bits 16 rest (dl.foldl (fun a d => a * 16 + d) num)
            (found || !dl.isEmpty)
  | [], num, found, rest, _, _ => by simp
  | d :: dl, num, found, rest, hd, hlt => by
    have hd16 : d < 16 := hd d (List.mem_cons_self _ _)
    obtain ⟨e1, e2⟩ := digitChar_code d hd16 long_bits hbits
    have hge := foldl_hex_ge dl (num * 16 + d)
    simp only [List.foldl_cons] at hlt
    have hov : ¬ num > (2 ^ 64 - 1 - d) / 16 := by omega
    have ih := strtoull_loop_digits long_bits hbits dl (num * 16 + d) true rest
      (fun x hx => hd x (List.mem_cons_of_mem _ hx)) hlt
    have hnb : ¬ (((grub_tolower ((Nat.digitChar d).toNat : Int) - 48) % (2 : Int) ^ long_bits).toNat
        > 9 ∧ d ≥ 16) := fun h => by omega
    simp only [List.map_cons, List.cons_append, grub_strtoull_loop, e1, hov, if_false,
      List.foldl_cons, if_neg hnb, List.append_eq, ih]
    simp

theorem strtoull_token (long_bits : Nat) (hbits : long_bits = 32 ∨ long_bits = 64) (h : Nat)
    (hh : h < 2 ^ 64) : grub_strtoull long_bits (cstr "0x" ++ fmt_lx h) 16 = h := by
  obtain ⟨dl, h1, hne, h2, h3⟩ := fmt_lx_spec h
  have e0x : cstr "0x" = [48, 120] := by decide
  have hskip : skip_spaces (cstr "0x" ++ fmt_lx h) = 48 :: 120 :: fmt_lx h := by
    rw [e0x]
    simp [skip_spaces, grub_isspace]
  have hloop : grub_strtoull_loop long_bits 16 (fmt_lx h) 0 false = (h, true, false) := by
    have := strtoull_loop_digits long_bits hbits dl 0 false [] h1 (by rw [h3]; exact hh)
    rw [List.append_nil, ← h2, h3] at this
    rw [this]
    cases dl with
    | nil => exact absurd rfl hne
    | cons d dl => simp [grub_strtoull_loop]
  unfold grub_strtoull
  simp only [hskip, char_at, List.getD_cons_zero, List.getD_cons_succ, ptr_add]
  simp [hloop]

theorem strtoul_token (long_bits : Nat) (hbits : long_bits = 32 ∨ long_bits = 64) (h : Nat)
    (hh : h < 2 ^ long_bits) : grub_strtoul long_bits (cstr "0x" ++ fmt_lx h) 16 = h := by
  have h64 : h < 2 ^ 64 := by
    rcases hbits with e | e <;> subst e <;> omega
  unfold grub_strtoul
  rw [strtoull_token long_bits hbits h h64]
  have hle : ¬ h > 2 ^ long_bits - 1 := by omega
  simp only [hle, and_false, if_false]
  exact Nat.mod_eq_of_lt hh

/-! ## Properties of the scan and of the command -/

theorem iterate_dir_result (cfg : browser_config) (env : browser_env) (g : scan_globals)
    (zalloc_ok : Bool) (filename : CStr) (info : grub_dirhook_info) (l : List browser_node) :
    (ventoy_browser_iterate_dir cfg env g zalloc_ok filename info l).1 = 0 ∧
    ((ventoy_browser_iterate_dir cfg env g zalloc_ok filename info l).2 = l ∨
      ∃ node, (ventoy_browser_iterate_dir cfg env g zalloc_ok filename info l).2 = node :: l) := by
  unfold ventoy_browser_iterate_dir browser_list_insert
  obtain ⟨dir, size⟩ := info
  cases dir
  · simp only [Bool.false_eq_true, if_false]
    by_cases h1 : (ventoy_browser_check_filename cfg filename (grub_strlen filename) none).1 = 0
    · simp [h1]
    · simp only [h1, if_false]
      generalize (if size = 0 then env.file_open_size (file_open_path g filename)
        else some size) = opened
      cases opened with
      | none => simp
      | some fsize =>
        by_cases hlt : fsize < cfg.VTOY_FILT_MIN_FILE_SIZE
        · simp [hlt]
        · by_cases hz : zalloc_ok = true
          · simp [hlt, hz]
          · simp [hlt, hz]
  · simp only [if_true]
    split_ifs <;> simp

theorem fs_dir_iterate_length (cfg : browser_config) (env : browser_env) (g : scan_globals) :
    ∀ (children : List dir_child) (l : List browser_node),
      (fs_dir_iterate cfg env g children l).length ≤ children.length + l.length
  | [], l => by simp [fs_dir_iterate]
  | c :: rest, l => by
    obtain ⟨h0, h1⟩ := iterate_dir_result cfg env g c.zalloc_ok c.filename c.info l
    have ih := fs_dir_iterate_length cfg env g rest
      (ventoy_browser_iterate_dir cfg env g c.zalloc_ok c.filename c.info l).2
    simp only [fs_dir_iterate, h0, ne_eq, not_true_eq_false, if_false, List.length_cons]
    rcases h1 with h | ⟨node, h⟩
    · rw [h] at ih ⊢
      omega
    · rw [h] at ih ⊢
      simp only [List.length_cons] at ih
      omega

theorem cmd_browser_dir_alloc_fails (cfg : browser_config) (env : browser_env)
    (w : browser_dir_world) (fuel : Nat) (a0 a1 a2 : CStr) (hm : w.malloc_ok = false) :
    ventoy_cmd_browser_dir cfg env w fuel a0 a1 a2 =
      some (browser_dir_run.returned
        { ret := 1, script := none, mbuf_free_calls := 0, region_released := false,
          device_close_calls := 0, globals := none, state := none }) := by
  simp [ventoy_cmd_browser_dir, ventoy_browser_mbuf_alloc, hm]

theorem cmd_browser_dir_early_return (cfg : browser_config) (env : browser_env)
    (w : browser_dir_world) (fuel : Nat) (a0 a1 a2 : CStr) (hm : w.malloc_ok = true)
    (hbad : grub_strtoul w.long_bits a1 16 = 0 ∨ w.device_open_ok = false) :
    ventoy_cmd_browser_dir cfg env w fuel a0 a1 a2 =
      some (browser_dir_run.returned
        { ret := 1, script := none, mbuf_free_calls := 0, region_released := false,
          device_close_calls := 0, globals := none, state := none }) := by
  rcases hbad with h | h
  · simp [ventoy_cmd_browser_dir, ventoy_browser_mbuf_alloc, hm, h]
  · by_cases hfs : grub_strtoul w.long_bits a1 16 = 0
    · simp [ventoy_cmd_browser_dir, ventoy_browser_mbuf_alloc, hm, hfs]
    · simp [ventoy_cmd_browser_dir, ventoy_browser_mbuf_alloc, hm, hfs, h]

theorem cmd_browser_dir_undefined (cfg : browser_config) (env : browser_env)
    (w : browser_dir_world) (fuel : Nat) (a0 a1 a2 : CStr) (hm : w.malloc_ok = true)
    (hfs : grub_strtoul w.long_bits a1 16 ≠ 0) (hdev : w.device_open_ok = true)
    (hobj : w.fs_object (grub_strtoul w.long_bits a1 16) = none) :
    ventoy_cmd_browser_dir cfg env w fuel a0 a1 a2 = some browser_dir_run.undefined_call := by
  simp [ventoy_cmd_browser_dir, ventoy_browser_mbuf_alloc, hm, hfs, hdev, hobj]

theorem cmd_browser_dir_success (cfg : browser_config) (env : browser_env)
    (w : browser_dir_world) (fuel : Nat) (a0 a1 a2 : CStr) (fs_dir : CStr → List dir_child)
    (hm : w.malloc_ok = true)
    (hfs : grub_strtoul w.long_bits a1 16 ≠ 0) (hdev : w.device_open_ok = true)
    (hobj : w.fs_object (grub_strtoul w.long_bits a1 16) = some fs_dir)
    (hfuel : ∀ p, (fs_dir p).length < fuel) :
    ∃ (g : scan_globals) (p : CStr) (r : render_state × submitted) (st : render_state)
        (rel : Bool),
      g.g_menu_fs = grub_strtoul w.long_bits a1 16 ∧ g.g_menu_device = a0 ∧
      browser_dir_render cfg.g_sort_case_sensitive fuel (ventoy_browser_mbuf_alloc true).2
        (fs_dir_iterate cfg env g (fs_dir p) []) = some r ∧
      ventoy_cmd_browser_dir cfg env w fuel a0 a1 a2 =
        some (browser_dir_run.returned
          { ret := 0, script := some r.2, mbuf_free_calls := 1, region_released := rel,
            device_close_calls := 1, globals := some g, state := some st }) := by
  have hl : ∀ (g : scan_globals) (p : CStr),
      (fs_dir_iterate cfg env g (fs_dir p) []).length < fuel := by
    intro g p
    have := fs_dir_iterate_length cfg env g (fs_dir p) []
    have := hfuel p
    simp only [List.length_nil, Nat.add_zero] at *
    omega
  have hr0 : ∃ r, browser_dir_render cfg.g_sort_case_sensitive fuel
      (ventoy_browser_mbuf_alloc true).2
      (fs_dir_iterate cfg env
        { g_menu_fs := grub_strtoul w.long_bits a1 16
          g_menu_device := a0
          g_menu_path_buf :=
            if decide (char_at a2 0 = 47 ∧ char_at a2 1 = 0) = true then []
            else (grub_snprintf sizeof_g_menu_path_buf a2).1 }
        (fs_dir (if decide (char_at a2 0 = 47 ∧ char_at a2 1 = 0) = true then cstr "/"
          else (if decide (char_at a2 0 = 47 ∧ char_at a2 1 = 0) = true then []
            else (grub_snprintf sizeof_g_menu_path_buf a2).1))) []) = some r := by
    obtain ⟨ds, fs, hr, _⟩ := browser_dir_render_spec cfg.g_sort_case_sensitive fuel
      (ventoy_browser_mbuf_alloc true).2 _ (hl _ _)
    exact ⟨_, hr⟩
  obtain ⟨r, hr⟩ := hr0
  refine ⟨{ g_menu_fs := grub_strtoul w.long_bits a1 16
            g_menu_device := a0
            g_menu_path_buf :=
              if decide (char_at a2 0 = 47 ∧ char_at a2 1 = 0) = true then []
              else (grub_snprintf sizeof_g_menu_path_buf a2).1 },
    (if decide (char_at a2 0 = 47 ∧ char_at a2 1 = 0) = true then cstr "/"
      else (if decide (char_at a2 0 = 47 ∧ char_at a2 1 = 0) = true then []
        else (grub_snprintf sizeof_g_menu_path_buf a2).1)),
    r, { r.1 with mbuf := (ventoy_browser_mbuf_free r.1.mbuf).1 },
    (ventoy_browser_mbuf_free r.1.mbuf).2, rfl, rfl, hr, ?_⟩
  have ha : ventoy_browser_mbuf_alloc w.malloc_ok = ventoy_browser_mbuf_alloc true := by rw [hm]
  have h1 : (ventoy_browser_mbuf_alloc true).1 ≠ 0 := by decide
  simp only [ventoy_cmd_browser_dir, ha, h1, hfs, hdev, hobj, if_false, not_true_eq_false, hr,
    GRUB_ERR_NONE]

/-! ## The buffer invariant -/

theorem browser_ssprintf_bounds (m : browser_mbuf) (text : CStr)
    (h : 0 ≤ m.pos ∧ m.pos ≤ m.max) :
    0 ≤ (browser_ssprintf m text).pos ∧ (browser_ssprintf m text).pos ≤ (browser_ssprintf m text).max
      ∧ (browser_ssprintf m text).max = m.max := by
  unfold browser_ssprintf grub_snprintf
  by_cases hn : (m.max - m.pos).toNat = 0
  · simp only [hn, if_true, add_zero]
    exact ⟨h.1, h.2, trivial⟩
  · simp only [hn, if_false, List.length_take]
    refine ⟨by omega, ?_, trivial⟩
    have : (min ((m.max - m.pos).toNat - 1) text.length : Nat) ≤ (m.max - m.pos).toNat - 1 :=
      Nat.min_le_left _ _
    omega

theorem mbuf_extend_bounds (ok : Bool) (m : browser_mbuf) (h : 0 ≤ m.pos ∧ m.pos ≤ m.max)
    (hhi : m.max + BROWSER_MENU_BUF ≤ INT_MAX) :
    0 ≤ (ventoy_browser_mbuf_extend ok m).2.pos ∧
    (ventoy_browser_mbuf_extend ok m).2.pos ≤ (ventoy_browser_mbuf_extend ok m).2.max ∧
    (ventoy_browser_mbuf_extend ok m).2.max ≤ m.max + BROWSER_MENU_BUF ∧
    (ventoy_browser_mbuf_extend ok m).1 = 0 := by
  have hw : wrap_int (m.max + BROWSER_MENU_BUF) = m.max + 65536 := by
    unfold wrap_int BROWSER_MENU_BUF INT_MAX at *
    omega
  unfold ventoy_browser_mbuf_extend
  by_cases hc : m.max - m.pos ≤ VTOY_SIZE_1KB
  · simp only [hc, if_true, hw]
    unfold BROWSER_MENU_BUF
    refine ⟨h.1, by omega, by omega, trivial⟩
  · simp only [hc, if_false]
    unfold BROWSER_MENU_BUF
    refine ⟨h.1, h.2, by omega, trivial⟩

theorem mbuf_reachable_bounds (m : browser_mbuf) (h : mbuf_reachable m) :
    0 ≤ m.pos ∧ m.pos ≤ m.max := by
  induction h with
  | alloc => simp [ventoy_browser_mbuf_alloc, BROWSER_MENU_BUF]
  | append m text _ ih =>
    have := browser_ssprintf_bounds m text ih
    exact ⟨this.1, this.2.1⟩
  | extend m ok _ hhi ih =>
    have := mbuf_extend_bounds ok m ih hhi
    exact ⟨this.1, this.2.1⟩

theorem drain_while_reachable (cs i : Int) : ∀ (fuel : Nat) (st st2 : render_state),
    drain_while cs i fuel st = some st2 → mbuf_reachable st.mbuf → mbuf_reachable st2.mbuf
  | 0, st, st2, h, _ => by simp [drain_while] at h
  | fuel + 1, st, st2, h, hr => by
    rw [drain_while] at h
    cases hf : ventoy_browser_find_top_node cs st.g_browser_list i with
    | none =>
      rw [hf] at h
      simp only [Option.some.injEq] at h
      rw [← h]; exact hr
    | some p =>
      obtain ⟨k, node⟩ := p
      rw [hf] at h
      simp only at h
      exact drain_while_reachable cs i fuel _ st2 h (mbuf_reachable.append _ _ hr)

theorem browser_dir_render_reachable (cs : Int) (fuel : Nat) (l : List browser_node)
    (r : render_state × submitted)
    (h : browser_dir_render cs fuel (ventoy_browser_mbuf_alloc true).2 l = some r) :
    mbuf_reachable r.1.mbuf := by
  unfold browser_dir_render at h
  simp only at h
  split at h
  · simp at h
  · rename_i st1 h1
    split at h
    · simp at h
    · rename_i st2 h2
      simp only [Option.some.injEq] at h
      rw [← h]
      simp only
      refine drain_while_reachable cs 0 fuel st1 st2 h2 ?_
      refine drain_while_reachable cs 1 fuel _ st1 h1 ?_
      exact mbuf_reachable.append _ _ mbuf_reachable.alloc

theorem iterate_partition_reachable (w : disk_world) (disk : grub_disk) (p : grub_partition)
    (m : browser_mbuf) (hr : mbuf_reachable m) (hhi : m.max + BROWSER_MENU_BUF ≤ INT_MAX) :
    (ventoy_browser_iterate_partition w disk p m).1 = 0 ∧
    mbuf_reachable (ventoy_browser_iterate_partition w disk p m).2 ∧
    (ventoy_browser_iterate_partition w disk p m).2.max ≤ m.max + BROWSER_MENU_BUF := by
  have hb : (0 : Int) ≤ BROWSER_MENU_BUF := by decide
  unfold ventoy_browser_iterate_partition
  cases hd : w.device_open_probe (partname_text disk p) with
  | none => exact ⟨rfl, hr, by simp only; omega⟩
  | some o =>
    cases o with
    | none => exact ⟨rfl, hr, by simp only; omega⟩
    | some fs =>
      simp only
      split_ifs
      · have h1 := mbuf_reachable.append m (partition_unsupported_text
          (partition_title w disk p fs)) hr
        have hmax := (browser_ssprintf_bounds m (partition_unsupported_text
          (partition_title w disk p fs)) (mbuf_reachable_bounds m hr)).2.2
        have hhi2 : (browser_ssprintf m (partition_unsupported_text
          (partition_title w disk p fs))).max + BROWSER_MENU_BUF ≤ INT_MAX := by
          rw [hmax]; exact hhi
        have hb2 := mbuf_extend_bounds p.realloc_ok _ (mbuf_reachable_bounds _ h1) hhi2
        refine ⟨trivial, mbuf_reachable.extend _ _ h1 hhi2, ?_⟩
        rw [← hmax]; exact hb2.2.2.1
      · have h1 := mbuf_reachable.append m (partition_browse_text
          (partition_title w disk p fs) disk p fs) hr
        have hmax := (browser_ssprintf_bounds m (partition_browse_text
          (partition_title w disk p fs) disk p fs) (mbuf_reachable_bounds m hr)).2.2
        have hhi2 : (browser_ssprintf m (partition_browse_text
          (partition_title w disk p fs) disk p fs)).max + BROWSER_MENU_BUF ≤ INT_MAX := by
          rw [hmax]; exact hhi
        have hb2 := mbuf_extend_bounds p.realloc_ok _ (mbuf_reachable_bounds _ h1) hhi2
        refine ⟨trivial, mbuf_reachable.extend _ _ h1 hhi2, ?_⟩
        rw [← hmax]; exact hb2.2.2.1

theorem partition_iterate_reachable (w : disk_world) (disk : grub_disk) :
    ∀ (ps : List grub_partition) (m : browser_mbuf) (k : Nat), mbuf_reachable m →
      m.max ≤ 65536 * ((k : Int) + 1) →
      k + (partition_iterate w disk ps m).2 ≤ 32766 →
      mbuf_reachable (partition_iterate w disk ps m).1 ∧
      (partition_iterate w disk ps m).1.max
        ≤ 65536 * (((k + (partition_iterate w disk ps m).2 : Nat) : Int) + 1)
  | [], m, k, hr, hmax, _ => by
    simp only [partition_iterate, Nat.add_zero]
    exact ⟨hr, hmax⟩
  | p :: rest, m, k, hr, hmax, hk => by
    have hcount : (partition_iterate w disk (p :: rest) m).2
        = (partition_iterate w disk rest (ventoy_browser_iterate_partition w disk p m).2).2 + 1
          ∨ (partition_iterate w disk (p :: rest) m).2 = 1 := by
      simp only [partition_iterate]
      split_ifs
      · exact Or.inr rfl
      · exact Or.inl rfl
    have hk1 : k ≤ 32765 := by
      rcases hcount with h | h <;> omega
    have hhi : m.max + BROWSER_MENU_BUF ≤ INT_MAX := by
      unfold BROWSER_MENU_BUF INT_MAX
      omega
    obtain ⟨h0, h1, h2⟩ := iterate_partition_reachable w disk p m hr hhi
    have h2b : (ventoy_browser_iterate_partition w disk p m).2.max
        ≤ 65536 * (((k + 1 : Nat) : Int) + 1) := by
      unfold BROWSER_MENU_BUF at h2
      push_cast
      omega
    simp only [partition_iterate, h0, ne_eq, not_true_eq_false, if_false] at hk ⊢
    have ih := partition_iterate_reachable w disk rest
      (ventoy_browser_iterate_partition w disk p m).2 (k + 1) h1 h2b (by omega)
    refine ⟨ih.1, ?_⟩
    have e : k + 1 + (partition_iterate w disk rest
        (ventoy_browser_iterate_partition w disk p m).2).2
        = k + ((partition_iterate w disk rest
          (ventoy_browser_iterate_partition w disk p m).2).2 + 1) := by omega
    rw [← e]
    exact ih.2

theorem iterate_disk_reachable (w : disk_world) (name : CStr) (m : browser_mbuf) (k : Nat)
    (hr : mbuf_reachable m) (hmax : m.max ≤ 65536 * ((k : Int) + 1))
    (hk : k + (ventoy_browser_iterate_disk w name m).2.2 ≤ 32766) :
    (ventoy_browser_iterate_disk w name m).1 = 0 ∧
    mbuf_reachable (ventoy_browser_iterate_disk w name m).2.1 ∧
    (ventoy_browser_iterate_disk w name m).2.1.max
      ≤ 65536 * (((k + (ventoy_browser_iterate_disk w name m).2.2 : Nat) : Int) + 1) := by
  by_cases hh : char_at name 0 ≠ 104
  · have e : ventoy_browser_iterate_disk w name m = (0, m, 0) := by
      simp [ventoy_browser_iterate_disk, hh]
    rw [e]
    exact ⟨rfl, hr, hmax⟩
  · cases ho : w.grub_disk_open name with
    | none =>
      have e : ventoy_browser_iterate_disk w name m = (0, m, 0) := by
        simp [ventoy_browser_iterate_disk, hh, ho]
      rw [e]
      exact ⟨rfl, hr, hmax⟩
    | some disk =>
      by_cases hs : disk.sig ≠ w.selfsig
      · have e : ventoy_browser_iterate_disk w name m
            = (0, (partition_iterate w disk disk.partitions m).1,
                (partition_iterate w disk disk.partitions m).2) := by
          simp [ventoy_browser_iterate_disk, hh, ho, hs]
        rw [e] at hk ⊢
        have := partition_iterate_reachable w disk disk.partitions m k hr hmax hk
        exact ⟨rfl, this.1, this.2⟩
      · have e : ventoy_browser_iterate_disk w name m = (0, m, 0) := by
          simp [ventoy_browser_iterate_disk, hh, ho, hs]
        rw [e]
        exact ⟨rfl, hr, hmax⟩

theorem disk_dev_iterate_reachable (w : disk_world) :
    ∀ (names : List CStr) (m : browser_mbuf) (k : Nat), mbuf_reachable m →
      m.max ≤ 65536 * ((k : Int) + 1) →
      k + (disk_dev_iterate w names m).2 ≤ 32766 →
      mbuf_reachable (disk_dev_iterate w names m).1
  | [], m, k, hr, _, _ => by
    simp only [disk_dev_iterate]
    exact hr
  | name :: rest, m, k, hr, hmax, hk => by
    have hcount : (disk_dev_iterate w (name :: rest) m).2
        = (ventoy_browser_iterate_disk w name m).2.2
          + (disk_dev_iterate w rest (ventoy_browser_iterate_disk w name m).2.1).2 ∨
        (disk_dev_iterate w (name :: rest) m).2 = (ventoy_browser_iterate_disk w name m).2.2 := by
      simp only [disk_dev_iterate]
      split_ifs
      · exact Or.inr rfl
      · exact Or.inl rfl
    have hk1 : k + (ventoy_browser_iterate_disk w name m).2.2 ≤ 32766 := by
      rcases hcount with h | h <;> omega
    obtain ⟨h0, h1, h2⟩ := iterate_disk_reachable w name m k hr hmax hk1
    simp only [disk_dev_iterate, h0, ne_eq, not_true_eq_false, if_false] at hk ⊢
    exact disk_dev_iterate_reachable w rest _ _ h1 h2 (by omega)

theorem browser_disk_reachable (w : disk_world) (m : browser_mbuf) (hm : w.malloc_ok = true)
    (hk : (disk_dev_iterate w w.disk_names
      (browser_ssprintf (ventoy_browser_mbuf_alloc true).2 disk_back_entry)).2 ≤ 32766)
    (hres : (ventoy_cmd_browser_disk w).mbuf = some m) : mbuf_reachable m := by
  have h1 : mbuf_reachable (browser_ssprintf (ventoy_browser_mbuf_alloc true).2 disk_back_entry) :=
    mbuf_reachable.append _ _ mbuf_reachable.alloc
  have hmax : (browser_ssprintf (ventoy_browser_mbuf_alloc true).2 disk_back_entry).max
      ≤ 65536 * (((0 : Nat) : Int) + 1) := by
    simp [browser_ssprintf, ventoy_browser_mbuf_alloc, BROWSER_MENU_BUF]
  have := disk_dev_iterate_reachable w w.disk_names _ 0 h1 hmax (by omega)
  simp only [ventoy_cmd_browser_disk, hm, ventoy_browser_mbuf_alloc, one_ne_zero, if_false,
    Option.some.injEq, not_true_eq_false] at hres
  rw [← hres]
  simpa [ventoy_browser_mbuf_alloc] using this

/-! ## The registry in memory against the list -/

theorem dll_seg_frame (h h2 : Nat → Option node_cell) :
    ∀ (cells : List (Nat × browser_node)) (p cur : Option Nat), dll_seg h p cur cells →
      (∀ x ∈ cells.map Prod.fst, h2 x = h x) → dll_seg h2 p cur cells
  | [], _, _, hs, _ => hs
  | (a, n) :: rest, p, cur, hs, hf => by
    obtain ⟨hc, c, hca, hn, hp, hrest⟩ := hs
    refine ⟨hc, c, ?_, hn, hp, ?_⟩
    · rw [hf a (by simp)]; exact hca
    · exact dll_seg_frame h h2 rest (some a) c.next hrest
        (fun x hx => hf x (by simp only [List.map_cons, List.mem_cons]; exact Or.inr hx))

theorem registry_insert_holds (m : registry_mem) (cells : List (Nat × browser_node))
    (addr : Nat) (n : browser_node) (h : registry_holds m cells)
    (hfresh : addr ∉ cells.map Prod.fst) :
    registry_holds (registry_insert m addr n) ((addr, n) :: cells) := by
  obtain ⟨hseg, hnd⟩ := h
  refine ⟨?_, ?_⟩
  · cases cells with
    | nil =>
      have hnone : m.g_browser_list = none := hseg
      simp only [registry_insert, hnone]
      exact ⟨rfl, _, Function.update_same _ _ _, rfl, rfl, rfl⟩
    | cons bc rest =>
      obtain ⟨b, nb⟩ := bc
      obtain ⟨hcur, cb, hb, hbn, hbp, hrest⟩ := hseg
      simp only [List.map_cons, List.mem_cons, not_or] at hfresh
      simp only [List.map_cons, List.nodup_cons] at hnd
      have hba : b ≠ addr := fun e => hfresh.1 e.symm
      have hab : addr ≠ b := hfresh.1
      have h1b : Function.update m.heap addr
          (some { node := n, prev := none, next := some b }) b = some cb := by
        rw [Function.update_noteq hba]; exact hb
      simp only [registry_insert, hcur, store_prev, h1b]
      refine ⟨rfl, { node := n, prev := none, next := some b }, ?_, rfl, rfl, ?_⟩
      · rw [Function.update_noteq hab, Function.update_same]
      · refine ⟨rfl, { cb with prev := some addr }, Function.update_same _ _ _, hbn, rfl, ?_⟩
        refine dll_seg_frame m.heap _ rest (some b) cb.next hrest ?_
        intro x hx
        have hxb : x ≠ b := fun e => hnd.1 (e ▸ hx)
        have hxa : x ≠ addr := fun e => hfresh.2 (e ▸ hx)
        rw [Function.update_noteq hxb, Function.update_noteq hxa]
  · simp only [List.map_cons, List.nodup_cons]
    exact ⟨hfresh, hnd⟩

theorem iterate_dir_file_node (cfg : browser_config) (env : browser_env) (g : scan_globals)
    (filename : CStr) (info : grub_dirhook_info) (l : List browser_node)
    (hfile : info.dir = false)
    (hname : (ventoy_browser_check_filename cfg filename (grub_strlen filename) none).1 ≠ 0)
    (hs0 : info.size ≠ 0) (hmin : cfg.VTOY_FILT_MIN_FILE_SIZE ≤ info.size) :
    ventoy_browser_iterate_dir cfg env g true filename info l =
      (0, { dir := 0
            filename := grub_strncpy filename cfg.sizeof_filename
            menuentry := (grub_snprintf cfg.sizeof_menuentry
              (file_menuentry_text env g filename
                (ventoy_browser_check_filename cfg filename (grub_strlen filename) none).2
                info.size)).1 } :: l) := by
  have hnlt : ¬ info.size < cfg.VTOY_FILT_MIN_FILE_SIZE := by omega
  simp only [ventoy_browser_iterate_dir, hfile, hname, hs0, hnlt, browser_list_insert,
    if_false, Bool.false_eq_true, not_true_eq_false]

theorem iterate_dir_dir_node (cfg : browser_config) (env : browser_env) (g : scan_globals)
    (c : dir_child) (l : List browser_node) (hc : plain_dir_child env c) :
    ventoy_browser_iterate_dir cfg env g c.zalloc_ok c.filename c.info l =
      (0, { dir := 1
            filename := grub_strncpy c.filename cfg.sizeof_filename
            menuentry := (grub_snprintf cfg.sizeof_menuentry
              (dir_menuentry_text g c.filename)).1 } :: l) := by
  obtain ⟨hdir, h46, h36, hv, hz⟩ := hc
  simp only [ventoy_browser_iterate_dir, hdir, h46, h36, hv, hz, browser_list_insert,
    if_true, if_false, and_false, false_and, or_self, not_true_eq_false]

theorem dir_menuentry_text_length (g : scan_globals) (filename : CStr) :
    70 ≤ (dir_menuentry_text g filename).length := by
  have h1 : (cstr "menuentry \"").length = 11 := by decide
  have h2 : (cstr " [").length = 2 := by decide
  have h3 : (cstr "]\" --class=vtoydir \x7b\n  vt_browser_dir ").length = 38 := by decide
  have h4 : (cstr " 0x").length = 3 := by decide
  have h5 : (cstr " \"").length = 2 := by decide
  have h6 : (cstr "/").length = 1 := by decide
  have h7 : (cstr "\"\n\x7d\n").length = 4 := by decide
  have h8 : (fmt_s10 (cstr "DIR")).length = 10 := by decide
  simp only [dir_menuentry_text, List.length_append, h1, h2, h3, h4, h5, h6, h7, h8]
  omega

theorem fs_dir_iterate_dirs (cfg : browser_config) (env : browser_env) (g : scan_globals)
    (hsz : 71 ≤ cfg.sizeof_menuentry) :
    ∀ (children : List dir_child) (l : List browser_node),
      (∀ c ∈ children, plain_dir_child env c) →
      ∃ ds : List browser_node,
        fs_dir_iterate cfg env g children l = ds ++ l ∧ ds.length = children.length ∧
        ∀ n ∈ ds, n.dir = 1 ∧ 70 ≤ n.menuentry.length
  | [], l, _ => ⟨[], by simp [fs_dir_iterate]⟩
  | c :: rest, l, hc => by
    have hit := iterate_dir_dir_node cfg env g c l (hc c (List.mem_cons_self _ _))
    obtain ⟨ds, h1, h2, h3⟩ := fs_dir_iterate_dirs cfg env g hsz rest
      ({ dir := 1
         filename := grub_strncpy c.filename cfg.sizeof_filename
         menuentry := (grub_snprintf cfg.sizeof_menuentry
           (dir_menuentry_text g c.filename)).1 } :: l)
      (fun c2 h2 => hc c2 (List.mem_cons_of_mem _ h2))
    refine ⟨ds ++ [{ dir := 1
                     filename := grub_strncpy c.filename cfg.sizeof_filename
                     menuentry := (grub_snprintf cfg.sizeof_menuentry
                       (dir_menuentry_text g c.filename)).1 }], ?_, ?_, ?_⟩
    · simp only [fs_dir_iterate, hit, ne_eq, not_true_eq_false, if_false]
      rw [h1]
      simp
    · simp [h2]
    · intro n hn
      rcases List.mem_append.mp hn with h | h
      · exact h3 n h
      · simp only [List.mem_singleton] at h
        rw [h]
        refine ⟨rfl, ?_⟩
        have hlen := dir_menuentry_text_length g c.filename
        have hne : cfg.sizeof_menuentry ≠ 0 := by omega
        simp only [grub_snprintf, hne, if_false, List.length_take]
        omega
theorem fs_dir_iterate_cons_zero (cfg : browser_config) (env : browser_env) (g : scan_globals)
    (c : dir_child) (rest : List dir_child) (l l2 : List browser_node)
    (h : ventoy_browser_iterate_dir cfg env g c.zalloc_ok c.filename c.info l = (0, l2)) :
    fs_dir_iterate cfg env g (c :: rest) l = fs_dir_iterate cfg env g rest l2 := by
  simp only [fs_dir_iterate, h, ne_eq, not_true_eq_false, if_false]

theorem many_dirs_plain :
    ∀ c ∈ (List.range 1000).map
        (fun k => (⟨cstr "d" ++ fmt_llu k, ⟨true, 0⟩, true⟩ : dir_child)),
      plain_dir_child sample_env c := by
  intro c hc
  simp only [List.mem_map, List.mem_range] at hc
  obtain ⟨k, _, rfl⟩ := hc
  have hd : cstr "d" = [100] := by decide
  refine ⟨rfl, ?_, ?_, ?_, rfl⟩
  · simp [char_at, hd]
  · simp [char_at, hd]
  · simp [sample_env]

theorem many_dirs_one_file_scan :
    ∃ (fnode : browser_node) (ds : List browser_node),
      fs_dir_iterate sample_config sample_env sample_globals many_dirs_one_file []
        = ds ++ [fnode] ∧
      fnode.dir = 0 ∧ ds.length = 1000 ∧ ∀ n ∈ ds, n.dir = 1 ∧ 70 ≤ n.menuentry.length := by
  obtain ⟨fnode, hf, hd⟩ : ∃ fnode : browser_node,
      ventoy_browser_iterate_dir sample_config sample_env sample_globals true (cstr "a.iso")
        ⟨false, 1048576⟩ [] = (0, [fnode]) ∧ fnode.dir = 0 :=
    ⟨_, iterate_dir_file_node sample_config sample_env sample_globals (cstr "a.iso")
      ⟨false, 1048576⟩ [] rfl (by decide) (by decide) (by decide), rfl⟩
  obtain ⟨ds, h1, h2, h3⟩ := fs_dir_iterate_dirs sample_config sample_env sample_globals
    (by decide) _ [fnode] many_dirs_plain
  refine ⟨fnode, ds, ?_, hd, by simpa using h2, h3⟩
  unfold many_dirs_one_file
  rw [fs_dir_iterate_cons_zero _ _ _ _ _ _ _ hf]
  exact h1

theorem browser_dir_render_buffer (cs : Int) (fuel : Nat) (l : List browser_node)
    (hfuel : l.length < fuel) :
    ∃ (r : render_state × submitted) (ds fs : List browser_node),
      browser_dir_render cs fuel (ventoy_browser_mbuf_alloc true).2 l = some r ∧
      ds.Perm (l.filter (fun n => decide (n.dir = 1))) ∧
      fs.Perm (l.filter (fun n => decide (n.dir = 0))) ∧
      r.1.found = ds ++ fs ∧
      r.1.mbuf.buf = some ((go_back_entry ++ (ds.map (fun n => n.menuentry)).flatten
        ++ (fs.map (fun n => n.menuentry)).flatten).take 65535) ∧
      r.1.mbuf.pos = (((go_back_entry ++ (ds.map (fun n => n.menuentry)).flatten
        ++ (fs.map (fun n => n.menuentry)).flatten).take 65535).length : Int) ∧
      r.2.region = some ((go_back_entry ++ (ds.map (fun n => n.menuentry)).flatten
        ++ (fs.map (fun n => n.menuentry)).flatten).take 65535) := by
  obtain ⟨ds, fs, hr, hp1, hp2, _, _⟩ :=
    browser_dir_render_spec cs fuel (ventoy_browser_mbuf_alloc true).2 l hfuel
  have hfold : (ds ++ fs).foldl (fun m n => browser_ssprintf m n.menuentry)
      (browser_ssprintf (ventoy_browser_mbuf_alloc true).2 go_back_entry)
      = { max := ((65535 : Nat) : Int) + 1
          pos := (((go_back_entry ++ (ds.map (fun n => n.menuentry)).flatten
            ++ (fs.map (fun n => n.menuentry)).flatten).take 65535).length : Int)
          buf := some ((go_back_entry ++ (ds.map (fun n => n.menuentry)).flatten
            ++ (fs.map (fun n => n.menuentry)).flatten).take 65535) } := by
    have h1 : (ds ++ fs).foldl (fun m n => browser_ssprintf m n.menuentry)
        (browser_ssprintf (ventoy_browser_mbuf_alloc true).2 go_back_entry)
        = (go_back_entry :: (ds ++ fs).map (fun n => n.menuentry)).foldl browser_ssprintf
            (ventoy_browser_mbuf_alloc true).2 := by
      rw [List.foldl_cons, List.foldl_map]
    rw [h1, mbuf_alloc_fresh, browser_ssprintf_fold_capped 65535 _ [] (by simp)]
    simp only [List.nil_append, List.flatten_cons, List.map_append, List.flatten_append,
      List.append_assoc]
  rw [hfold] at hr
  refine ⟨_, ds, fs, hr, hp1, hp2, rfl, rfl, rfl, ?_⟩
  simp only [submitted.region, Option.map_some', Int.toNat_ofNat, List.take_length]

theorem many_dirs_one_file_registry :
    (fs_dir_iterate sample_config sample_env sample_globals many_dirs_one_file []).length
      = 1001 ∧
    65535 ≤ go_back_entry.length +
      (((fs_dir_iterate sample_config sample_env sample_globals many_dirs_one_file []).filter
        (fun n => decide (n.dir = 1))).map (fun n => n.menuentry.length)).sum ∧
    ∃ fnode : browser_node,
      (fs_dir_iterate sample_config sample_env sample_globals many_dirs_one_file []).filter
        (fun n => decide (n.dir = 0)) = [fnode] := by
  obtain ⟨fnode, ds, hs, hd, hlen, hds⟩ := many_dirs_one_file_scan
  have h1 : ds.filter (fun n => decide (n.dir = 1)) = ds := by
    rw [List.filter_eq_self]
    intro n hn
    simp [(hds n hn).1]
  have h0 : ds.filter (fun n => decide (n.dir = 0)) = [] := by
    rw [List.filter_eq_nil_iff]
    intro n hn
    simp [(hds n hn).1]
  rw [hs]
  refine ⟨by simp [hlen], ?_, fnode, ?_⟩
  · have h3 := sum_length_ge 70 ds (fun n hn => (hds n hn).2)
    rw [hlen] at h3
    simp only [List.filter_append, h1, List.filter_cons, hd, List.filter_nil]
    simp only [show decide ((0 : Int) = 1) = false from rfl, Bool.false_eq_true, if_false,
      List.append_nil]
    omega
  · simp only [List.filter_append, h0, List.filter_cons, hd, List.filter_nil, List.nil_append]
    simp


/-! ## A file name longer than the array of the node -/

theorem char_at_replicate_succ (n : Nat) (c : Int) (s : CStr) :
    char_at (List.replicate (n + 1) c ++ s) 0 = c := by
  rw [List.replicate_succ]
  simp [char_at]

theorem long_iso_name_accepted :
    ventoy_browser_check_filename sample_config long_iso_name (grub_strlen long_iso_name) none
      = (1, some img_type_iso) := by
  have hdot : char_at (List.replicate 596 97 ++ cstr ".iso") 0 ≠ 46 := by
    rw [char_at_replicate_succ 595 97]
    decide
  exact check_filename_iso sample_config (List.replicate 596 97) none rfl hdot

theorem long_iso_name_length : long_iso_name.length = 600 := by
  unfold long_iso_name
  rw [List.length_append, List.length_replicate, cstr_iso]
  rfl

theorem long_iso_name_cut :
    grub_strncpy long_iso_name sample_config.sizeof_filename = List.replicate 512 97 := by
  have h : (512 : Nat) ≤ (List.replicate 596 (97 : Int)).length := by
    rw [List.length_replicate]; decide
  unfold grub_strncpy long_iso_name
  rw [show sample_config.sizeof_filename = 512 from rfl, List.take_append_of_le_length h,
    List.take_replicate]
  rfl



/-! ## Ordering of the rendered menu -/

/-- C1: for every registry and either case-sensitivity setting, the render loop
of `ventoy_cmd_browser_dir` (given fuel for its iterations) finishes, the texts
it appends after the go-back entry are those of the selected entries in
selection order, and whenever an entry `e1` is emitted before an entry `e2` of
the same kind, `ventoy_browser_strcmp (e1.filename, e2.filename) <= 0`. -/
theorem render_same_kind_ascending (cs : Int) (fuel : Nat) (mbuf : browser_mbuf)
    (l : List browser_node) (hfuel : l.length < fuel) :
    ∃ r, browser_dir_render cs fuel mbuf l = some r ∧
      r.1.appended = go_back_entry :: r.1.found.map (fun n => n.menuentry) ∧
      r.1.found.Pairwise (fun e1 e2 =>
        e1.dir = e2.dir → ventoy_browser_strcmp cs e1.filename e2.filename ≤ 0) := by
  obtain ⟨ds, fs, hr, hp1, hp2, hs1, hs2⟩ := browser_dir_render_spec cs fuel mbuf l hfuel
  refine ⟨_, hr, rfl, ?_⟩
  simp only
  rw [List.pairwise_append]
  refine ⟨?_, ?_, ?_⟩
  · refine List.Pairwise.imp ?_ hs1
    intro a b h _
    exact h
  · refine List.Pairwise.imp ?_ hs2
    intro a b h _
    exact h
  intro a ha b hb hab
  have h1 := hp1.subset ha
  have h0 := hp2.subset hb
  simp only [List.mem_filter, decide_eq_true_eq] at h1 h0
  rw [h1.2, h0.2] at hab
  exact absurd hab (by decide)

/-- Witness of C1: a registry of two files and one directory. -/
theorem render_same_kind_ascending_witness :
    ∃ r, browser_dir_render 0 4 (ventoy_browser_mbuf_alloc true).2
        [⟨0, cstr "f:b.iso", cstr "b.iso"⟩, ⟨1, cstr "d:A", cstr "A"⟩,
         ⟨0, cstr "f:a.iso", cstr "a.iso"⟩] = some r ∧
      r.1.appended = go_back_entry :: r.1.found.map (fun n => n.menuentry) ∧
      r.1.found.Pairwise (fun e1 e2 =>
        e1.dir = e2.dir → ventoy_browser_strcmp 0 e1.filename e2.filename ≤ 0) :=
  render_same_kind_ascending 0 4 (ventoy_browser_mbuf_alloc true).2
    [⟨0, cstr "f:b.iso", cstr "b.iso"⟩, ⟨1, cstr "d:A", cstr "A"⟩,
     ⟨0, cstr "f:a.iso", cstr "a.iso"⟩] (by decide)

/-- C2: the comparator does not order a strict prefix first.  It returns 0 for
a string and any extension of it, in both argument orders and under either
case-sensitivity setting, so the render loop emits two such entries of the same
kind in registry order: with the registry holding the file `ab` before the file
`a`, the entry `ab` is emitted before the entry `a`. -/
theorem strcmp_prefix_zero_render_keeps_registry_order :
    (∀ (cs : Int) (a t : CStr),
      ventoy_browser_strcmp cs a (a ++ t) = 0 ∧ ventoy_browser_strcmp cs (a ++ t) a = 0) ∧
    ventoy_browser_strcmp 0 (cstr "a") (cstr "ab") = 0 ∧
    ventoy_browser_strcmp 1 (cstr "a") (cstr "ab") = 0 ∧
    (browser_dir_render 0 3 (ventoy_browser_mbuf_alloc true).2
        [⟨0, cstr "f:ab", cstr "ab"⟩, ⟨0, cstr "f:a", cstr "a"⟩]).map (fun r => r.1.found)
      = some [⟨0, cstr "f:ab", cstr "ab"⟩, ⟨0, cstr "f:a", cstr "a"⟩] ∧
    (browser_dir_render 1 3 (ventoy_browser_mbuf_alloc true).2
        [⟨0, cstr "f:ab", cstr "ab"⟩, ⟨0, cstr "f:a", cstr "a"⟩]).map (fun r => r.1.found)
      = some [⟨0, cstr "f:ab", cstr "ab"⟩, ⟨0, cstr "f:a", cstr "a"⟩] := by
  refine ⟨?_, by decide, by decide, by decide, by decide⟩
  intro cs a t
  have h : ventoy_browser_strcmp cs a (a ++ t) = 0 := by
    induction a with
    | nil => simp [strcmp_nil_left]
    | cons c a ih => simp [strcmp_cons, ih]
  refine ⟨h, ?_⟩
  rw [strcmp_antisymm, h]
  rfl

/-- C3: what the render part of `ventoy_cmd_browser_dir` appends to the menu
buffer.  For every registry, starting from the freshly allocated buffer, the
bytes in the buffer, which are the region submitted, are the first 65535 bytes
of this sequence: the go-back entry, then the texts of the Directory entries,
then the texts of the File entries.  No byte of a File text comes before a byte
of a Directory text, and when the sequence has at most 65535 bytes the buffer
holds all of it.  The buffer is not grown, so the texts beyond are left out:
when the go-back entry and the Directory texts reach 65535 bytes, no byte of
any File text is appended. -/
theorem render_buffer_back_dirs_files_cut (cs : Int) (fuel : Nat) (l : List browser_node)
    (hfuel : l.length < fuel) :
    ∃ (r : render_state × submitted) (ds fs : List browser_node),
      browser_dir_render cs fuel (ventoy_browser_mbuf_alloc true).2 l = some r ∧
      ds.Perm (l.filter (fun n => decide (n.dir = 1))) ∧
      fs.Perm (l.filter (fun n => decide (n.dir = 0))) ∧
      r.1.mbuf.buf = some ((go_back_entry ++ (ds.map (fun n => n.menuentry)).flatten
        ++ (fs.map (fun n => n.menuentry)).flatten).take 65535) ∧
      r.1.mbuf.pos = (((go_back_entry ++ (ds.map (fun n => n.menuentry)).flatten
        ++ (fs.map (fun n => n.menuentry)).flatten).take 65535).length : Int) ∧
      r.2.region = some ((go_back_entry ++ (ds.map (fun n => n.menuentry)).flatten
        ++ (fs.map (fun n => n.menuentry)).flatten).take 65535) ∧
      ((go_back_entry ++ (ds.map (fun n => n.menuentry)).flatten
          ++ (fs.map (fun n => n.menuentry)).flatten).length ≤ 65535 →
        r.2.region = some (go_back_entry ++ (ds.map (fun n => n.menuentry)).flatten
          ++ (fs.map (fun n => n.menuentry)).flatten)) ∧
      (65535 ≤ go_back_entry.length +
          ((l.filter (fun n => decide (n.dir = 1))).map (fun n => n.menuentry.length)).sum →
        r.2.region = some ((go_back_entry ++ (ds.map (fun n => n.menuentry)).flatten).take
          65535)) := by
  obtain ⟨r, ds, fs, hr, hp1, hp2, _, hbuf, hpos, hreg⟩ :=
    browser_dir_render_buffer cs fuel l hfuel
  refine ⟨r, ds, fs, hr, hp1, hp2, hbuf, hpos, hreg, ?_, ?_⟩
  · intro hfit
    rw [hreg, List.take_of_length_le hfit]
  · intro hbig
    have hsum : ((ds.map (fun n => n.menuentry)).flatten).length
        = ((l.filter (fun n => decide (n.dir = 1))).map (fun n => n.menuentry.length)).sum := by
      rw [List.length_flatten, List.map_map]
      exact (hp1.map _).sum_eq
    have hle : 65535 ≤ (go_back_entry ++ (ds.map (fun n => n.menuentry)).flatten).length := by
      rw [List.length_append, hsum]
      exact hbig
    rw [hreg, List.take_append_of_le_length hle]

/-- Witness of C3: the registry left by the scan of a directory that holds the
image file `a.iso` and 1000 sub-directories `d0` ... `d999`.  The registry
holds a File entry, and the submitted region is the first 65535 bytes of the
go-back entry and the Directory texts: the File text is not in it. -/
theorem render_buffer_back_dirs_files_cut_witness :
    (∃ fnode : browser_node,
      (fs_dir_iterate sample_config sample_env sample_globals many_dirs_one_file []).filter
        (fun n => decide (n.dir = 0)) = [fnode]) ∧
    ∃ (r : render_state × submitted) (ds : List browser_node),
      browser_dir_render 0 1002 (ventoy_browser_mbuf_alloc true).2
        (fs_dir_iterate sample_config sample_env sample_globals many_dirs_one_file [])
        = some r ∧
      ds.Perm ((fs_dir_iterate sample_config sample_env sample_globals many_dirs_one_file
        []).filter (fun n => decide (n.dir = 1))) ∧
      r.2.region = some ((go_back_entry ++ (ds.map (fun n => n.menuentry)).flatten).take
        65535) := by
  obtain ⟨r, ds, fs, hr, hp1, _, _, _, _, _, hcut⟩ :=
    render_buffer_back_dirs_files_cut 0 1002
      (fs_dir_iterate sample_config sample_env sample_globals many_dirs_one_file [])
      (by rw [many_dirs_one_file_registry.1]; decide)
  exact ⟨many_dirs_one_file_registry.2.2, r, ds, hr, hp1, hcut many_dirs_one_file_registry.2.1⟩


/-! ## The classifier -/

/-- Counterexample to C4 as stated: `VENTOY_WIMBOOT.IMG` equals
`ventoy_wimboot.img` under case-insensitive comparison, and with the IMG filter
letting images through `ventoy_browser_check_filename` accepts it as an IMG. -/
theorem check_filename_accepts_upper_case_reserved :
    grub_strcasecmp (cstr "VENTOY_WIMBOOT.IMG") (cstr "ventoy_wimboot.img") = 0 ∧
    ventoy_browser_check_filename sample_config (cstr "VENTOY_WIMBOOT.IMG")
      (grub_strlen (cstr "VENTOY_WIMBOOT.IMG")) none = (1, some img_type_img) := by
  decide

/-- C4 (amended): for every filename of 18 characters whose first 14 characters
are exactly `ventoy_wimboot` or `ventoy_vhdboot` (compared case-sensitively)
and whose last four characters equal `.img` under case-insensitive comparison,
and for every filter/feature configuration, `ventoy_browser_check_filename`
returns 0. -/
theorem check_filename_rejects_reserved_img (cfg : browser_config) (filename suf : CStr)
    (type : Option img_type)
    (hname : filename = cstr "ventoy_wimboot" ++ suf ∨ filename = cstr "ventoy_vhdboot" ++ suf)
    (hlen : suf.length = 4)
    (hsuf : grub_strcasecmp suf (cstr ".img") = 0) :
    (ventoy_browser_check_filename cfg filename (grub_strlen filename) type).1 = 0 := by
  obtain ⟨a, b, c, d, rfl⟩ : ∃ a b c d, suf = [a, b, c, d] := by
    match suf, hlen with
    | [a, b, c, d], _ => exact ⟨a, b, c, d, rfl⟩
  have hl : grub_strlen filename = 18 := by
    rcases hname with h | h <;> subst h <;>
      simp [grub_strlen, cstr_ventoy_wimboot, cstr_ventoy_vhdboot]
  rw [hl]
  rcases hname with h | h <;> subst h
  · rw [check_filename_reserved_img cfg _ a b c d type (Or.inl rfl) hsuf]
  · rw [check_filename_reserved_img cfg _ a b c d type (Or.inr rfl) hsuf]

/-- Witness of C4 (amended): the name `ventoy_vhdboot.ImG`. -/
theorem check_filename_rejects_reserved_img_witness :
    (ventoy_browser_check_filename sample_config (cstr "ventoy_vhdboot" ++ cstr ".ImG")
      (grub_strlen (cstr "ventoy_vhdboot" ++ cstr ".ImG")) none).1 = 0 :=
  check_filename_rejects_reserved_img sample_config (cstr "ventoy_vhdboot" ++ cstr ".ImG")
    (cstr ".ImG") none (Or.inr rfl) (by decide) (by decide)

/-- C7: for every filename of length less than 4 and every configuration,
`ventoy_browser_check_filename` returns 0, and `ventoy_browser_iterate_dir`,
given a child with such a name that is reported as a file, returns with the
registry as it was. -/
theorem short_file_name_rejected (cfg : browser_config) (env : browser_env) (g : scan_globals)
    (zalloc_ok : Bool) (filename : CStr) (info : grub_dirhook_info) (type : Option img_type)
    (l : List browser_node) (hshort : grub_strlen filename < 4) (hfile : info.dir = false) :
    (ventoy_browser_check_filename cfg filename (grub_strlen filename) type).1 = 0 ∧
    (ventoy_browser_iterate_dir cfg env g zalloc_ok filename info l).2 = l := by
  constructor
  · rw [check_filename_short cfg filename _ type hshort]
  · simp [ventoy_browser_iterate_dir, hfile, check_filename_short cfg filename _ none hshort]

/-- Witness of C7: the file `iso` of 3 characters. -/
theorem short_file_name_rejected_witness :
    (ventoy_browser_check_filename sample_config (cstr "iso") (grub_strlen (cstr "iso")) none).1
      = 0 ∧
    (ventoy_browser_iterate_dir sample_config sample_env sample_globals true (cstr "iso")
      ⟨false, 1048576⟩ []).2 = [] :=
  short_file_name_rejected sample_config sample_env sample_globals true (cstr "iso")
    ⟨false, 1048576⟩ none [] (by decide) rfl

/-- C6: `ventoy_browser_check_filename`, called with the length of the name,
agrees with the reference classifier for every well-formed filename and every
configuration: it returns 1 exactly when the reference accepts, and then the
type it writes is the tag of the rule the reference takes. -/
theorem check_filename_eq_reference (cfg : browser_config) (filename : CStr)
    (type : Option img_type) (hwf : wf_cstr filename) :
    (ventoy_browser_check_filename cfg filename (grub_strlen filename) type).1
      = (if (check_filename_reference cfg filename).isSome then 1 else 0) ∧
    ∀ t, check_filename_reference cfg filename = some t →
      (ventoy_browser_check_filename cfg filename (grub_strlen filename) type).2 = some t := by
  by_cases h4 : grub_strlen filename < 4
  · have h4n : filename.length < 4 := by unfold grub_strlen at h4; omega
    simp [check_filename_short cfg filename _ type h4, check_filename_reference, h4n]
  · have h4n : ¬ filename.length < 4 := by unfold grub_strlen at h4; omega
    rw [check_filename_unfold cfg filename type hwf h4,
      check_filename_reference_unfold cfg filename h4n]
    by_cases c1 : cfg.FILE_FLT_ISO = true ∧ ends_with_ci filename (cstr ".iso")
    · rw [if_pos c1, if_pos c1]
      exact check_filename_tail_agrees cfg filename img_type_iso
    rw [if_neg c1, if_neg c1]
    by_cases c2 : cfg.FILE_FLT_WIM = true ∧ cfg.g_wimboot_enable ≠ 0 ∧
        ends_with_ci filename (cstr ".wim")
    · rw [if_pos c2, if_pos c2]
      exact check_filename_tail_agrees cfg filename img_type_wim
    rw [if_neg c2, if_neg c2]
    by_cases c3 : cfg.FILE_FLT_VHD = true ∧ cfg.g_vhdboot_enable ≠ 0 ∧
        (ends_with_ci filename (cstr ".vhd") ∨ ends_with_ci filename (cstr ".vhdx"))
    · rw [if_pos c3, if_pos c3]
      exact check_filename_tail_agrees cfg filename img_type_vhd
    rw [if_neg c3, if_neg c3]
    by_cases c4 : cfg.GRUB_MACHINE_EFI = true ∧ cfg.FILE_FLT_EFI = true ∧
        ends_with_ci filename (cstr ".efi")
    · rw [if_pos c4, if_pos c4]
      exact check_filename_tail_agrees cfg filename img_type_efi
    rw [if_neg c4, if_neg c4]
    by_cases c5 : cfg.FILE_FLT_IMG = true ∧ ends_with_ci filename (cstr ".img")
    · rw [if_pos c5, if_pos c5]
      by_cases cr : filename.length = 18 ∧
          (cstr "ventoy_wimboot" <+: filename ∨ cstr "ventoy_vhdboot" <+: filename)
      · rw [if_pos cr, if_pos cr]
        simp
      · rw [if_neg cr, if_neg cr]
        exact check_filename_tail_agrees cfg filename img_type_img
    rw [if_neg c5, if_neg c5]
    by_cases c6 : cfg.FILE_FLT_VTOY = true ∧ ends_with_ci filename (cstr ".vtoy")
    · rw [if_pos c6, if_pos c6]
      exact check_filename_tail_agrees cfg filename img_type_vtoy
    rw [if_neg c6, if_neg c6]
    simp

/-- Witness of C6: the name `disk.VHDX` is accepted as a VHD. -/
theorem check_filename_eq_reference_witness :
    (ventoy_browser_check_filename sample_config (cstr "disk.VHDX")
        (grub_strlen (cstr "disk.VHDX")) none).1
      = (if (check_filename_reference sample_config (cstr "disk.VHDX")).isSome then 1 else 0) ∧
    ∀ t, check_filename_reference sample_config (cstr "disk.VHDX") = some t →
      (ventoy_browser_check_filename sample_config (cstr "disk.VHDX")
        (grub_strlen (cstr "disk.VHDX")) none).2 = some t :=
  check_filename_eq_reference sample_config (cstr "disk.VHDX") none (by decide)


/-! ## The directory scan -/

/-- Counterexample to C5 as stated: the directories `$RECYCLE.BIN2` and
`$Extended` are not `.` or `..`, the validator accepts them, they are not
exactly `$RECYCLE.BIN` and do not equal `$Extend` when letter case is ignored;
yet `ventoy_browser_iterate_dir` rejects both and the registry stays empty. -/
theorem dir_with_reserved_beginning_rejected :
    cstr "$RECYCLE.BIN2" ≠ cstr "." ∧ cstr "$RECYCLE.BIN2" ≠ cstr ".." ∧
    sample_env.ventoy_img_name_valid (cstr "$RECYCLE.BIN2") (grub_strlen (cstr "$RECYCLE.BIN2"))
      ≠ 0 ∧
    cstr "$RECYCLE.BIN2" ≠ cstr "$RECYCLE.BIN" ∧
    grub_strcasecmp (cstr "$RECYCLE.BIN2") (cstr "$Extend") ≠ 0 ∧
    ventoy_browser_iterate_dir sample_config sample_env sample_globals true
      (cstr "$RECYCLE.BIN2") ⟨true, 0⟩ [] = (0, []) ∧
    cstr "$Extended" ≠ cstr "." ∧ cstr "$Extended" ≠ cstr ".." ∧
    sample_env.ventoy_img_name_valid (cstr "$Extended") (grub_strlen (cstr "$Extended")) ≠ 0 ∧
    cstr "$Extended" ≠ cstr "$RECYCLE.BIN" ∧
    grub_strcasecmp (cstr "$Extended") (cstr "$Extend") ≠ 0 ∧
    ventoy_browser_iterate_dir sample_config sample_env sample_globals true
      (cstr "$Extended") ⟨true, 0⟩ [] = (0, []) := by
  decide

/-- C5 (amended): for every child reported as a directory, node allocation
succeeding, `ventoy_browser_iterate_dir` rejects it exactly when its name is
`.` or `..`, or the validator refuses it, or the name begins with
`$RECYCLE.BIN`, or the name begins with `$Extend` when letter case is ignored.
Every other directory child becomes the head of the registry, with kind
Directory and the name as `grub_strncpy` stores it in the node: its own name
when that is shorter than the array. -/
theorem dir_child_rejected_iff_rules_refuse (cfg : browser_config) (env : browser_env)
    (g : scan_globals) (filename : CStr) (info : grub_dirhook_info) (l : List browser_node)
    (hwf : wf_cstr filename) (hdir : info.dir = true) :
    (dir_rules_refuse env filename →
      ventoy_browser_iterate_dir cfg env g true filename info l = (0, l)) ∧
    (¬ dir_rules_refuse env filename →
      ∃ node : browser_node,
        ventoy_browser_iterate_dir cfg env g true filename info l = (0, node :: l) ∧
        node.dir = 1 ∧
        node.filename = grub_strncpy filename cfg.sizeof_filename ∧
        (filename.length < cfg.sizeof_filename → node.filename = filename) ∧
        node.menuentry = (grub_snprintf cfg.sizeof_menuentry (dir_menuentry_text g filename)).1) := by
  have hiff := dir_tests_iff_refuse env filename hwf
  constructor
  · intro hr
    rcases hiff.mpr hr with h | h | h
    · simp [ventoy_browser_iterate_dir, hdir, h]
    · simp [ventoy_browser_iterate_dir, hdir, h]
    · simp [ventoy_browser_iterate_dir, hdir, h]
  · intro hr
    have hn : ¬ _ := fun h => hr (hiff.mp h)
    obtain ⟨h1, h23⟩ := not_or.mp hn
    obtain ⟨h2, h3⟩ := not_or.mp h23
    refine ⟨{ dir := 1
              filename := grub_strncpy filename cfg.sizeof_filename
              menuentry := (grub_snprintf cfg.sizeof_menuentry
                (dir_menuentry_text g filename)).1 }, ?_, rfl, rfl, ?_, rfl⟩
    · simp only [ventoy_browser_iterate_dir, hdir, if_true, h1, h2, h3, if_false,
        browser_list_insert, not_true_eq_false]
    · intro hlt
      simp only [grub_strncpy]
      exact List.take_of_length_le (le_of_lt hlt)

/-- Witness of C5 (amended): the directory `A`. -/
theorem dir_child_rejected_iff_rules_refuse_witness :
    (dir_rules_refuse sample_env (cstr "A") →
      ventoy_browser_iterate_dir sample_config sample_env sample_globals true (cstr "A")
        ⟨true, 0⟩ [] = (0, [])) ∧
    (¬ dir_rules_refuse sample_env (cstr "A") →
      ∃ node : browser_node,
        ventoy_browser_iterate_dir sample_config sample_env sample_globals true (cstr "A")
          ⟨true, 0⟩ [] = (0, node :: []) ∧
        node.dir = 1 ∧
        node.filename = grub_strncpy (cstr "A") sample_config.sizeof_filename ∧
        ((cstr "A").length < sample_config.sizeof_filename → node.filename = cstr "A") ∧
        node.menuentry = (grub_snprintf sample_config.sizeof_menuentry
          (dir_menuentry_text sample_globals (cstr "A"))).1) :=
  dir_child_rejected_iff_rules_refuse sample_config sample_env sample_globals (cstr "A")
    ⟨true, 0⟩ [] (by decide) rfl

/-- C8: a rejected child has no effect on the registry and does not stop the
scan.  For every registry and every child that is a directory refused by the
directory rules, a file refused by name, a file of reported size 0 whose open
fails, or a file whose resolved size is below the minimum,
`ventoy_browser_iterate_dir` returns 0 and the registry after the call is the
registry before it. -/
theorem rejected_child_keeps_registry (cfg : browser_config) (env : browser_env)
    (g : scan_globals) (zalloc_ok : Bool) (filename : CStr) (info : grub_dirhook_info)
    (l : List browser_node) (hwf : wf_cstr filename)
    (hrej :
      (info.dir = true ∧ dir_rules_refuse env filename) ∨
      (info.dir = false ∧
        (ventoy_browser_check_filename cfg filename (grub_strlen filename) none).1 = 0) ∨
      (info.dir = false ∧ info.size = 0 ∧
        env.file_open_size (file_open_path g filename) = none) ∨
      (info.dir = false ∧ info.size ≠ 0 ∧ info.size < cfg.VTOY_FILT_MIN_FILE_SIZE) ∨
      (info.dir = false ∧ info.size = 0 ∧
        ∃ fsize, env.file_open_size (file_open_path g filename) = some fsize ∧
          fsize < cfg.VTOY_FILT_MIN_FILE_SIZE)) :
    ventoy_browser_iterate_dir cfg env g zalloc_ok filename info l = (0, l) := by
  rcases hrej with ⟨hd, hr⟩ | ⟨hd, hc⟩ | ⟨hd, hs, ho⟩ | ⟨hd, hs, hlt⟩ | ⟨hd, hs, fsize, ho, hlt⟩
  · rcases (dir_tests_iff_refuse env filename hwf).mpr hr with h | h | h
    · simp [ventoy_browser_iterate_dir, hd, h]
    · simp [ventoy_browser_iterate_dir, hd, h]
    · simp [ventoy_browser_iterate_dir, hd, h]
  · simp [ventoy_browser_iterate_dir, hd, hc]
  · simp [ventoy_browser_iterate_dir, hd, hs, ho]
  · simp only [ventoy_browser_iterate_dir, hd, hs, if_false, Bool.false_eq_true]
    split_ifs <;> simp_all
  · simp only [ventoy_browser_iterate_dir, hd, hs, if_true, if_false, Bool.false_eq_true, ho]
    split_ifs <;> simp_all

/-- Witness of C8: the file `x.img` of reported size 0 on a file system where
the open fails, met with one node in the registry. -/
theorem rejected_child_keeps_registry_witness :
    ventoy_browser_iterate_dir sample_config sample_env sample_globals true (cstr "x.img")
      ⟨false, 0⟩ [⟨1, cstr "d:A", cstr "A"⟩] = (0, [⟨1, cstr "d:A", cstr "A"⟩]) :=
  rejected_child_keeps_registry sample_config sample_env sample_globals true (cstr "x.img")
    ⟨false, 0⟩ [⟨1, cstr "d:A", cstr "A"⟩] (by decide) (Or.inr (Or.inr (Or.inl ⟨rfl, rfl, rfl⟩)))


/-! ## The menu buffer -/

/-- C9: what `ventoy_browser_mbuf_extend` does when the headroom is at most
1 KiB and `grub_realloc` fails: it returns 0, the value it also returns when the
reallocation succeeds, the capacity is already raised by `BROWSER_MENU_BUF`, and
the buffer pointer is overwritten with NULL, so the bytes appended so far are
no longer reachable through the buffer. -/
theorem mbuf_extend_realloc_failure (mbuf : browser_mbuf)
    (hlow : mbuf.max - mbuf.pos ≤ VTOY_SIZE_1KB) :
    ventoy_browser_mbuf_extend false mbuf
      = (0, { max := wrap_int (mbuf.max + BROWSER_MENU_BUF), pos := mbuf.pos, buf := none }) ∧
    (ventoy_browser_mbuf_extend true mbuf).1 = 0 := by
  simp [ventoy_browser_mbuf_extend, hlow, grub_realloc]

/-- Witness of C9: a buffer of capacity 65536 holding 64600 bytes; after the
failed growth the capacity reads 131072 and the pointer is NULL. -/
theorem mbuf_extend_realloc_failure_witness :
    ventoy_browser_mbuf_extend false
        { max := 65536, pos := 64600, buf := some (List.replicate 64600 32) }
      = (0, { max := wrap_int (65536 + BROWSER_MENU_BUF), pos := 64600, buf := none }) ∧
    (ventoy_browser_mbuf_extend true
        { max := 65536, pos := 64600, buf := some (List.replicate 64600 32) }).1 = 0 ∧
    wrap_int (65536 + BROWSER_MENU_BUF) = 131072 :=
  ⟨(mbuf_extend_realloc_failure
      { max := 65536, pos := 64600, buf := some (List.replicate 64600 32) } (by decide)).1,
   (mbuf_extend_realloc_failure
      { max := 65536, pos := 64600, buf := some (List.replicate 64600 32) } (by decide)).2,
   by decide⟩

/-- C10: the directory session never grows the buffer.  For every registry of
Directory and File nodes whose texts together with the go-back entry exceed
65535 bytes, the region that `ventoy_cmd_browser_dir` submits, starting from a
fresh buffer, is only the first 65535 bytes of the go-back entry followed by
the texts of the entries: the bytes beyond are dropped. -/
theorem browser_dir_menu_cut_at_capacity (cs : Int) (fuel : Nat) (l : List browser_node)
    (hfuel : l.length < fuel) (hkind : ∀ n ∈ l, n.dir = 1 ∨ n.dir = 0)
    (hbig : 65535 < go_back_entry.length + (l.map (fun n => n.menuentry.length)).sum) :
    ∃ r : render_state × submitted,
      browser_dir_render cs fuel (ventoy_browser_mbuf_alloc true).2 l = some r ∧
      r.1.found.Perm l ∧
      r.1.appended = go_back_entry :: r.1.found.map (fun n => n.menuentry) ∧
      r.2.region = some (r.1.appended.flatten.take 65535) ∧
      r.2.size = 65535 ∧
      65535 < r.1.appended.flatten.length := by
  obtain ⟨r, hr, happ, hreg, hsize, hperm⟩ := browser_dir_render_region cs fuel l hfuel
  have hp : r.1.found.Perm l := hperm.trans (filter_dir_file_perm l hkind)
  have hlen : r.1.appended.flatten.length
      = go_back_entry.length + (l.map (fun n => n.menuentry.length)).sum := by
    rw [happ, List.flatten_cons, List.length_append, List.length_flatten, List.map_map]
    congr 1
    exact (hp.map _).sum_eq
  refine ⟨r, hr, hp, happ, hreg, ?_, by omega⟩
  rw [hsize, List.length_take, hlen]
  have : min 65535 (go_back_entry.length + (l.map (fun n => n.menuentry.length)).sum) = 65535 := by
    omega
  rw [this]
  rfl

/-- Witness of C10: the registry left by the scan of a directory of 700 image
files `f0.iso` ... `f699.iso`. -/
theorem browser_dir_menu_cut_at_capacity_witness :
    ∃ r : render_state × submitted,
      browser_dir_render 0 701 (ventoy_browser_mbuf_alloc true).2
        (fs_dir_iterate sample_config sample_env sample_globals many_iso_files []) = some r ∧
      r.1.found.Perm (fs_dir_iterate sample_config sample_env sample_globals many_iso_files []) ∧
      r.1.appended = go_back_entry :: r.1.found.map (fun n => n.menuentry) ∧
      r.2.region = some (r.1.appended.flatten.take 65535) ∧
      r.2.size = 65535 ∧
      65535 < r.1.appended.flatten.length :=
  browser_dir_menu_cut_at_capacity 0 701
    (fs_dir_iterate sample_config sample_env sample_globals many_iso_files [])
    (by rw [many_iso_files_scan.1]; decide) many_iso_files_scan.2.1 many_iso_files_scan.2.2


/-! ## The selection, the comparator, the growth rule and the size rule -/

/-- C17: for every registry and every kind `k`, `ventoy_browser_find_top_node (k)`
returns NULL exactly when the registry holds no entry of kind `k`; otherwise it
returns an entry `e` that is in the registry (at the position returned), has
kind `k`, and compares smallest: `ventoy_browser_strcmp (e.filename, n.filename)
<= 0` for every entry `n` of kind `k`.  The function only reads the registry:
it has no store to a node or to `g_browser_list`. -/
theorem find_top_node_selects_smallest (cs : Int) (l : List browser_node) (k : Int) :
    (ventoy_browser_find_top_node cs l k = none ↔ ∀ n ∈ l, n.dir ≠ k) ∧
    ∀ (j : Nat) (e : browser_node), ventoy_browser_find_top_node cs l k = some (j, e) →
      l[j]? = some e ∧ e ∈ l ∧ e.dir = k ∧
      ∀ n ∈ l, n.dir = k → ventoy_browser_strcmp cs e.filename n.filename ≤ 0 := by
  constructor
  · constructor
    · exact find_top_node_none cs l k
    · intro hn
      cases hf : ventoy_browser_find_top_node cs l k with
      | none => rfl
      | some p =>
        obtain ⟨j, e⟩ := p
        obtain ⟨hj, hd, _⟩ := find_top_node_some cs l k j e hf
        exact absurd hd (hn e (List.getElem?_mem hj))
  · intro j e hf
    obtain ⟨hj, hd, hmin⟩ := find_top_node_some cs l k j e hf
    exact ⟨hj, List.getElem?_mem hj, hd, hmin⟩

/-- Witness of C17: the smallest file of a registry of two files and one
directory is `a.iso`, at position 2. -/
theorem find_top_node_selects_smallest_witness :
    (ventoy_browser_find_top_node 0
        [⟨0, cstr "f:b.iso", cstr "b.iso"⟩, ⟨1, cstr "d:A", cstr "A"⟩,
         ⟨0, cstr "f:a.iso", cstr "a.iso"⟩] 0 = none ↔
      ∀ n ∈ ([⟨0, cstr "f:b.iso", cstr "b.iso"⟩, ⟨1, cstr "d:A", cstr "A"⟩,
         ⟨0, cstr "f:a.iso", cstr "a.iso"⟩] : List browser_node), n.dir ≠ 0) ∧
    ventoy_browser_find_top_node 0
        [⟨0, cstr "f:b.iso", cstr "b.iso"⟩, ⟨1, cstr "d:A", cstr "A"⟩,
         ⟨0, cstr "f:a.iso", cstr "a.iso"⟩] 0 = some (2, ⟨0, cstr "f:a.iso", cstr "a.iso"⟩) ∧
    ∀ n ∈ ([⟨0, cstr "f:b.iso", cstr "b.iso"⟩, ⟨1, cstr "d:A", cstr "A"⟩,
         ⟨0, cstr "f:a.iso", cstr "a.iso"⟩] : List browser_node), n.dir = 0 →
      ventoy_browser_strcmp 0 (cstr "a.iso") n.filename ≤ 0 :=
  ⟨(find_top_node_selects_smallest 0 _ 0).1, by decide,
   ((find_top_node_selects_smallest 0 _ 0).2 2 ⟨0, cstr "f:a.iso", cstr "a.iso"⟩
      (by decide)).2.2.2⟩

/-- C20: in case-insensitive mode `ventoy_browser_strcmp (a, b)` equals the
case-sensitive result on the two strings with every ASCII letter `a`-`z`
replaced by `A`-`Z`; and in either mode, when the strings, normalised in the
insensitive mode and as they are in the sensitive mode, first differ at a
position inside both, the result is the difference of the two normalised
characters at that position. -/
theorem strcmp_case_modes (cs : Int) (hcs : cs ≠ 0) (a b : CStr) :
    ventoy_browser_strcmp 0 a b
      = ventoy_browser_strcmp cs (a.map ascii_upper) (b.map ascii_upper) ∧
    (∀ (p q : CStr) (x y : Int) (s t : CStr), a = p ++ x :: s → b = q ++ y :: t →
      p.map ascii_upper = q.map ascii_upper → ascii_upper x ≠ ascii_upper y →
      ventoy_browser_strcmp 0 a b = ascii_upper x - ascii_upper y) ∧
    (∀ (p : CStr) (x y : Int) (s t : CStr), a = p ++ x :: s → b = p ++ y :: t → x ≠ y →
      ventoy_browser_strcmp cs a b = x - y) := by
  refine ⟨strcmp_insensitive_eq cs hcs a b, ?_, ?_⟩
  · intro p q x y s t ha hb hpq hxy
    have h1 : p.map (browser_norm 0) = q.map (browser_norm 0) := by
      have e : browser_norm 0 = ascii_upper := funext browser_norm_insensitive
      rw [e]; exact hpq
    have h2 : browser_norm 0 x ≠ browser_norm 0 y := by
      rw [browser_norm_insensitive, browser_norm_insensitive]; exact hxy
    rw [ha, hb, strcmp_first_difference 0 p q x y s t h1 h2, browser_norm_insensitive,
      browser_norm_insensitive]
  · intro p x y s t ha hb hxy
    have h2 : browser_norm cs x ≠ browser_norm cs y := by
      rw [browser_norm_sensitive cs hcs, browser_norm_sensitive cs hcs]; exact hxy
    rw [ha, hb, strcmp_first_difference cs p p x y s t rfl h2, browser_norm_sensitive cs hcs,
      browser_norm_sensitive cs hcs]

/-- Witness of C20: `ubuntu.iso` against `Ubuntu.IMG`; the strings first differ,
after normalisation, at `S` against `M`, and as they are at `u` against `U`. -/
theorem strcmp_case_modes_witness :
    ventoy_browser_strcmp 0 (cstr "ubuntu.iso") (cstr "Ubuntu.IMG")
      = ventoy_browser_strcmp 1 ((cstr "ubuntu.iso").map ascii_upper)
          ((cstr "Ubuntu.IMG").map ascii_upper) ∧
    ventoy_browser_strcmp 0 (cstr "ubuntu.iso") (cstr "Ubuntu.IMG")
      = ascii_upper 115 - ascii_upper 77 ∧
    ventoy_browser_strcmp 1 (cstr "ubuntu.iso") (cstr "Ubuntu.IMG") = 117 - 85 :=
  ⟨(strcmp_case_modes 1 (by decide) (cstr "ubuntu.iso") (cstr "Ubuntu.IMG")).1,
   (strcmp_case_modes 1 (by decide) (cstr "ubuntu.iso") (cstr "Ubuntu.IMG")).2.1
      (cstr "ubuntu.i") (cstr "Ubuntu.I") 115 77 (cstr "o") (cstr "G")
      (by decide) (by decide) (by decide) (by decide),
   (strcmp_case_modes 1 (by decide) (cstr "ubuntu.iso") (cstr "Ubuntu.IMG")).2.2
      [] 117 85 (cstr "buntu.iso") (cstr "buntu.IMG") (by decide) (by decide) (by decide)⟩

/-- Counterexample to C19 as stated: with a headroom of exactly 1024 bytes
(capacity 65536, 64512 bytes appended) and a succeeding reallocation,
`ventoy_browser_mbuf_extend` raises the capacity to 131072. -/
theorem mbuf_extend_grows_at_headroom_1024 :
    (65536 : Int) - 64512 = 1024 ∧
    (ventoy_browser_mbuf_extend true
      { max := 65536, pos := 64512, buf := some (List.replicate 64512 32) }).2.max = 131072 := by
  decide

/-- C19 (amended): for every buffer state with `pos <= max`, the capacity
staying in the range of `int`, and a succeeding reallocation,
`ventoy_browser_mbuf_extend` raises the capacity by exactly 65536 when the
headroom `max - pos` is at most 1024 and leaves it unchanged when the headroom
is more than 1024; in both cases `pos` and the bytes of the buffer are
unchanged. -/
theorem mbuf_extend_growth_rule (mbuf : browser_mbuf) (bytes : List Int)
    (hbuf : mbuf.buf = some bytes) (hpos : mbuf.pos ≤ mbuf.max) (hlo : -2147483648 ≤ mbuf.max)
    (hhi : mbuf.max + BROWSER_MENU_BUF ≤ INT_MAX) :
    (mbuf.max - mbuf.pos ≤ 1024 →
      (ventoy_browser_mbuf_extend true mbuf).2.max = mbuf.max + 65536) ∧
    (1024 < mbuf.max - mbuf.pos →
      (ventoy_browser_mbuf_extend true mbuf).2.max = mbuf.max) ∧
    (ventoy_browser_mbuf_extend true mbuf).2.pos = mbuf.pos ∧
    (ventoy_browser_mbuf_extend true mbuf).2.buf = some bytes ∧
    (ventoy_browser_mbuf_extend true mbuf).1 = 0 := by
  have hw : wrap_int (mbuf.max + BROWSER_MENU_BUF) = mbuf.max + 65536 := by
    unfold wrap_int BROWSER_MENU_BUF INT_MAX at *
    omega
  by_cases h : mbuf.max - mbuf.pos ≤ 1024
  · have e : ventoy_browser_mbuf_extend true mbuf
        = (0, { max := mbuf.max + 65536, pos := mbuf.pos, buf := some bytes }) := by
      simp only [ventoy_browser_mbuf_extend, VTOY_SIZE_1KB, h, if_true, hw, grub_realloc, hbuf,
        Option.getD_some]
    rw [e]
    exact ⟨fun _ => rfl, fun h2 => by omega, rfl, rfl, rfl⟩
  · have e : ventoy_browser_mbuf_extend true mbuf = (0, mbuf) := by
      simp only [ventoy_browser_mbuf_extend, VTOY_SIZE_1KB, h, if_false]
    rw [e]
    exact ⟨fun h2 => absurd h2 h, fun _ => rfl, rfl, hbuf, rfl⟩

/-- Witness of C19 (amended): a buffer of capacity 65536 holding 9 bytes. -/
theorem mbuf_extend_growth_rule_witness :
    ((65536 : Int) - 9 ≤ 1024 →
      (ventoy_browser_mbuf_extend true
        { max := 65536, pos := 9, buf := some (cstr "menuentry") }).2.max = 65536 + 65536) ∧
    ((1024 : Int) < 65536 - 9 →
      (ventoy_browser_mbuf_extend true
        { max := 65536, pos := 9, buf := some (cstr "menuentry") }).2.max = 65536) ∧
    (ventoy_browser_mbuf_extend true
        { max := 65536, pos := 9, buf := some (cstr "menuentry") }).2.pos = 9 ∧
    (ventoy_browser_mbuf_extend true
        { max := 65536, pos := 9, buf := some (cstr "menuentry") }).2.buf
      = some (cstr "menuentry") ∧
    (ventoy_browser_mbuf_extend true
        { max := 65536, pos := 9, buf := some (cstr "menuentry") }).1 = 0 :=
  mbuf_extend_growth_rule { max := 65536, pos := 9, buf := some (cstr "menuentry") }
    (cstr "menuentry") rfl (by decide) (by decide) (by decide)

/-- Counterexample to C14 as stated: the file name of 596 letters `a` and
`.iso`, 600 characters, is accepted by `ventoy_browser_check_filename`, and for
a file of that name of 1 MiB `ventoy_browser_iterate_dir` inserts a File entry
whose name is only the first 512 characters, not the name of the child. -/
theorem file_child_long_name_cut :
    (ventoy_browser_check_filename sample_config long_iso_name (grub_strlen long_iso_name)
      none).1 = 1 ∧
    long_iso_name.length = 600 ∧
    ∃ node : browser_node,
      ventoy_browser_iterate_dir sample_config sample_env sample_globals true long_iso_name
        ⟨false, 1048576⟩ [] = (0, [node]) ∧
      node.dir = 0 ∧ node.filename = List.replicate 512 97 ∧ node.filename ≠ long_iso_name := by
  have hacc := long_iso_name_accepted
  have hnode := iterate_dir_file_node sample_config sample_env sample_globals long_iso_name
    ⟨false, 1048576⟩ [] rfl (by rw [hacc]; decide) (by decide) (by decide)
  refine ⟨by rw [hacc], long_iso_name_length, _, hnode, rfl, long_iso_name_cut, ?_⟩
  intro h
  have h2 := congrArg List.length h
  rw [long_iso_name_length] at h2
  simp only [long_iso_name_cut, List.length_replicate] at h2
  exact absurd h2 (by decide)

/-- C14: for every child reported as a file whose name
`ventoy_browser_check_filename` accepts, node allocation succeeding,
`ventoy_browser_iterate_dir` makes an entry of kind File the head of the
registry exactly when the resolved size is at least `VTOY_FILT_MIN_FILE_SIZE`;
the resolved size is the reported size when that is non-zero and otherwise the
size of the file obtained by opening it, and when the reported size is 0 and
the open fails nothing is inserted.  The name of the entry is what
`grub_strncpy` stores in the array of the node, the first `sizeof (filename)`
characters of the name of the child: the name itself when it is shorter than
the array. -/
theorem file_child_inserted_iff_size (cfg : browser_config) (env : browser_env)
    (g : scan_globals) (filename : CStr) (info : grub_dirhook_info) (l : List browser_node)
    (hfile : info.dir = false)
    (hname : (ventoy_browser_check_filename cfg filename (grub_strlen filename) none).1 ≠ 0) :
    (∀ fsize, resolved_size env g filename info = some fsize →
      cfg.VTOY_FILT_MIN_FILE_SIZE ≤ fsize →
      ∃ node : browser_node,
        ventoy_browser_iterate_dir cfg env g true filename info l = (0, node :: l) ∧
        node.dir = 0 ∧
        node.filename = grub_strncpy filename cfg.sizeof_filename ∧
        (filename.length < cfg.sizeof_filename → node.filename = filename)) ∧
    (∀ fsize, resolved_size env g filename info = some fsize →
      fsize < cfg.VTOY_FILT_MIN_FILE_SIZE →
      ventoy_browser_iterate_dir cfg env g true filename info l = (0, l)) ∧
    (info.size = 0 → env.file_open_size (file_open_path g filename) = none →
      resolved_size env g filename info = none ∧
      ventoy_browser_iterate_dir cfg env g true filename info l = (0, l)) ∧
    (info.size ≠ 0 → resolved_size env g filename info = some info.size) ∧
    (info.size = 0 →
      resolved_size env g filename info = env.file_open_size (file_open_path g filename)) := by
  refine ⟨?_, ?_, ?_, ?_, ?_⟩
  · intro fsize hres hmin
    have hnlt : ¬ fsize < cfg.VTOY_FILT_MIN_FILE_SIZE := by omega
    unfold resolved_size at hres
    refine ⟨{ dir := 0
              filename := grub_strncpy filename cfg.sizeof_filename
              menuentry := (grub_snprintf cfg.sizeof_menuentry
                (file_menuentry_text env g filename
                  (ventoy_browser_check_filename cfg filename (grub_strlen filename) none).2
                  fsize)).1 }, ?_, rfl, rfl, ?_⟩
    · simp only [ventoy_browser_iterate_dir, hfile, hname, hres, hnlt, browser_list_insert,
        if_false, Bool.false_eq_true, not_true_eq_false]
    · intro hlt
      simp only [grub_strncpy]
      exact List.take_of_length_le (le_of_lt hlt)
  · intro fsize hres hlt
    unfold resolved_size at hres
    simp only [ventoy_browser_iterate_dir, hfile, hname, hres, hlt, if_false, if_true,
      Bool.false_eq_true]
  · intro hs ho
    refine ⟨by simp [resolved_size, hs, ho], ?_⟩
    simp only [ventoy_browser_iterate_dir, hfile, hname, hs, ho, if_false, if_true,
      Bool.false_eq_true]
  · intro hs
    simp [resolved_size, hs]
  · intro hs
    simp [resolved_size, hs]

/-- Witness of C14: the file `b.iso` of reported size 204800. -/
theorem file_child_inserted_iff_size_witness :
    ∃ node : browser_node,
      ventoy_browser_iterate_dir sample_config sample_env sample_globals true (cstr "b.iso")
        ⟨false, 204800⟩ [] = (0, node :: []) ∧
      node.dir = 0 ∧
      node.filename = grub_strncpy (cstr "b.iso") sample_config.sizeof_filename ∧
      ((cstr "b.iso").length < sample_config.sizeof_filename → node.filename = cstr "b.iso") :=
  (file_child_inserted_iff_size sample_config sample_env sample_globals (cstr "b.iso")
    ⟨false, 204800⟩ [] rfl (by decide)).1 204800 rfl (by decide)


/-! ## The two commands -/

/-- Counterexample to C11 as stated: a non-zero handle need not be the address
of a file system object.  On the sample machine the allocation succeeds, the handle argument `0x1` parses in base 16 to
the non-zero value 1 and the device opens, yet `ventoy_cmd_browser_dir` does
not return 0 with a menu: with any fuel the run ends in the call of `fs_dir`
through the value 1, which is not the address of a file system object. -/
theorem browser_dir_nonzero_handle_not_object :
    sample_dir_world.malloc_ok = true ∧
    grub_strtoul sample_dir_world.long_bits (cstr "0x1") 16 = 1 ∧
    sample_dir_world.device_open_ok = true ∧
    ∀ fuel : Nat,
      ventoy_cmd_browser_dir sample_config sample_env sample_dir_world fuel (cstr "hd1,1")
        (cstr "0x1") (cstr "/") = some browser_dir_run.undefined_call ∧
      ¬ ∃ r : browser_dir_result,
        ventoy_cmd_browser_dir sample_config sample_env sample_dir_world fuel (cstr "hd1,1")
          (cstr "0x1") (cstr "/") = some (browser_dir_run.returned r) ∧
        r.ret = 0 ∧ r.script.isSome = true := by
  have hp : grub_strtoul sample_dir_world.long_bits (cstr "0x1") 16 = 1 := by decide
  refine ⟨rfl, hp, rfl, ?_⟩
  intro fuel
  have hu := cmd_browser_dir_undefined sample_config sample_env sample_dir_world fuel
    (cstr "hd1,1") (cstr "0x1") (cstr "/") rfl (by rw [hp]; decide) rfl (by rw [hp]; rfl)
  refine ⟨hu, ?_⟩
  rintro ⟨r, hr, _⟩
  rw [hu] at hr
  cases hr

/-- C11: `ventoy_cmd_browser_dir` (given fuel for its drain loops) returns 0 and
submits a menu to the interpreter exactly when the buffer allocation succeeds,
the handle argument parses in base 16 to a non-zero value that is the address
of a file system object, and the device opens; the menu it submits is then the
rendering of the registry that the scan through that object leaves, made with
`g_menu_fs` set to the handle and `g_menu_device` to the first argument.  In each of
the three failure cases (allocation failure, handle parsing to zero, device
open failure) it returns 1 and submits nothing. -/
theorem browser_dir_status (cfg : browser_config) (env : browser_env) (w : browser_dir_world)
    (fuel : Nat) (a0 a1 a2 : CStr)
    (hfuel : ∀ fs_dir, w.fs_object (grub_strtoul w.long_bits a1 16) = some fs_dir →
      ∀ p, (fs_dir p).length < fuel) :
    ∃ run : browser_dir_run,
      ventoy_cmd_browser_dir cfg env w fuel a0 a1 a2 = some run ∧
      ((∃ r, run = browser_dir_run.returned r ∧ r.ret = 0 ∧ r.script.isSome = true) ↔
        (w.malloc_ok = true ∧ grub_strtoul w.long_bits a1 16 ≠ 0 ∧ w.device_open_ok = true ∧
          (w.fs_object (grub_strtoul w.long_bits a1 16)).isSome = true)) ∧
      (∀ fs_dir, w.malloc_ok = true → grub_strtoul w.long_bits a1 16 ≠ 0 →
        w.device_open_ok = true →
        w.fs_object (grub_strtoul w.long_bits a1 16) = some fs_dir →
        ∃ (r : browser_dir_result) (g : scan_globals) (p : CStr)
            (rr : render_state × submitted),
          run = browser_dir_run.returned r ∧ r.ret = 0 ∧
          g.g_menu_fs = grub_strtoul w.long_bits a1 16 ∧ g.g_menu_device = a0 ∧
          browser_dir_render cfg.g_sort_case_sensitive fuel (ventoy_browser_mbuf_alloc true).2
            (fs_dir_iterate cfg env g (fs_dir p) []) = some rr ∧
          r.script = some rr.2) ∧
      (w.malloc_ok = false →
        ∃ r, run = browser_dir_run.returned r ∧ r.ret = 1 ∧ r.script = none) ∧
      (grub_strtoul w.long_bits a1 16 = 0 →
        ∃ r, run = browser_dir_run.returned r ∧ r.ret = 1 ∧ r.script = none) ∧
      (w.device_open_ok = false →
        ∃ r, run = browser_dir_run.returned r ∧ r.ret = 1 ∧ r.script = none) := by
  by_cases hm : w.malloc_ok = true
  · by_cases hfs : grub_strtoul w.long_bits a1 16 = 0
    · refine ⟨_, cmd_browser_dir_early_return cfg env w fuel a0 a1 a2 hm (Or.inl hfs),
        ⟨?_, ?_⟩, ?_, ?_, ?_, ?_⟩
      · rintro ⟨r, hr, h0, _⟩
        cases hr
        exact absurd h0 (by decide)
      · intro h; exact absurd hfs h.2.1
      · intro _ _ h; exact absurd hfs h
      · intro _; exact ⟨_, rfl, rfl, rfl⟩
      · intro _; exact ⟨_, rfl, rfl, rfl⟩
      · intro _; exact ⟨_, rfl, rfl, rfl⟩
    · by_cases hdev : w.device_open_ok = true
      · cases hobj : w.fs_object (grub_strtoul w.long_bits a1 16) with
        | none =>
          refine ⟨_, cmd_browser_dir_undefined cfg env w fuel a0 a1 a2 hm hfs hdev hobj,
            ⟨?_, ?_⟩, ?_, ?_, ?_, ?_⟩
          · rintro ⟨r, hr, _⟩
            cases hr
          · intro h
            simp at h
          · intro fs_dir _ _ _ h
            cases h
          · intro h; rw [hm] at h; exact absurd h (by decide)
          · intro h; exact absurd h hfs
          · intro h; rw [hdev] at h; exact absurd h (by decide)
        | some fs_dir =>
          obtain ⟨g, p, rr, st, rel, hg1, hg2, hrr, hr⟩ :=
            cmd_browser_dir_success cfg env w fuel a0 a1 a2 fs_dir hm hfs hdev hobj
              (hfuel fs_dir hobj)
          refine ⟨_, hr, ⟨?_, ?_⟩, ?_, ?_, ?_, ?_⟩
          · intro _
            exact ⟨hm, hfs, hdev, rfl⟩
          · intro _
            exact ⟨_, rfl, rfl, rfl⟩
          · intro fs_dir2 _ _ _ h
            cases h
            exact ⟨_, g, p, rr, rfl, rfl, hg1, hg2, hrr, rfl⟩
          · intro h; rw [hm] at h; exact absurd h (by decide)
          · intro h; exact absurd h hfs
          · intro h; rw [hdev] at h; exact absurd h (by decide)
      · have hdev2 : w.device_open_ok = false := by simpa using hdev
        refine ⟨_, cmd_browser_dir_early_return cfg env w fuel a0 a1 a2 hm (Or.inr hdev2),
          ⟨?_, ?_⟩, ?_, ?_, ?_, ?_⟩
        · rintro ⟨r, hr, h0, _⟩
          cases hr
          exact absurd h0 (by decide)
        · intro h; exact absurd h.2.2.1 hdev
        · intro _ _ _ h; exact absurd h hdev
        · intro _; exact ⟨_, rfl, rfl, rfl⟩
        · intro _; exact ⟨_, rfl, rfl, rfl⟩
        · intro _; exact ⟨_, rfl, rfl, rfl⟩
  · have hm2 : w.malloc_ok = false := by simpa using hm
    refine ⟨_, cmd_browser_dir_alloc_fails cfg env w fuel a0 a1 a2 hm2, ⟨?_, ?_⟩, ?_, ?_, ?_, ?_⟩
    · rintro ⟨r, hr, h0, _⟩
      cases hr
      exact absurd h0 (by decide)
    · intro h; exact absurd h.1 hm
    · intro _ h; exact absurd h hm
    · intro _; exact ⟨_, rfl, rfl, rfl⟩
    · intro _; exact ⟨_, rfl, rfl, rfl⟩
    · intro _; exact ⟨_, rfl, rfl, rfl⟩

/-- Witness of C11: the run `vt_browser_dir hd1,1 0x7fe1a0 /isos` on the sample
machine, whose file system object lies at 0x7fe1a0, returns 0 and submits a
menu. -/
theorem browser_dir_status_witness :
    ∃ r : browser_dir_result,
      ventoy_cmd_browser_dir sample_config sample_env sample_dir_world 3 (cstr "hd1,1")
        (cstr "0x7fe1a0") (cstr "/isos") = some (browser_dir_run.returned r) ∧
      r.ret = 0 ∧ r.script.isSome = true := by
  have hp : grub_strtoul sample_dir_world.long_bits (cstr "0x7fe1a0") 16 = 8380832 := by decide
  obtain ⟨run, hrun, h1, _⟩ := browser_dir_status sample_config sample_env sample_dir_world 3
    (cstr "hd1,1") (cstr "0x7fe1a0") (cstr "/isos")
    (fun fs_dir h p => by
      rw [hp] at h
      simp only [sample_dir_world, if_true, Option.some.injEq] at h
      rw [← h]
      simp)
  obtain ⟨r, hr, h0, hs⟩ := h1.2 ⟨rfl, by rw [hp]; decide, rfl, by rw [hp]; rfl⟩
  rw [hr] at hrun
  exact ⟨r, hrun, h0, hs⟩

/-- C15: the early returns of `ventoy_cmd_browser_dir` leave the buffer
allocated.  In every run in which `ventoy_browser_mbuf_alloc` succeeded and
then the handle parses to zero or the device does not open, the command
returns 1 without any call of `ventoy_browser_mbuf_free`: the region is not
released. -/
theorem browser_dir_early_return_skips_free (cfg : browser_config) (env : browser_env)
    (w : browser_dir_world) (fuel : Nat) (a0 a1 a2 : CStr) (hm : w.malloc_ok = true)
    (hbad : grub_strtoul w.long_bits a1 16 = 0 ∨ w.device_open_ok = false) :
    (ventoy_browser_mbuf_alloc w.malloc_ok).1 = 1 ∧
    ∃ r : browser_dir_result,
      ventoy_cmd_browser_dir cfg env w fuel a0 a1 a2 = some (browser_dir_run.returned r) ∧
      r.ret = 1 ∧ r.mbuf_free_calls = 0 ∧ r.region_released = false := by
  refine ⟨by simp [ventoy_browser_mbuf_alloc, hm], _,
    cmd_browser_dir_early_return cfg env w fuel a0 a1 a2 hm hbad, rfl, rfl, rfl⟩

/-- Witness of C15: the run `vt_browser_dir hd1,1 0 /` on the sample machine. -/
theorem browser_dir_early_return_skips_free_witness :
    (ventoy_browser_mbuf_alloc sample_dir_world.malloc_ok).1 = 1 ∧
    ∃ r : browser_dir_result,
      ventoy_cmd_browser_dir sample_config sample_env sample_dir_world 3 (cstr "hd1,1")
        (cstr "0") (cstr "/") = some (browser_dir_run.returned r) ∧
      r.ret = 1 ∧ r.mbuf_free_calls = 0 ∧ r.region_released = false :=
  browser_dir_early_return_skips_free sample_config sample_env sample_dir_world 3
    (cstr "hd1,1") (cstr "0") (cstr "/") rfl (Or.inl (by decide))

/-- C16: for every disk name and every buffer state, when the disk opens and
the signature read at offset 0x1b8 equals the signature of the boot medium,
`ventoy_browser_iterate_disk` calls the partition hook on none of the
partitions of the disk, leaves the menu buffer as it is, and returns 0. -/
theorem iterate_disk_skips_own_medium (w : disk_world) (name : CStr) (mbuf : browser_mbuf)
    (disk : grub_disk) (hopen : w.grub_disk_open name = some disk)
    (hsig : disk.sig = w.selfsig) :
    ventoy_browser_iterate_disk w name mbuf = (0, mbuf, 0) := by
  unfold ventoy_browser_iterate_disk
  by_cases hh : char_at name 0 ≠ 104
  · simp [hh]
  · simp [hh, hopen, hsig]

/-- Witness of C16: the boot medium `hd0` of the sample machine, met with a
buffer that holds the go-back entry. -/
theorem iterate_disk_skips_own_medium_witness :
    ventoy_browser_iterate_disk sample_disk_world (cstr "hd0")
        (browser_ssprintf (ventoy_browser_mbuf_alloc true).2 disk_back_entry)
      = (0, browser_ssprintf (ventoy_browser_mbuf_alloc true).2 disk_back_entry, 0) :=
  iterate_disk_skips_own_medium sample_disk_world (cstr "hd0")
    (browser_ssprintf (ventoy_browser_mbuf_alloc true).2 disk_back_entry)
    ⟨cstr "hd0", 9, 305419896, [⟨0, 12, 1000, true⟩]⟩ (by decide) (by decide)

/-- C13: the continuation token round trip.  For every handle value `h` of an
unsigned machine word (32 or 64 bits), the token `0x%lx` written for `h` is
parsed by `grub_strtoul (.., 16)` back to exactly `h`; the text of a Directory
entry and the text of a partition entry carry that token for the handle they
encode, and `ventoy_cmd_browser_dir`, given the token as its second argument
where `h` is the address of a file system object, sets `g_menu_fs` to `h`. -/
theorem handle_token_round_trip (long_bits : Nat) (hbits : long_bits = 32 ∨ long_bits = 64)
    (h : Nat) (hh : h < 2 ^ long_bits) :
    grub_strtoul long_bits (cstr "0x" ++ fmt_lx h) 16 = h ∧
    (∀ (g : scan_globals) (filename : CStr), g.g_menu_fs = h →
      ∃ pre post, dir_menuentry_text g filename = pre ++ (cstr "0x" ++ fmt_lx h) ++ post) ∧
    (∀ (title : CStr) (disk : grub_disk) (partition : grub_partition) (fs : grub_fs_info),
      fs.handle = h →
      ∃ pre post, partition_browse_text title disk partition fs
        = pre ++ (cstr "0x" ++ fmt_lx h) ++ post) ∧
    (∀ (cfg : browser_config) (env : browser_env) (w : browser_dir_world) (fuel : Nat)
      (a0 a2 : CStr) (fs_dir : CStr → List dir_child),
      w.long_bits = long_bits → w.malloc_ok = true → w.device_open_ok = true →
      h ≠ 0 → w.fs_object h = some fs_dir → (∀ p, (fs_dir p).length < fuel) →
      ∃ (r : browser_dir_result) (g : scan_globals),
        ventoy_cmd_browser_dir cfg env w fuel a0 (cstr "0x" ++ fmt_lx h) a2
          = some (browser_dir_run.returned r) ∧
        r.globals = some g ∧ g.g_menu_fs = h) := by
  have hrt := strtoul_token long_bits hbits h hh
  have e : cstr " 0x" = cstr " " ++ cstr "0x" := by decide
  refine ⟨hrt, ?_, ?_, ?_⟩
  · intro g filename hg
    refine ⟨cstr "menuentry \"" ++ fmt_s10 (cstr "DIR") ++ cstr " [" ++ filename
      ++ cstr "]\" --class=vtoydir \x7b\n  vt_browser_dir " ++ g.g_menu_device ++ cstr " ",
      cstr " \"" ++ g.g_menu_path_buf ++ cstr "/" ++ filename ++ cstr "\"\n\x7d\n", ?_⟩
    simp only [dir_menuentry_text, e, hg, List.append_assoc]
  · intro title disk partition fs hfs
    refine ⟨cstr "menuentry \"" ++ title ++ cstr "\" --class=vtoydisk \x7b\n  vt_browser_dir "
      ++ disk.name ++ cstr "," ++ fmt_d (partition.number + 1) ++ cstr " ",
      cstr " /\n\x7d\n", ?_⟩
    simp only [partition_browse_text, e, hfs, List.append_assoc]
  · intro cfg env w fuel a0 a2 fs_dir hw hm hdev hne hobj hfuel
    have hfs : grub_strtoul w.long_bits (cstr "0x" ++ fmt_lx h) 16 ≠ 0 := by
      rw [hw, hrt]; exact hne
    have hobj2 : w.fs_object (grub_strtoul w.long_bits (cstr "0x" ++ fmt_lx h) 16)
        = some fs_dir := by
      rw [hw, hrt]; exact hobj
    obtain ⟨g, p, rr, st, rel, hg, _, _, hr⟩ :=
      cmd_browser_dir_success cfg env w fuel a0 (cstr "0x" ++ fmt_lx h) a2 fs_dir hm hfs hdev
        hobj2 hfuel
    refine ⟨_, g, hr, rfl, ?_⟩
    rw [hg, hw, hrt]

/-- Witness of C13: the handle 0x7fe1a0 on a machine of 64 bit words. -/
theorem handle_token_round_trip_witness :
    grub_strtoul 64 (cstr "0x" ++ fmt_lx 8380832) 16 = 8380832 ∧
    cstr "0x" ++ fmt_lx 8380832 = cstr "0x7fe1a0" :=
  ⟨(handle_token_round_trip 64 (Or.inr rfl) 8380832 (by decide)).1, by decide⟩

/-- C12: the buffer invariant.  After a successful `ventoy_browser_mbuf_alloc`
the length `pos` is 0 and the capacity `max` is 65536; every state reached from
there by appends and by calls of `ventoy_browser_mbuf_extend` (the capacity
staying in the range of `int`) has `0 <= pos <= max`; the buffer of the
directory session is such a state, and so is the buffer of the disk session
when it visits at most 32766 partitions. -/
theorem mbuf_length_within_capacity :
    ((ventoy_browser_mbuf_alloc true).1 = 1 ∧ (ventoy_browser_mbuf_alloc true).2.pos = 0 ∧
      (ventoy_browser_mbuf_alloc true).2.max = 65536) ∧
    (∀ m : browser_mbuf, mbuf_reachable m → 0 ≤ m.pos ∧ m.pos ≤ m.max) ∧
    (∀ (cs : Int) (fuel : Nat) (l : List browser_node) (r : render_state × submitted),
      browser_dir_render cs fuel (ventoy_browser_mbuf_alloc true).2 l = some r →
      mbuf_reachable r.1.mbuf) ∧
    (∀ (w : disk_world) (m : browser_mbuf), w.malloc_ok = true →
      (disk_dev_iterate w w.disk_names
        (browser_ssprintf (ventoy_browser_mbuf_alloc true).2 disk_back_entry)).2 ≤ 32766 →
      (ventoy_cmd_browser_disk w).mbuf = some m → mbuf_reachable m) :=
  ⟨by decide, mbuf_reachable_bounds, browser_dir_render_reachable,
   fun w m hm hk hres => browser_disk_reachable w m hm hk hres⟩

set_option maxRecDepth 100000 in
/-- Witness of C12: the buffer that the disk session of the sample machine
submits holds 325 bytes in a capacity of 65536. -/
theorem mbuf_length_within_capacity_witness :
    ∃ m : browser_mbuf, (ventoy_cmd_browser_disk sample_disk_world).mbuf = some m ∧
      m.pos = 325 ∧ m.max = 65536 ∧ 0 ≤ m.pos ∧ m.pos ≤ m.max := by
  have hres : (ventoy_cmd_browser_disk sample_disk_world).mbuf
      = some (disk_dev_iterate sample_disk_world sample_disk_world.disk_names
        (browser_ssprintf (ventoy_browser_mbuf_alloc true).2 disk_back_entry)).1 := by
    rfl
  have hb := mbuf_length_within_capacity.2.1 _
    (mbuf_length_within_capacity.2.2.2 sample_disk_world _ rfl (by decide) hres)
  exact ⟨_, hres, by decide, by decide, hb.1, hb.2⟩


/-! ## The drain loops -/

end Ventoy
